import Mathlib

/-!
# Reviewer assignment service: model and properties

A shallow embedding of the Go packages `internal/domain`, `internal/repository`,
`internal/repository/postgres` and `internal/service`.

* The services (`PullRequestService`, `BulkDeactivateService`, `TeamService`) are written
  against the repository interfaces, exactly as in the Go code.  An interface is a record
  of functions over an arbitrary state type `σ`: a query reads the state, a command returns
  the new state next to its result.
* The PostgreSQL repositories are modelled over `DB`, the four tables as lists of rows.
* `Recorder` wraps repositories so that every command issued by a service is logged together
  with the state it was issued in (the counterpart of the mocks of the Go tests).
-/

namespace Avito

/-! ## internal/domain -/

/-- Go `type PRStatus string`. -/
abbrev PRStatus := String

/-- Constant `domain.PRStatusOpen`. -/
def PRStatusOpen : PRStatus := "OPEN"

/-- Constant `domain.PRStatusMerged`. -/
def PRStatusMerged : PRStatus := "MERGED"

/-- Go `domain.User`. -/
structure User where
  UserID : String
  Username : String
  TeamName : String
  IsActive : Bool
deriving DecidableEq, Repr

/-- Go `domain.TeamMember`. -/
structure TeamMember where
  UserID : String
  Username : String
  IsActive : Bool
deriving DecidableEq, Repr

/-- Go `domain.Team`. -/
structure Team where
  TeamName : String
  Members : List TeamMember
deriving DecidableEq, Repr

/-- Go `domain.PullRequest`; a `*time.Time` is an optional instant, instants are natural
numbers. -/
structure PullRequest where
  PullRequestID : String
  PullRequestName : String
  AuthorID : String
  Status : PRStatus
  AssignedReviewers : List String
  CreatedAt : Option Nat
  MergedAt : Option Nat
deriving DecidableEq, Repr

/-! ## Errors -/

/-- Go `error` values of the repository and service packages: the sentinel errors, and the
values built by `fmt.Errorf` without (`New`) and with (`Wrap`) a wrapped error. -/
inductive Error where
  | ErrNotFound
  | ErrPRNotFound
  | ErrPRExists
  | ErrPRMerged
  | ErrNotAssigned
  | ErrNoCandidate
  | ErrAuthorNotFound
  | ErrUserNotFound
  | ErrTeamExists
  | ErrTeamNotFound
  | New (msg : String)
  | Wrap (msg : String) (err : Error)
deriving DecidableEq, Repr

/-- Go `errors.Is`: the error or one of the errors it wraps is the target. -/
def errorsIs : Error → Error → Bool
  | Error.Wrap msg inner, target =>
    decide (Error.Wrap msg inner = target) || errorsIs inner target
  | err, target => decide (err = target)

/-! ## internal/repository: the interfaces -/

/-- Go `repository.UserRepository` (the methods the services below call). -/
structure UserRepository (σ : Type) where
  GetUser : σ → String → Except Error User
  GetActiveUsersByTeam : σ → String → List String → Except Error (List User)
  BulkSetIsActive : σ → List String → Bool → Option Error × σ

/-- Go `repository.PullRequestRepository` (without the two reporting queries).  `CreatePR`
receives a pointer and may write through it, so it also returns the pull request. -/
structure PullRequestRepository (σ : Type) where
  CreatePR : σ → PullRequest → Option Error × PullRequest × σ
  GetPR : σ → String → Except Error PullRequest
  UpdatePR : σ → PullRequest → Option Error × σ
  MergePR : σ → String → Except Error PullRequest × σ
  PRExists : σ → String → Except Error Bool
  ReassignReviewer : σ → String → String → String → Option Error × σ
  GetOpenPRsByReviewers : σ → List String → Except Error (List PullRequest)

/-- Go `repository.TeamRepository`. -/
structure TeamRepository (σ : Type) where
  CreateTeam : σ → Team → Option Error × σ
  GetTeam : σ → String → Except Error Team
  TeamExists : σ → String → Except Error Bool

/-! ## math/rand -/

/-- The closure handed to `rand.Shuffle` in `selectReviewers`:
`shuffled[i], shuffled[j] = shuffled[j], shuffled[i]`. -/
def swapAt {α : Type} (l : List α) (i j : Nat) : List α :=
  match l[i]?, l[j]? with
  | some a, some b => (l.set i b).set j a
  | _, _ => l

/-- The loop of `rand.Shuffle`: `for ; i > 0; i-- { j := Intn(i+1); swap(i, j) }`, where
`rnd i` stands for the number drawn at index `i`. -/
def shuffleFrom {α : Type} (rnd : Nat → Nat) : Nat → List α → List α
  | 0, l => l
  | i + 1, l => shuffleFrom rnd i (swapAt l (i + 1) (rnd (i + 1) % (i + 2)))

/-- Library `rand.Shuffle(n, swap)` (Fisher-Yates) applied to a slice of length `n`. -/
def Shuffle {α : Type} (rnd : Nat → Nat) (l : List α) : List α :=
  shuffleFrom rnd (l.length - 1) l

/-! ## internal/service/pullrequest_service.go -/

/-- Go `service.PullRequestService`. -/
structure PullRequestService (σ : Type) where
  prRepo : PullRequestRepository σ
  userRepo : UserRepository σ
  teamRepo : TeamRepository σ

/-- Go `selectReviewers`: shuffle a copy of the candidates and take the ids of the first
`min(len, maxCount)` of them. -/
def selectReviewers (rnd : Nat → Nat) (candidates : List User) (maxCount : Nat) :
    List String :=
  if candidates.length = 0 then []
  else
    let shuffled := Shuffle rnd candidates
    let count := if shuffled.length < maxCount then shuffled.length else maxCount
    (shuffled.take count).map User.UserID

/-- Go `PullRequestService.CreatePR`.  The result is the returned error, the pull request
behind the pointer after the call, and the state. -/
def PullRequestService.CreatePR {σ : Type} (svc : PullRequestService σ) (rnd : Nat → Nat)
    (s : σ) (pr : PullRequest) : Option Error × PullRequest × σ :=
  match svc.prRepo.PRExists s pr.PullRequestID with
  | .error err => (some (.Wrap "failed to check PR existence" err), pr, s)
  | .ok true => (some .ErrPRExists, pr, s)
  | .ok false =>
    match svc.userRepo.GetUser s pr.AuthorID with
    | .error err =>
      if errorsIs err .ErrNotFound then (some .ErrAuthorNotFound, pr, s)
      else (some (.Wrap "failed to get author" err), pr, s)
    | .ok author =>
      match svc.userRepo.GetActiveUsersByTeam s author.TeamName [pr.AuthorID] with
      | .error err => (some (.Wrap "failed to get active users" err), pr, s)
      | .ok candidates =>
        let pr1 := { pr with AssignedReviewers := selectReviewers rnd candidates 2 }
        let pr2 := { pr1 with Status := PRStatusOpen }
        match svc.prRepo.CreatePR s pr2 with
        | (some err, pr3, s1) => (some (.Wrap "failed to create PR" err), pr3, s1)
        | (none, pr3, s1) => (none, pr3, s1)

/-- Go `PullRequestService.MergePR`. -/
def PullRequestService.MergePR {σ : Type} (svc : PullRequestService σ) (s : σ)
    (prID : String) : Except Error PullRequest × σ :=
  match svc.prRepo.MergePR s prID with
  | (.error err, s1) =>
    if errorsIs err .ErrNotFound then (.error .ErrPRNotFound, s1)
    else (.error (.Wrap "failed to merge PR" err), s1)
  | (.ok pr, s1) => (.ok pr, s1)

/-- Go `PullRequestService.ReassignReviewer`. -/
def PullRequestService.ReassignReviewer {σ : Type} (svc : PullRequestService σ)
    (rnd : Nat → Nat) (s : σ) (prID : String) (oldUserID : String) :
    Except Error (PullRequest × String) × σ :=
  match svc.prRepo.GetPR s prID with
  | .error err =>
    if errorsIs err .ErrNotFound then (.error .ErrPRNotFound, s)
    else (.error (.Wrap "failed to get PR" err), s)
  | .ok pr =>
    if pr.Status = PRStatusMerged then (.error .ErrPRMerged, s)
    else if oldUserID ∉ pr.AssignedReviewers then (.error .ErrNotAssigned, s)
    else
      match svc.userRepo.GetUser s oldUserID with
      | .error err =>
        if errorsIs err .ErrNotFound then (.error .ErrUserNotFound, s)
        else (.error (.Wrap "failed to get old reviewer" err), s)
      | .ok oldReviewer =>
        let excludeIDs := oldUserID :: pr.AssignedReviewers.filter (fun r => r ≠ oldUserID)
        match svc.userRepo.GetActiveUsersByTeam s oldReviewer.TeamName excludeIDs with
        | .error err => (.error (.Wrap "failed to get active users" err), s)
        | .ok candidates =>
          if candidates.length = 0 then (.error .ErrNoCandidate, s)
          else
            match selectReviewers rnd candidates 1 with
            | [] => (.error .ErrNoCandidate, s)
            | newUserID :: _ =>
              match svc.prRepo.ReassignReviewer s prID oldUserID newUserID with
              | (some err, s1) => (.error (.Wrap "failed to reassign reviewer" err), s1)
              | (none, s1) =>
                match svc.prRepo.GetPR s1 prID with
                | .error err => (.error (.Wrap "failed to get updated PR" err), s1)
                | .ok updatedPR => (.ok (updatedPR, newUserID), s1)

/-! ## internal/service/bulk_deactivate_service.go -/

/-- Go `service.BulkDeactivateService`. -/
structure BulkDeactivateService (σ : Type) where
  userRepo : UserRepository σ
  prRepo : PullRequestRepository σ
  teamRepo : TeamRepository σ

/-- The validation loop of `BulkDeactivate`: every listed user exists and belongs to the
team; the first offending id ends the loop with its error. -/
def BulkDeactivateService.validateUsers {σ : Type} (svc : BulkDeactivateService σ) (s : σ)
    (teamName : String) : List String → Option Error
  | [] => none
  | userID :: rest =>
    match svc.userRepo.GetUser s userID with
    | .error getUserErr => some (.Wrap ("user " ++ userID ++ " not found") getUserErr)
    | .ok user =>
      if user.TeamName ≠ teamName then
        some (.New ("user " ++ userID ++ " does not belong to team " ++ teamName))
      else svc.validateUsers s teamName rest

/-- The `deactivatedReviewers` slice built per pull request: its reviewers, in order, that
occur in `userIDs`. -/
def deactivatedReviewers (pr : PullRequest) (userIDs : List String) : List String :=
  pr.AssignedReviewers.filter (fun reviewerID => reviewerID ∈ userIDs)

/-- The loop over `deactivatedReviewers` of one pull request of the snapshot; every
`continue` of the Go loop moves on to the next reviewer. -/
def BulkDeactivateService.reassignSlots {σ : Type} (svc : BulkDeactivateService σ)
    (userIDs : List String) (pr : PullRequest) : List String → σ → σ
  | [], s => s
  | oldReviewerID :: rest, s =>
    match svc.userRepo.GetUser s oldReviewerID with
    | .error _ => svc.reassignSlots userIDs pr rest s
    | .ok oldReviewer =>
      let excludeIDs := userIDs ++ pr.AssignedReviewers
      match svc.userRepo.GetActiveUsersByTeam s oldReviewer.TeamName excludeIDs with
      | .error _ => svc.reassignSlots userIDs pr rest s
      | .ok [] => svc.reassignSlots userIDs pr rest s
      | .ok (candidate :: _) =>
        let newReviewerID := candidate.UserID
        match svc.prRepo.ReassignReviewer s pr.PullRequestID oldReviewerID newReviewerID with
        | (some _, s1) => svc.reassignSlots userIDs pr rest s1
        | (none, s1) => svc.reassignSlots userIDs pr rest s1

/-- The loop `for _, pr := range openPRs` of `BulkDeactivate`. -/
def BulkDeactivateService.reassignPRs {σ : Type} (svc : BulkDeactivateService σ)
    (userIDs : List String) : List PullRequest → σ → σ
  | [], s => s
  | pr :: rest, s =>
    svc.reassignPRs userIDs rest
      (svc.reassignSlots userIDs pr (deactivatedReviewers pr userIDs) s)

/-- Go `BulkDeactivateService.BulkDeactivate`. -/
def BulkDeactivateService.BulkDeactivate {σ : Type} (svc : BulkDeactivateService σ) (s : σ)
    (teamName : String) (userIDs : List String) : Option Error × σ :=
  if userIDs.length = 0 then (some (.New "no users provided"), s)
  else
    match svc.teamRepo.GetTeam s teamName with
    | .error err => (some (.Wrap "team not found" err), s)
    | .ok _ =>
      match svc.validateUsers s teamName userIDs with
      | some err => (some err, s)
      | none =>
        match svc.prRepo.GetOpenPRsByReviewers s userIDs with
        | .error err => (some (.Wrap "failed to get open PRs" err), s)
        | .ok openPRs =>
          match svc.userRepo.BulkSetIsActive s userIDs false with
          | (some err, s1) => (some (.Wrap "failed to deactivate users" err), s1)
          | (none, s1) => (none, svc.reassignPRs userIDs openPRs s1)

/-- The body of the loop over `deactivatedReviewers`: the reassignment attempt for one
reviewer of one pull request of the snapshot, as a function of the state. -/
def BulkDeactivateService.reassignSlot {σ : Type} (svc : BulkDeactivateService σ)
    (userIDs : List String) (pr : PullRequest) (oldReviewerID : String) (s : σ) : σ :=
  match svc.userRepo.GetUser s oldReviewerID with
  | .error _ => s
  | .ok oldReviewer =>
    let excludeIDs := userIDs ++ pr.AssignedReviewers
    match svc.userRepo.GetActiveUsersByTeam s oldReviewer.TeamName excludeIDs with
    | .error _ => s
    | .ok [] => s
    | .ok (candidate :: _) =>
      let newReviewerID := candidate.UserID
      (svc.prRepo.ReassignReviewer s pr.PullRequestID oldReviewerID newReviewerID).2

/-! ## internal/service/team_service.go -/

/-- Go `service.TeamService`. -/
structure TeamService (σ : Type) where
  teamRepo : TeamRepository σ

/-- Go `TeamService.CreateTeam`. -/
def TeamService.CreateTeam {σ : Type} (svc : TeamService σ) (s : σ) (team : Team) :
    Option Error × σ :=
  match svc.teamRepo.TeamExists s team.TeamName with
  | .error err => (some (.Wrap "failed to check team existence" err), s)
  | .ok true => (some .ErrTeamExists, s)
  | .ok false =>
    match svc.teamRepo.CreateTeam s team with
    | (some err, s1) => (some (.Wrap "failed to create team" err), s1)
    | (none, s1) => (none, s1)

/-! ## internal/repository/postgres: the database -/

/-- A row of table `pull_requests`. -/
structure PRRow where
  pull_request_id : String
  pull_request_name : String
  author_id : String
  status : String
  created_at : Option Nat
  merged_at : Option Nat
deriving DecidableEq, Repr

/-- The database the repositories share: tables `teams`, `users` (a row carries the fields
of `domain.User`), `pull_requests` and `pr_reviewers` (pairs `(pull_request_id, user_id)`),
each in insertion order, and the wall clock read by `time.Now()`. -/
structure DB where
  teams : List String
  users : List User
  pull_requests : List PRRow
  pr_reviewers : List (String × String)
  clock : Nat
deriving DecidableEq, Repr

/-- What the repositories take from outside the Go sources.  The SQL schema is not among
them: `reviewersKey` says whether it declares `(pull_request_id, user_id)` unique in
`pr_reviewers`, and `column` is what its timestamp columns `created_at` and `merged_at` keep
of an instant written to them (a PostgreSQL `timestamp` keeps microseconds, `time.Now()` has
nanoseconds).  `mapOrder` is the iteration order of the Go map in `GetOpenPRsByReviewers`. -/
structure PgEnv where
  reviewersKey : Bool
  mapOrder : List PullRequest → List PullRequest
  column : Nat → Nat

/-- Lexicographic comparison of code point lists. -/
def lexLE : List Nat → List Nat → Bool
  | [], _ => true
  | _ :: _, [] => false
  | a :: as, b :: bs => decide (a < b) || (decide (a = b) && lexLE as bs)

/-- The order of `ORDER BY user_id`: ids compared code point by code point. -/
def idLE (a b : String) : Bool :=
  lexLE (a.data.map Char.toNat) (b.data.map Char.toNat)

/-- Rows sorted by `ORDER BY user_id`, for a column of ids. -/
def orderByID (ids : List String) : List String :=
  ids.insertionSort (fun a b => idLE a b = true)

/-- Rows sorted by `ORDER BY user_id`, for user rows. -/
def orderByUserID (us : List User) : List User :=
  us.insertionSort (fun a b => idLE a.UserID b.UserID = true)

/-- Go `time.Now()`: the current instant; the clock moves on. -/
def timeNow (s : DB) : Nat × DB :=
  (s.clock, { s with clock := s.clock + 1 })

/-! ### user_repository.go -/

/-- Go `userRepository.GetUser`. -/
def userRepository.GetUser (s : DB) (userID : String) : Except Error User :=
  match s.users.find? (fun u => u.UserID = userID) with
  | none => .error .ErrNotFound
  | some user => .ok user

/-- Go `userRepository.GetActiveUsersByTeam`: the `NOT IN` clause is added only for a
non-empty exclusion list. -/
def userRepository.GetActiveUsersByTeam (s : DB) (teamName : String)
    (excludeUserIDs : List String) : Except Error (List User) :=
  let active := s.users.filter (fun u => u.TeamName = teamName ∧ u.IsActive = true)
  let rows :=
    if excludeUserIDs.length > 0 then active.filter (fun u => u.UserID ∉ excludeUserIDs)
    else active
  .ok (orderByUserID rows)

/-- Go `userRepository.BulkSetIsActive`. -/
def userRepository.BulkSetIsActive (s : DB) (userIDs : List String) (isActive : Bool) :
    Option Error × DB :=
  if userIDs.length = 0 then (none, s)
  else
    (none, { s with users := s.users.map (fun u =>
      if u.UserID ∈ userIDs then { u with IsActive := isActive } else u) })

/-- Go `postgres.NewUserRepository`. -/
def NewUserRepository : UserRepository DB where
  GetUser := userRepository.GetUser
  GetActiveUsersByTeam := userRepository.GetActiveUsersByTeam
  BulkSetIsActive := userRepository.BulkSetIsActive

/-! ### pullrequest_repository.go -/

/-- The query `SELECT user_id FROM pr_reviewers WHERE pull_request_id = $1 ORDER BY user_id`
of `GetPR` and `GetOpenPRsByReviewers`. -/
def reviewersOf (s : DB) (prID : String) : List String :=
  orderByID ((s.pr_reviewers.filter (fun r => r.1 = prID)).map Prod.snd)

/-- The `INSERT INTO pr_reviewers` loop of `CreatePR` and `UpdatePR`; `none` when an insert
violates the key (if the schema has one). -/
def insertReviewers (env : PgEnv) (prID : String) :
    List String → List (String × String) → Option (List (String × String))
  | [], rows => some rows
  | reviewerID :: rest, rows =>
    if env.reviewersKey = true ∧ (prID, reviewerID) ∈ rows then none
    else insertReviewers env prID rest (rows ++ [(prID, reviewerID)])

/-- Go `pullRequestRepository.CreatePR`: one transaction; `pull_request_id` is the key of
`pull_requests`.  A failed statement rolls back, the pointer is written only on commit.  The
row gets what the column keeps of `now`, the pointer gets `now` itself. -/
def pullRequestRepository.CreatePR (env : PgEnv) (s : DB) (pr : PullRequest) :
    Option Error × PullRequest × DB :=
  let (now, s0) := timeNow s
  if s0.pull_requests.any (fun r => r.pull_request_id = pr.PullRequestID) then
    (some (.Wrap "failed to create PR" (.New "duplicate key")), pr, s0)
  else
    let row : PRRow :=
      { pull_request_id := pr.PullRequestID, pull_request_name := pr.PullRequestName,
        author_id := pr.AuthorID, status := pr.Status, created_at := some (env.column now),
        merged_at := none }
    match insertReviewers env pr.PullRequestID pr.AssignedReviewers s0.pr_reviewers with
    | none => (some (.Wrap "failed to assign reviewer" (.New "duplicate key")), pr, s0)
    | some rows =>
      (none, { pr with CreatedAt := some now },
        { s0 with pull_requests := s0.pull_requests ++ [row], pr_reviewers := rows })

/-- Go `pullRequestRepository.GetPR`. -/
def pullRequestRepository.GetPR (s : DB) (prID : String) : Except Error PullRequest :=
  match s.pull_requests.find? (fun r => r.pull_request_id = prID) with
  | none => .error .ErrNotFound
  | some row =>
    .ok { PullRequestID := row.pull_request_id, PullRequestName := row.pull_request_name,
          AuthorID := row.author_id, Status := row.status,
          AssignedReviewers := reviewersOf s prID,
          CreatedAt := row.created_at, MergedAt := row.merged_at }

/-- Go `pullRequestRepository.UpdatePR`: one transaction (update the row, delete the
reviewers, insert the new ones).  Column `merged_at` gets what it keeps of `pr.MergedAt`. -/
def pullRequestRepository.UpdatePR (env : PgEnv) (s : DB) (pr : PullRequest) :
    Option Error × DB :=
  let updated := s.pull_requests.map (fun r =>
    if r.pull_request_id = pr.PullRequestID then
      { r with pull_request_name := pr.PullRequestName, status := pr.Status,
               merged_at := pr.MergedAt.map env.column }
    else r)
  let kept := s.pr_reviewers.filter (fun r => r.1 ≠ pr.PullRequestID)
  match insertReviewers env pr.PullRequestID pr.AssignedReviewers kept with
  | none => (some (.Wrap "failed to assign reviewer" (.New "duplicate key")), s)
  | some rows => (none, { s with pull_requests := updated, pr_reviewers := rows })

/-- Go `pullRequestRepository.MergePR`: the pull request returned by the merging call
carries `now` itself, the row what the column keeps of it. -/
def pullRequestRepository.MergePR (env : PgEnv) (s : DB) (prID : String) :
    Except Error PullRequest × DB :=
  match pullRequestRepository.GetPR s prID with
  | .error err => (.error err, s)
  | .ok pr =>
    if pr.Status = PRStatusMerged then (.ok pr, s)
    else
      let (now, s0) := timeNow s
      let pr1 := { pr with Status := PRStatusMerged }
      let pr2 := { pr1 with MergedAt := some now }
      match pullRequestRepository.UpdatePR env s0 pr2 with
      | (some err, s1) => (.error err, s1)
      | (none, s1) => (.ok pr2, s1)

/-- Go `pullRequestRepository.PRExists`. -/
def pullRequestRepository.PRExists (s : DB) (prID : String) : Except Error Bool :=
  .ok (s.pull_requests.any (fun r => r.pull_request_id = prID))

/-- Go `pullRequestRepository.ReassignReviewer`: one transaction; the `UPDATE` fails when
the new row would repeat an existing one and the schema has the key. -/
def pullRequestRepository.ReassignReviewer (env : PgEnv) (s : DB)
    (prID oldUserID newUserID : String) : Option Error × DB :=
  let count := (s.pr_reviewers.filter (fun r => r.1 = prID ∧ r.2 = oldUserID)).length
  if count = 0 then (some (.New "reviewer not assigned to this PR"), s)
  else if env.reviewersKey = true ∧ newUserID ≠ oldUserID ∧
      (prID, newUserID) ∈ s.pr_reviewers then
    (some (.Wrap "failed to reassign reviewer" (.New "duplicate key")), s)
  else
    (none, { s with pr_reviewers := s.pr_reviewers.map (fun r =>
      if r.1 = prID ∧ r.2 = oldUserID then (prID, newUserID) else r) })

/-- The `prMap` of `GetOpenPRsByReviewers`: the first scanned row of every id. -/
def firstPerID : List PRRow → List PRRow
  | [] => []
  | r :: rest =>
    r :: (firstPerID rest).filter (fun x => x.pull_request_id ≠ r.pull_request_id)

/-- Go `pullRequestRepository.GetOpenPRsByReviewers`: the OPEN pull requests with a reviewer
among `userIDs`, collected in a map, listed in the map's order, each then given its
reviewers.  (The `ORDER BY created_at` of the query is lost in the map.) -/
def pullRequestRepository.GetOpenPRsByReviewers (env : PgEnv) (s : DB)
    (userIDs : List String) : Except Error (List PullRequest) :=
  if userIDs.length = 0 then .ok []
  else
    let rows := s.pull_requests.filter (fun r =>
      r.status = "OPEN" ∧
        ∃ rv ∈ s.pr_reviewers, rv.1 = r.pull_request_id ∧ rv.2 ∈ userIDs)
    let prs := env.mapOrder ((firstPerID rows).map (fun row =>
      { PullRequestID := row.pull_request_id, PullRequestName := row.pull_request_name,
        AuthorID := row.author_id, Status := row.status, AssignedReviewers := [],
        CreatedAt := row.created_at, MergedAt := row.merged_at }))
    .ok (prs.map (fun pr =>
      { pr with AssignedReviewers := pr.AssignedReviewers ++ reviewersOf s pr.PullRequestID }))

/-- Go `postgres.NewPullRequestRepository`. -/
def NewPullRequestRepository (env : PgEnv) : PullRequestRepository DB where
  CreatePR := pullRequestRepository.CreatePR env
  GetPR := pullRequestRepository.GetPR
  UpdatePR := pullRequestRepository.UpdatePR env
  MergePR := pullRequestRepository.MergePR env
  PRExists := pullRequestRepository.PRExists
  ReassignReviewer := pullRequestRepository.ReassignReviewer env
  GetOpenPRsByReviewers := pullRequestRepository.GetOpenPRsByReviewers env

/-! ### team_repository.go -/

/-- The statement `INSERT INTO users ... ON CONFLICT (user_id) DO UPDATE ...`. -/
def upsertUser (users : List User) (u : User) : List User :=
  if users.any (fun x => x.UserID = u.UserID) then
    users.map (fun x => if x.UserID = u.UserID then u else x)
  else users ++ [u]

/-- Go `teamRepository.CreateTeam`. -/
def teamRepository.CreateTeam (s : DB) (team : Team) : Option Error × DB :=
  let teams := if team.TeamName ∈ s.teams then s.teams else s.teams ++ [team.TeamName]
  let users := team.Members.foldl (fun us m =>
    upsertUser us { UserID := m.UserID, Username := m.Username, TeamName := team.TeamName,
                    IsActive := m.IsActive }) s.users
  (none, { s with teams := teams, users := users })

/-- Go `teamRepository.GetTeam`. -/
def teamRepository.GetTeam (s : DB) (teamName : String) : Except Error Team :=
  if teamName ∉ s.teams then .error .ErrNotFound
  else
    .ok { TeamName := teamName,
          Members := (orderByUserID (s.users.filter (fun u => u.TeamName = teamName))).map
            (fun u => { UserID := u.UserID, Username := u.Username, IsActive := u.IsActive }) }

/-- Go `teamRepository.TeamExists`. -/
def teamRepository.TeamExists (s : DB) (teamName : String) : Except Error Bool :=
  .ok (decide (teamName ∈ s.teams))

/-- Go `postgres.NewTeamRepository`. -/
def NewTeamRepository : TeamRepository DB where
  CreateTeam := teamRepository.CreateTeam
  GetTeam := teamRepository.GetTeam
  TeamExists := teamRepository.TeamExists

/-! ## internal/router/router.go: the services over PostgreSQL -/

/-- Go `service.NewPullRequestService(prRepo, userRepo, teamRepo)` as wired by the router. -/
def pgPullRequestService (env : PgEnv) : PullRequestService DB where
  prRepo := NewPullRequestRepository env
  userRepo := NewUserRepository
  teamRepo := NewTeamRepository

/-- Go `service.NewBulkDeactivateService(userRepo, prRepo, teamRepo)` as wired by the router. -/
def pgBulkDeactivateService (env : PgEnv) : BulkDeactivateService DB where
  userRepo := NewUserRepository
  prRepo := NewPullRequestRepository env
  teamRepo := NewTeamRepository

/-! ## internal/handler/errors.go -/

/-- Go `type ErrorCode string`. -/
abbrev ErrorCode := String

/-- Constant `handler.ErrorCodeTeamExists`. -/
def ErrorCodeTeamExists : ErrorCode := "TEAM_EXISTS"

/-- Constant `handler.ErrorCodePRExists`. -/
def ErrorCodePRExists : ErrorCode := "PR_EXISTS"

/-- Constant `handler.ErrorCodePRMerged`. -/
def ErrorCodePRMerged : ErrorCode := "PR_MERGED"

/-- Constant `handler.ErrorCodeNotAssigned`. -/
def ErrorCodeNotAssigned : ErrorCode := "NOT_ASSIGNED"

/-- Constant `handler.ErrorCodeNoCandidate`. -/
def ErrorCodeNoCandidate : ErrorCode := "NO_CANDIDATE"

/-- Constant `handler.ErrorCodeNotFound`. -/
def ErrorCodeNotFound : ErrorCode := "NOT_FOUND"

/-- Library `http.StatusBadRequest`. -/
def StatusBadRequest : Nat := 400

/-- Library `http.StatusNotFound`. -/
def StatusNotFound : Nat := 404

/-- Library `http.StatusConflict`. -/
def StatusConflict : Nat := 409

/-- Library `http.StatusInternalServerError`. -/
def StatusInternalServerError : Nat := 500

/-- What `writeError` leaves in the `http.ResponseWriter`: the status code and the two
fields of the JSON body (Go `handler.ErrorResponse`). -/
structure ErrorResponse where
  StatusCode : Nat
  Code : String
  Message : String
deriving DecidableEq, Repr

/-- Go `writeError`. -/
def writeError (code : ErrorCode) (message : String) (statusCode : Nat) : ErrorResponse :=
  { StatusCode := statusCode, Code := code, Message := message }

/-- Go `handleServiceError`: a `switch err` over the sentinel errors of package `service`,
compared by identity; every other error takes the `default` branch. -/
def handleServiceError (err : Error) : ErrorResponse :=
  match err with
  | .ErrTeamExists => writeError ErrorCodeTeamExists "team_name already exists" StatusBadRequest
  | .ErrTeamNotFound => writeError ErrorCodeNotFound "team not found" StatusNotFound
  | .ErrUserNotFound => writeError ErrorCodeNotFound "user not found" StatusNotFound
  | .ErrPRNotFound => writeError ErrorCodeNotFound "PR not found" StatusNotFound
  | .ErrPRExists => writeError ErrorCodePRExists "PR id already exists" StatusConflict
  | .ErrPRMerged => writeError ErrorCodePRMerged "cannot reassign on merged PR" StatusConflict
  | .ErrNotAssigned =>
    writeError ErrorCodeNotAssigned "reviewer is not assigned to this PR" StatusConflict
  | .ErrNoCandidate =>
    writeError ErrorCodeNoCandidate "no active replacement candidate in team" StatusConflict
  | .ErrAuthorNotFound => writeError ErrorCodeNotFound "author/team not found" StatusNotFound
  | _ => writeError ErrorCodeNotFound "internal server error" StatusInternalServerError

/-! ## Recording the commands a service issues -/

/-- A command of a repository interface, with its arguments. -/
inductive RepoCall where
  | BulkSetIsActive (userIDs : List String) (isActive : Bool)
  | CreatePR (pr : PullRequest)
  | UpdatePR (pr : PullRequest)
  | MergePR (prID : String)
  | ReassignReviewer (prID oldUserID newUserID : String)
  | CreateTeam (team : Team)
deriving DecidableEq, Repr

/-- A repository state together with the log of the commands issued so far, oldest first,
each with the state it was issued in. -/
structure Recorder (σ : Type) where
  state : σ
  calls : List (σ × RepoCall)

/-- The log extended by one command. -/
def Recorder.log {σ : Type} (t : Recorder σ) (c : RepoCall) (s1 : σ) : Recorder σ :=
  { state := s1, calls := t.calls ++ [(t.state, c)] }

/-- A user repository that logs its commands and otherwise behaves as `r`. -/
def UserRepository.recorded {σ : Type} (r : UserRepository σ) :
    UserRepository (Recorder σ) where
  GetUser t userID := r.GetUser t.state userID
  GetActiveUsersByTeam t teamName excludeUserIDs :=
    r.GetActiveUsersByTeam t.state teamName excludeUserIDs
  BulkSetIsActive t userIDs isActive :=
    ((r.BulkSetIsActive t.state userIDs isActive).1,
      t.log (.BulkSetIsActive userIDs isActive) (r.BulkSetIsActive t.state userIDs isActive).2)

/-- A pull request repository that logs its commands and otherwise behaves as `r`. -/
def PullRequestRepository.recorded {σ : Type} (r : PullRequestRepository σ) :
    PullRequestRepository (Recorder σ) where
  CreatePR t pr :=
    ((r.CreatePR t.state pr).1, (r.CreatePR t.state pr).2.1,
      t.log (.CreatePR pr) (r.CreatePR t.state pr).2.2)
  GetPR t prID := r.GetPR t.state prID
  UpdatePR t pr := ((r.UpdatePR t.state pr).1, t.log (.UpdatePR pr) (r.UpdatePR t.state pr).2)
  MergePR t prID := ((r.MergePR t.state prID).1, t.log (.MergePR prID) (r.MergePR t.state prID).2)
  PRExists t prID := r.PRExists t.state prID
  ReassignReviewer t prID oldUserID newUserID :=
    ((r.ReassignReviewer t.state prID oldUserID newUserID).1,
      t.log (.ReassignReviewer prID oldUserID newUserID)
        (r.ReassignReviewer t.state prID oldUserID newUserID).2)
  GetOpenPRsByReviewers t userIDs := r.GetOpenPRsByReviewers t.state userIDs

/-- A team repository that logs its commands and otherwise behaves as `r`. -/
def TeamRepository.recorded {σ : Type} (r : TeamRepository σ) :
    TeamRepository (Recorder σ) where
  CreateTeam t team :=
    ((r.CreateTeam t.state team).1, t.log (.CreateTeam team) (r.CreateTeam t.state team).2)
  GetTeam t teamName := r.GetTeam t.state teamName
  TeamExists t teamName := r.TeamExists t.state teamName

/-- The pull request service over recording repositories. -/
def PullRequestService.recorded {σ : Type} (svc : PullRequestService σ) :
    PullRequestService (Recorder σ) where
  prRepo := svc.prRepo.recorded
  userRepo := svc.userRepo.recorded
  teamRepo := svc.teamRepo.recorded

/-- The bulk deactivation service over recording repositories. -/
def BulkDeactivateService.recorded {σ : Type} (svc : BulkDeactivateService σ) :
    BulkDeactivateService (Recorder σ) where
  userRepo := svc.userRepo.recorded
  prRepo := svc.prRepo.recorded
  teamRepo := svc.teamRepo.recorded

/-- The recorder at the start of an operation: nothing logged yet. -/
def Recorder.start {σ : Type} (s : σ) : Recorder σ :=
  { state := s, calls := [] }

/-- The environment of most examples: the map lists its entries as inserted, and the clock
ticks in the unit the timestamp columns keep. -/
def envOf (reviewersKey : Bool) : PgEnv :=
  { reviewersKey := reviewersKey, mapOrder := fun prs => prs, column := fun t => t }

/-- The team service over a recording repository. -/
def TeamService.recorded {σ : Type} (svc : TeamService σ) : TeamService (Recorder σ) where
  teamRepo := svc.teamRepo.recorded

/-- Go `service.NewTeamService(teamRepo)` as wired by the router. -/
def pgTeamService : TeamService DB where
  teamRepo := NewTeamRepository

/-- Another iteration order: the map lists its entries last inserted first. -/
def envReversed (reviewersKey : Bool) : PgEnv :=
  { reviewersKey := reviewersKey, mapOrder := fun prs => prs.reverse, column := fun t => t }

/-- PostgreSQL under a clock in nanoseconds: the timestamp columns keep the instant rounded
to microseconds. -/
def envMicro (reviewersKey : Bool) : PgEnv :=
  { reviewersKey := reviewersKey, mapOrder := fun prs => prs,
    column := fun t => (t + 500) / 1000 * 1000 }

/-! ## Example stores -/

/-- Team `backend` with the active users u1, u2, u3 and no pull request yet. -/
def exTeamDB : DB :=
  { teams := ["backend"],
    users := [⟨"u1", "Alice", "backend", true⟩, ⟨"u2", "Bob", "backend", true⟩,
              ⟨"u3", "Carol", "backend", true⟩],
    pull_requests := [],
    pr_reviewers := [],
    clock := 100 }

/-- A request to create pull request p1 of author u1. -/
def exNewPR : PullRequest :=
  { PullRequestID := "p1", PullRequestName := "x", AuthorID := "u1", Status := "",
    AssignedReviewers := [], CreatedAt := none, MergedAt := none }

/-- Team `backend` with the active users u1 to u4 and the OPEN pull request p1 of author u1
with reviewers u2 and u3. -/
def exOpenDB : DB :=
  { teams := ["backend"],
    users := [⟨"u1", "Alice", "backend", true⟩, ⟨"u2", "Bob", "backend", true⟩,
              ⟨"u3", "Carol", "backend", true⟩, ⟨"u4", "Dan", "backend", true⟩],
    pull_requests := [⟨"p1", "x", "u1", "OPEN", some 7, none⟩],
    pr_reviewers := [("p1", "u2"), ("p1", "u3")],
    clock := 100 }

/-- The store `exOpenDB` with p1 already MERGED. -/
def exMergedDB : DB :=
  { exOpenDB with pull_requests := [⟨"p1", "x", "u1", "MERGED", some 7, some 50⟩] }

/-- Team `backend` with the active users u1 and u2 only; the OPEN pull request p1 of author
u1 has the single reviewer u2. -/
def exAuthorDB : DB :=
  { teams := ["backend"],
    users := [⟨"u1", "Alice", "backend", true⟩, ⟨"u2", "Bob", "backend", true⟩],
    pull_requests := [⟨"p1", "x", "u1", "OPEN", some 7, none⟩],
    pr_reviewers := [("p1", "u2")],
    clock := 100 }

/-- Team `backend` with the active users u2, u3, u4; the author u1 of the OPEN pull request
p1 is in team `frontend`; p1 has reviewers u2 and u3. -/
def exBatchDB : DB :=
  { teams := ["backend", "frontend"],
    users := [⟨"u1", "Alice", "frontend", true⟩, ⟨"u2", "Bob", "backend", true⟩,
              ⟨"u3", "Carol", "backend", true⟩, ⟨"u4", "Dan", "backend", true⟩],
    pull_requests := [⟨"p1", "x", "u1", "OPEN", some 7, none⟩],
    pr_reviewers := [("p1", "u2"), ("p1", "u3")],
    clock := 100 }

/-- Three candidates of team `backend`: u2, u3, u4. -/
def exCandidates : List User :=
  [⟨"u2", "Bob", "backend", true⟩, ⟨"u3", "Carol", "backend", true⟩,
   ⟨"u4", "Dan", "backend", true⟩]

/-- A request to create pull request p2 of author u9, who is no user of the example
stores. -/
def exOrphanPR : PullRequest :=
  { PullRequestID := "p2", PullRequestName := "y", AuthorID := "u9", Status := "",
    AssignedReviewers := [], CreatedAt := none, MergedAt := none }

/-- A request to create p1 of author u1 that arrives with status MERGED and with u1 listed
as reviewer. -/
def exLoadedPR : PullRequest :=
  { PullRequestID := "p1", PullRequestName := "x", AuthorID := "u1", Status := "MERGED",
    AssignedReviewers := ["u1"], CreatedAt := none, MergedAt := none }

/-- The store `exOpenDB` whose pull request p1 has the reviewers u2 and u8, the latter
without a user record. -/
def exGhostDB : DB :=
  { exOpenDB with pr_reviewers := [("p1", "u2"), ("p1", "u8")] }

/-- Team `backend` consists of u2 and u3, both reviewers of the OPEN pull request p1, whose
author u1 is in team `frontend`. -/
def exFullDB : DB :=
  { teams := ["backend", "frontend"],
    users := [⟨"u1", "Alice", "frontend", true⟩, ⟨"u2", "Bob", "backend", true⟩,
              ⟨"u3", "Carol", "backend", true⟩],
    pull_requests := [⟨"p1", "x", "u1", "OPEN", some 7, none⟩],
    pr_reviewers := [("p1", "u2"), ("p1", "u3")],
    clock := 100 }

/-- Team `backend` with the active users u1 to u4 and two pull requests of author u1: the
OPEN p1 with reviewers u2 and u3, and the MERGED p2 with reviewers u2 and u4. -/
def exPairDB : DB :=
  { teams := ["backend"],
    users := [⟨"u1", "Alice", "backend", true⟩, ⟨"u2", "Bob", "backend", true⟩,
              ⟨"u3", "Carol", "backend", true⟩, ⟨"u4", "Dan", "backend", true⟩],
    pull_requests := [⟨"p1", "x", "u1", "OPEN", some 7, none⟩,
                      ⟨"p2", "y", "u1", "MERGED", some 8, some 50⟩],
    pr_reviewers := [("p1", "u2"), ("p1", "u3"), ("p2", "u2"), ("p2", "u4")],
    clock := 100 }

/-- A request to create pull request p2 of author u1. -/
def exSecondPR : PullRequest :=
  { PullRequestID := "p2", PullRequestName := "y", AuthorID := "u1", Status := "",
    AssignedReviewers := [], CreatedAt := none, MergedAt := none }

/-- Team `backend` with the active users u2, u3, u4 and the author u1 of team `frontend`;
the OPEN pull request p1 has reviewers u2 and u3, the OPEN pull request p2 has the
reviewer u4. -/
def exTwoDB : DB :=
  { teams := ["backend", "frontend"],
    users := [⟨"u1", "Alice", "frontend", true⟩, ⟨"u2", "Bob", "backend", true⟩,
              ⟨"u3", "Carol", "backend", true⟩, ⟨"u4", "Dan", "backend", true⟩],
    pull_requests := [⟨"p1", "x", "u1", "OPEN", some 7, none⟩,
                      ⟨"p2", "y", "u1", "OPEN", some 8, none⟩],
    pr_reviewers := [("p1", "u2"), ("p1", "u3"), ("p2", "u4")],
    clock := 100 }

/-- The service over PostgreSQL with a connection that fails the query of
`GetOpenPRsByReviewers`. -/
def exSnapshotFails : BulkDeactivateService DB where
  userRepo := NewUserRepository
  prRepo :=
    { NewPullRequestRepository (envOf true) with
      GetOpenPRsByReviewers := fun _ _ => .error (.New "connection refused") }
  teamRepo := NewTeamRepository

/-- The service over PostgreSQL with a connection that fails the transaction of
`BulkSetIsActive`, which is rolled back. -/
def exWriteFails : BulkDeactivateService DB where
  userRepo :=
    { NewUserRepository with
      BulkSetIsActive := fun s _ _ => (some (.New "connection refused"), s) }
  prRepo := NewPullRequestRepository (envOf true)
  teamRepo := NewTeamRepository

/-- The store `exOpenDB` under a clock in nanoseconds: p1 was created at 1 ms, it is now
1.234567 ms. -/
def exNanoDB : DB :=
  { exOpenDB with
    pull_requests := [⟨"p1", "x", "u1", "OPEN", some 1000000, none⟩],
    clock := 1234567 }

/-! ## Lemmas: the shuffle and `selectReviewers` -/

theorem cons_set_perm {α : Type} (x b : α) :
    ∀ (xs : List α) (j : Nat), xs[j]? = some b → (b :: xs.set j x).Perm (x :: xs)
  | [], j, h => by simp at h
  | y :: t, 0, h => by
    simp at h
    subst h
    simpa using List.Perm.swap x y t
  | y :: t, k + 1, h => by
    simp at h
    have ih := cons_set_perm x b t k h
    simp only [List.set_cons_succ]
    exact (List.Perm.swap y b _).trans (((ih.cons y)).trans (List.Perm.swap x y t))

theorem set_set_perm_of_get {α : Type} (a b : α) :
    ∀ (l : List α) (i j : Nat), l[i]? = some a → l[j]? = some b →
      ((l.set i b).set j a).Perm l
  | [], i, _, h, _ => by simp at h
  | x :: xs, 0, 0, hi, hj => by
    simp at hi hj
    subst hi
    simp
  | x :: xs, 0, j + 1, hi, hj => by
    simp at hi hj
    subst hi
    simpa using cons_set_perm x b xs j hj
  | x :: xs, i + 1, 0, hi, hj => by
    simp at hi hj
    subst hj
    simpa using cons_set_perm x a xs i hi
  | x :: xs, i + 1, j + 1, hi, hj => by
    simp at hi hj
    simpa using set_set_perm_of_get a b xs i j hi hj

theorem swapAt_perm {α : Type} (l : List α) (i j : Nat) : (swapAt l i j).Perm l := by
  unfold swapAt
  split
  · next a b hi hj => exact set_set_perm_of_get a b l i j hi hj
  · exact List.Perm.refl l

theorem shuffleFrom_perm {α : Type} (rnd : Nat → Nat) :
    ∀ (n : Nat) (l : List α), (shuffleFrom rnd n l).Perm l
  | 0, l => List.Perm.refl l
  | n + 1, l => (shuffleFrom_perm rnd n _).trans (swapAt_perm l _ _)

theorem Shuffle_perm {α : Type} (rnd : Nat → Nat) (l : List α) : (Shuffle rnd l).Perm l :=
  shuffleFrom_perm rnd _ l

theorem selectReviewers_sublist (rnd : Nat → Nat) (candidates : List User) (maxCount : Nat) :
    ∃ shuffled : List User, shuffled.Perm candidates ∧
      (selectReviewers rnd candidates maxCount).Sublist (shuffled.map User.UserID) := by
  unfold selectReviewers
  split
  · exact ⟨candidates, List.Perm.refl _, List.nil_sublist _⟩
  · exact ⟨Shuffle rnd candidates, Shuffle_perm rnd candidates,
      (List.take_sublist _ _).map _⟩

theorem selectReviewers_length_le (rnd : Nat → Nat) (candidates : List User) (maxCount : Nat) :
    (selectReviewers rnd candidates maxCount).length ≤ maxCount := by
  unfold selectReviewers
  split
  · simp
  · simp only [List.length_map, List.length_take]
    split <;> omega

theorem selectReviewers_mem (rnd : Nat → Nat) (candidates : List User) (maxCount : Nat)
    (x : String) (hx : x ∈ selectReviewers rnd candidates maxCount) :
    ∃ u ∈ candidates, u.UserID = x := by
  obtain ⟨sh, hperm, hsub⟩ := selectReviewers_sublist rnd candidates maxCount
  have := hsub.subset hx
  rw [List.mem_map] at this
  obtain ⟨u, hu, rfl⟩ := this
  exact ⟨u, hperm.subset hu, rfl⟩

theorem selectReviewers_nodup (rnd : Nat → Nat) (candidates : List User) (maxCount : Nat)
    (h : (candidates.map User.UserID).Nodup) :
    (selectReviewers rnd candidates maxCount).Nodup := by
  obtain ⟨sh, hperm, hsub⟩ := selectReviewers_sublist rnd candidates maxCount
  exact hsub.nodup (((hperm.map User.UserID).nodup_iff).mpr h)

/-! ## Lemmas: the order of `ORDER BY user_id` -/

theorem lexLE_total : ∀ (a b : List Nat), lexLE a b = true ∨ lexLE b a = true
  | [], _ => by simp [lexLE]
  | _ :: _, [] => by simp [lexLE]
  | x :: xs, y :: ys => by
    have ih := lexLE_total xs ys
    simp only [lexLE, Bool.or_eq_true, Bool.and_eq_true, decide_eq_true_eq]
    rcases Nat.lt_trichotomy x y with h | h | h
    · exact Or.inl (Or.inl h)
    · subst h
      rcases ih with ih | ih
      · exact Or.inl (Or.inr ⟨rfl, ih⟩)
      · exact Or.inr (Or.inr ⟨rfl, ih⟩)
    · exact Or.inr (Or.inl h)

theorem lexLE_trans : ∀ (a b c : List Nat), lexLE a b = true → lexLE b c = true →
    lexLE a c = true
  | [], _, _, _, _ => by simp [lexLE]
  | _ :: _, [], _, h, _ => by simp [lexLE] at h
  | _ :: _, _ :: _, [], _, h => by simp [lexLE] at h
  | x :: xs, y :: ys, z :: zs, h1, h2 => by
    have ih := lexLE_trans xs ys zs
    simp only [lexLE, Bool.or_eq_true, Bool.and_eq_true, decide_eq_true_eq] at h1 h2 ⊢
    rcases h1 with h1 | ⟨h1, h1r⟩
    · rcases h2 with h2 | ⟨h2, _⟩
      · exact Or.inl (by omega)
      · exact Or.inl (by omega)
    · rcases h2 with h2 | ⟨h2, h2r⟩
      · exact Or.inl (by omega)
      · exact Or.inr ⟨by omega, ih h1r h2r⟩

theorem idLE_isTotal : IsTotal String (fun a b => idLE a b = true) :=
  ⟨fun _ _ => lexLE_total _ _⟩

theorem idLE_isTrans : IsTrans String (fun a b => idLE a b = true) :=
  ⟨fun _ _ _ => lexLE_trans _ _ _⟩

theorem orderByID_perm (ids : List String) : (orderByID ids).Perm ids :=
  List.perm_insertionSort _ ids

theorem orderByID_idem (ids : List String) : orderByID (orderByID ids) = orderByID ids :=
  haveI := idLE_isTotal
  haveI := idLE_isTrans
  List.Sorted.insertionSort_eq (List.sorted_insertionSort _ ids)

theorem orderByID_length (ids : List String) : (orderByID ids).length = ids.length :=
  (orderByID_perm ids).length_eq

theorem orderByID_nodup (ids : List String) : (orderByID ids).Nodup ↔ ids.Nodup :=
  (orderByID_perm ids).nodup_iff

theorem mem_orderByUserID (us : List User) (u : User) : u ∈ orderByUserID us ↔ u ∈ us :=
  (List.perm_insertionSort _ us).mem_iff

theorem mem_orderByID (ids : List String) (x : String) : x ∈ orderByID ids ↔ x ∈ ids :=
  (List.perm_insertionSort _ ids).mem_iff

/-! ## Lemmas: the user repository -/

theorem userRepository.GetActiveUsersByTeam_mem (s : DB) (teamName : String) (excl : List String)
    (cands : List User) (h : userRepository.GetActiveUsersByTeam s teamName excl = .ok cands)
    (u : User) :
    u ∈ cands ↔
      u ∈ s.users ∧ u.TeamName = teamName ∧ u.IsActive = true ∧ u.UserID ∉ excl := by
  unfold userRepository.GetActiveUsersByTeam at h
  injection h with h
  subst h
  rw [mem_orderByUserID]
  split
  · simp [List.mem_filter]; tauto
  · next hlen =>
    have : excl = [] := by
      cases excl with
      | nil => rfl
      | cons a t => simp at hlen
    subst this
    simp [List.mem_filter]

theorem userRepository.GetActiveUsersByTeam_nodup (s : DB) (teamName : String) (excl : List String)
    (cands : List User) (h : userRepository.GetActiveUsersByTeam s teamName excl = .ok cands)
    (hkey : (s.users.map User.UserID).Nodup) : (cands.map User.UserID).Nodup := by
  unfold userRepository.GetActiveUsersByTeam at h
  injection h with h
  subst h
  refine (((List.perm_insertionSort _ _).map User.UserID).nodup_iff).mpr ?_
  split
  · exact ((List.filter_sublist _).trans (List.filter_sublist _)).map _ |>.nodup hkey
  · exact (List.filter_sublist _).map _ |>.nodup hkey

theorem userRepository.GetUser_after_bulkSet (s : DB) (userIDs : List String) (id : String)
    (u : User)
    (hu : userRepository.GetUser s id = .ok u) (hid : id ∈ userIDs) :
    userRepository.GetUser (userRepository.BulkSetIsActive s userIDs false).2 id
      = .ok { u with IsActive := false } := by
  unfold userRepository.GetUser at hu ⊢
  split at hu
  · simp at hu
  · next user hfind =>
    injection hu with hu
    subst hu
    have hne : ¬ userIDs.length = 0 := by
      intro h0
      rw [List.length_eq_zero] at h0
      simp [h0] at hid
    have huid : user.UserID = id := by
      have := List.find?_some hfind
      simpa using this
    unfold userRepository.BulkSetIsActive
    simp only [if_neg hne, List.find?_map]
    have hcomp : ((fun u : User => decide (u.UserID = id)) ∘ fun u : User =>
        if u.UserID ∈ userIDs then { u with IsActive := false } else u)
        = fun u : User => decide (u.UserID = id) := by
      funext x
      by_cases hx : x.UserID ∈ userIDs <;> simp [hx]
    rw [hcomp, hfind]
    simp [huid, hid]

/-! ## Lemmas: the pull request repository -/

theorem reviewersOf_nodup (s : DB) (prID : String) (h : s.pr_reviewers.Nodup) :
    (reviewersOf s prID).Nodup := by
  unfold reviewersOf
  rw [orderByID_nodup]
  refine List.Nodup.map_on ?_ (h.filter _)
  intro a ha b hb hab
  simp only [List.mem_filter, decide_eq_true_eq] at ha hb
  exact Prod.ext (ha.2.trans hb.2.symm) hab

theorem insertReviewers_ok (env : PgEnv) (prID : String) :
    ∀ (rs : List String) (rows : List (String × String)),
      (env.reviewersKey = true → rs.Nodup ∧ ∀ r ∈ rs, (prID, r) ∉ rows) →
      insertReviewers env prID rs rows = some (rows ++ rs.map (fun r => (prID, r)))
  | [], rows, _ => by simp [insertReviewers]
  | r :: rest, rows, h => by
    unfold insertReviewers
    have hcond : ¬ (env.reviewersKey = true ∧ (prID, r) ∈ rows) := by
      rintro ⟨hk, hm⟩
      exact (h hk).2 r (List.mem_cons_self _ _) hm
    rw [if_neg hcond]
    rw [insertReviewers_ok env prID rest]
    · simp
    · intro hk
      obtain ⟨hnd, hnot⟩ := h hk
      rw [List.nodup_cons] at hnd
      refine ⟨hnd.2, fun x hx hmem => ?_⟩
      rw [List.mem_append] at hmem
      rcases hmem with hmem | hmem
      · exact hnot x (List.mem_cons_of_mem _ hx) hmem
      · simp at hmem
        exact hnd.1 (hmem ▸ hx)

theorem reviewersOf_replaced (s s1 : DB) (prID : String) (ids : List String)
    (h : s1.pr_reviewers =
      s.pr_reviewers.filter (fun r => r.1 ≠ prID) ++ (orderByID ids).map (fun r => (prID, r))) :
    reviewersOf s1 prID = orderByID ids := by
  unfold reviewersOf
  rw [h, List.filter_append, List.filter_filter]
  have h1 : (s.pr_reviewers.filter
      (fun a => (decide (a.1 = prID) && decide (a.1 ≠ prID)))) = [] := by
    rw [List.filter_eq_nil_iff]
    intro a _
    by_cases hp : a.1 = prID <;> simp [hp]
  have h2 : ((orderByID ids).map (fun r => (prID, r))).filter (fun r => decide (r.1 = prID))
      = (orderByID ids).map (fun r => (prID, r)) := by
    rw [List.filter_eq_self]
    intro a ha
    rw [List.mem_map] at ha
    obtain ⟨x, _, rfl⟩ := ha
    simp
  rw [h1, h2]
  simp only [List.nil_append, List.map_map]
  have h3 : (Prod.snd ∘ fun r : String => (prID, r)) = id := by
    funext x
    rfl
  rw [h3, List.map_id, orderByID_idem]

theorem pullRequestRepository.GetPR_ok (s : DB) (prID : String) (pr : PullRequest)
    (h : pullRequestRepository.GetPR s prID = .ok pr) :
    ∃ row, s.pull_requests.find? (fun r => r.pull_request_id = prID) = some row ∧
      pr = { PullRequestID := row.pull_request_id, PullRequestName := row.pull_request_name,
             AuthorID := row.author_id, Status := row.status,
             AssignedReviewers := reviewersOf s prID,
             CreatedAt := row.created_at, MergedAt := row.merged_at } := by
  unfold pullRequestRepository.GetPR at h
  split at h
  · simp at h
  · next row hrow =>
    injection h with h
    exact ⟨row, hrow, h.symm⟩

/-- Merging an OPEN (not yet MERGED) pull request: the returned pull request, and what a
later `GetPR` reads back. -/
theorem pullRequestRepository.MergePR_open (env : PgEnv) (s : DB) (prID : String) (pr : PullRequest)
    (hkey : env.reviewersKey = true → s.pr_reviewers.Nodup)
    (hget : pullRequestRepository.GetPR s prID = .ok pr) (hopen : pr.Status ≠ PRStatusMerged) :
    ∃ s1, pullRequestRepository.MergePR env s prID
        = (.ok { pr with Status := PRStatusMerged, MergedAt := some s.clock }, s1) ∧
      pullRequestRepository.GetPR s1 prID
        = .ok { pr with Status := PRStatusMerged, MergedAt := some (env.column s.clock) } ∧
      s1.users = s.users ∧ s1.teams = s.teams := by
  obtain ⟨row, hrow, hpr⟩ := pullRequestRepository.GetPR_ok s prID pr hget
  have hid : row.pull_request_id = prID := by
    have := List.find?_some hrow
    simpa using this
  have hrev : pr.AssignedReviewers = reviewersOf s prID := by rw [hpr]
  have hprid : pr.PullRequestID = prID := by rw [hpr]; exact hid
  have hins : insertReviewers env prID (reviewersOf s prID)
      (s.pr_reviewers.filter (fun r => r.1 ≠ prID))
      = some (s.pr_reviewers.filter (fun r => r.1 ≠ prID)
          ++ (reviewersOf s prID).map (fun r => (prID, r))) := by
    apply insertReviewers_ok
    intro hk
    refine ⟨reviewersOf_nodup s prID (hkey hk), fun r _ hmem => ?_⟩
    simp [List.mem_filter] at hmem
  unfold pullRequestRepository.MergePR
  rw [hget]
  simp only [if_neg hopen, timeNow, pullRequestRepository.UpdatePR, hprid, hrev, hins,
    Option.map_some']
  refine ⟨_, rfl, ?_, rfl, rfl⟩
  unfold pullRequestRepository.GetPR
  simp only [List.find?_map]
  have hcomp : ((fun r : PRRow => decide (r.pull_request_id = prID)) ∘ fun r : PRRow =>
      if r.pull_request_id = prID then
        { r with pull_request_name := pr.PullRequestName, status := PRStatusMerged,
                 merged_at := some (env.column s.clock) }
      else r) = fun r : PRRow => decide (r.pull_request_id = prID) := by
    funext r
    by_cases hr : r.pull_request_id = prID <;> simp [hr]
  rw [hcomp, hrow]
  simp only [Option.map_some', if_pos hid]
  have hro : reviewersOf
      { teams := s.teams, users := s.users,
        pull_requests := s.pull_requests.map (fun r : PRRow =>
          if r.pull_request_id = prID then
            { r with pull_request_name := pr.PullRequestName, status := PRStatusMerged,
                     merged_at := some (env.column s.clock) }
          else r),
        pr_reviewers := s.pr_reviewers.filter (fun r => r.1 ≠ prID)
          ++ (reviewersOf s prID).map (fun r => (prID, r)),
        clock := s.clock + 1 } prID = reviewersOf s prID := by
    have := reviewersOf_replaced s
      { teams := s.teams, users := s.users,
        pull_requests := s.pull_requests.map (fun r : PRRow =>
          if r.pull_request_id = prID then
            { r with pull_request_name := pr.PullRequestName, status := PRStatusMerged,
                     merged_at := some (env.column s.clock) }
          else r),
        pr_reviewers := s.pr_reviewers.filter (fun r => r.1 ≠ prID)
          ++ (reviewersOf s prID).map (fun r => (prID, r)),
        clock := s.clock + 1 } prID
      ((s.pr_reviewers.filter (fun r : String × String => r.1 = prID)).map Prod.snd)
      rfl
    exact this
  rw [hro, hpr]
  simp [hid]

theorem pullRequestRepository.MergePR_merged (env : PgEnv) (s : DB) (prID : String)
    (pr : PullRequest)
    (hget : pullRequestRepository.GetPR s prID = .ok pr) (hm : pr.Status = PRStatusMerged) :
    pullRequestRepository.MergePR env s prID = (.ok pr, s) := by
  unfold pullRequestRepository.MergePR
  rw [hget]
  simp [hm]

theorem service_MergePR_ok (env : PgEnv) (s s1 : DB) (prID : String) (pr : PullRequest)
    (h : pullRequestRepository.MergePR env s prID = (.ok pr, s1)) :
    (pgPullRequestService env).MergePR s prID = (.ok pr, s1) := by
  simp [PullRequestService.MergePR, pgPullRequestService, NewPullRequestRepository, h]

theorem map_replace_perm (old new : String) :
    ∀ (l : List String), l.Nodup → old ∈ l →
      (l.map (fun x => if x = old then new else x)).Perm (new :: l.erase old)
  | [], _, h => by simp at h
  | y :: t, hnd, hmem => by
    rw [List.nodup_cons] at hnd
    by_cases hy : y = old
    · subst hy
      have hmap : t.map (fun x => if x = y then new else x) = t := by
        conv_rhs => rw [← List.map_id t]
        apply List.map_congr_left
        intro a ha
        have : a ≠ y := fun h => hnd.1 (h ▸ ha)
        simp [this]
      simp [hmap]
    · have hmem' : old ∈ t := by
        rcases List.mem_cons.mp hmem with h | h
        · exact absurd h.symm hy
        · exact h
      have ih := map_replace_perm old new t hnd.2 hmem'
      have hne : (y == old) = false := by simpa using hy
      simp only [List.map_cons, if_neg hy, List.erase_cons, hne]
      exact (ih.cons y).trans (List.Perm.swap new y _)

theorem pullRequestRepository.ReassignReviewer_ok (env : PgEnv) (s s1 : DB) (prID old new : String)
    (h : pullRequestRepository.ReassignReviewer env s prID old new = (none, s1)) :
    s1 = { s with pr_reviewers := s.pr_reviewers.map (fun r =>
      if r.1 = prID ∧ r.2 = old then (prID, new) else r) } := by
  unfold pullRequestRepository.ReassignReviewer at h
  simp only at h
  split at h
  · simp at h
  · split at h
    · simp at h
    · simp only [Prod.mk.injEq, true_and] at h
      exact h.symm

theorem reviewersOf_reassigned (s : DB) (prID old new : String) :
    reviewersOf { s with pr_reviewers := s.pr_reviewers.map (fun r =>
        if r.1 = prID ∧ r.2 = old then (prID, new) else r) } prID
      = orderByID (((s.pr_reviewers.filter (fun r => r.1 = prID)).map Prod.snd).map
          (fun x => if x = old then new else x)) := by
  unfold reviewersOf
  congr 1
  simp only [List.filter_map, List.map_map]
  have hcomp : ((fun r : String × String => decide (r.1 = prID)) ∘
      fun r : String × String => if r.1 = prID ∧ r.2 = old then (prID, new) else r)
      = fun r : String × String => decide (r.1 = prID) := by
    funext r
    by_cases h1 : r.1 = prID <;> by_cases h2 : r.2 = old <;> simp [h1, h2]
  rw [hcomp]
  apply List.map_congr_left
  intro r hr
  simp only [List.mem_filter, decide_eq_true_eq] at hr
  by_cases h2 : r.2 = old <;> simp [hr.2, h2]

theorem reviewersOf_reassigned_perm (s : DB) (prID old new : String)
    (hnd : (reviewersOf s prID).Nodup) (hold : old ∈ reviewersOf s prID) :
    (reviewersOf { s with pr_reviewers := s.pr_reviewers.map (fun r =>
        if r.1 = prID ∧ r.2 = old then (prID, new) else r) } prID).Perm
      (new :: (reviewersOf s prID).erase old) := by
  rw [reviewersOf_reassigned]
  have hU : (reviewersOf s prID).Perm
      ((s.pr_reviewers.filter (fun r => r.1 = prID)).map Prod.snd) := orderByID_perm _
  refine (orderByID_perm _).trans ?_
  refine (map_replace_perm old new _ (hU.nodup_iff.mp hnd) (hU.mem_iff.mp hold)).trans ?_
  exact (hU.erase old).symm.cons new

theorem pullRequestRepository.ReassignReviewer_users (env : PgEnv) (s : DB)
    (prID old new : String) :
    (pullRequestRepository.ReassignReviewer env s prID old new).2.users = s.users := by
  unfold pullRequestRepository.ReassignReviewer
  simp only
  split
  · rfl
  · split <;> rfl

/-! ## Lemmas: `ReassignReviewer` -/

/-- What a successful `ReassignReviewer` has done, step by step. -/
theorem ReassignReviewer_ok_inv {σ : Type} (svc : PullRequestService σ) (rnd : Nat → Nat)
    (s s1 : σ) (prID oldUserID newUserID : String) (updated : PullRequest)
    (h : svc.ReassignReviewer rnd s prID oldUserID = (.ok (updated, newUserID), s1)) :
    ∃ pr oldReviewer candidates rest,
      svc.prRepo.GetPR s prID = .ok pr ∧
      pr.Status ≠ PRStatusMerged ∧
      oldUserID ∈ pr.AssignedReviewers ∧
      svc.userRepo.GetUser s oldUserID = .ok oldReviewer ∧
      svc.userRepo.GetActiveUsersByTeam s oldReviewer.TeamName
        (oldUserID :: pr.AssignedReviewers.filter (fun r => r ≠ oldUserID)) = .ok candidates ∧
      selectReviewers rnd candidates 1 = newUserID :: rest ∧
      svc.prRepo.ReassignReviewer s prID oldUserID newUserID = (none, s1) ∧
      svc.prRepo.GetPR s1 prID = .ok updated := by
  unfold PullRequestService.ReassignReviewer at h
  split at h
  · split at h <;> simp at h
  · next pr hget =>
    split at h
    · simp at h
    · next hnm =>
      split at h
      · simp at h
      · next hmem =>
        split at h
        · split at h <;> simp at h
        · next oldReviewer hu =>
          simp only at h
          split at h
          · simp at h
          · next candidates hc =>
            split at h
            · simp at h
            · split at h
              · simp at h
              · next new rest hsel =>
                split at h
                · simp at h
                · next s2 hre =>
                  split at h
                  · simp at h
                  · next upd hget2 =>
                    simp only [Prod.mk.injEq, Except.ok.injEq] at h
                    obtain ⟨⟨h1, h2⟩, h3⟩ := h
                    subst h1 h2 h3
                    exact ⟨pr, oldReviewer, candidates, rest, hget, hnm, not_not.mp hmem, hu,
                      hc, hsel, hre, hget2⟩

/-! ## Lemmas: the loops of `BulkDeactivate` -/

theorem validateUsers_some {σ : Type} (svc : BulkDeactivateService σ) (s : σ)
    (teamName : String) : ∀ (userIDs : List String),
      (∃ id ∈ userIDs, ∀ u, svc.userRepo.GetUser s id = .ok u → u.TeamName ≠ teamName) →
      ∃ err, svc.validateUsers s teamName userIDs = some err
  | [], h => by
    obtain ⟨id, hid, -⟩ := h
    simp at hid
  | userID :: rest, h => by
    unfold BulkDeactivateService.validateUsers
    cases hu : svc.userRepo.GetUser s userID with
    | error e => exact ⟨_, rfl⟩
    | ok user =>
      simp only
      by_cases ht : user.TeamName ≠ teamName
      · rw [if_pos ht]
        exact ⟨_, rfl⟩
      · rw [if_neg ht]
        apply validateUsers_some svc s teamName rest
        obtain ⟨id, hid, hbad⟩ := h
        rcases List.mem_cons.mp hid with e | hin
        · subst e
          exact absurd (hbad user hu) ht
        · exact ⟨id, hin, hbad⟩

theorem validateUsers_none {σ : Type} (svc : BulkDeactivateService σ) (s : σ)
    (teamName : String) : ∀ (userIDs : List String),
      (∀ id ∈ userIDs, ∃ u, svc.userRepo.GetUser s id = .ok u ∧ u.TeamName = teamName) →
      svc.validateUsers s teamName userIDs = none
  | [], _ => rfl
  | userID :: rest, h => by
    unfold BulkDeactivateService.validateUsers
    obtain ⟨u, hu, ht⟩ := h userID (List.mem_cons_self _ _)
    rw [hu]
    simp only [ne_eq, ht, not_true_eq_false, if_false]
    exact validateUsers_none svc s teamName rest
      (fun id hid => h id (List.mem_cons_of_mem _ hid))

/-- A property of the state that every `ReassignReviewer` command of the loop keeps is kept
by the loop over the deactivated reviewers of one pull request. -/
theorem reassignSlots_invariant {σ : Type} (svc : BulkDeactivateService σ)
    (userIDs : List String) (pr : PullRequest) (P : σ → Prop)
    (hstep : ∀ (t : σ) (old : String) (oldReviewer candidate : User)
      (rest : List User), P t →
      svc.userRepo.GetUser t old = .ok oldReviewer →
      svc.userRepo.GetActiveUsersByTeam t oldReviewer.TeamName
        (userIDs ++ pr.AssignedReviewers) = .ok (candidate :: rest) →
      P (svc.prRepo.ReassignReviewer t pr.PullRequestID old candidate.UserID).2) :
    ∀ (slots : List String) (t : σ), P t → P (svc.reassignSlots userIDs pr slots t)
  | [], t, ht => by simpa [BulkDeactivateService.reassignSlots] using ht
  | old :: rest, t, ht => by
    have ih := reassignSlots_invariant svc userIDs pr P hstep rest
    unfold BulkDeactivateService.reassignSlots
    split
    · exact ih t ht
    · next oldReviewer hu =>
      simp only
      split
      · exact ih t ht
      · exact ih t ht
      · next candidate others hc =>
        have hP := hstep t old oldReviewer candidate others ht hu hc
        split
        · next e s1 hre =>
          rw [hre] at hP
          exact ih s1 hP
        · next s1 hre =>
          rw [hre] at hP
          exact ih s1 hP

/-- The same for the loop over the pull requests of the snapshot. -/
theorem reassignPRs_invariant {σ : Type} (svc : BulkDeactivateService σ)
    (userIDs : List String) (P : σ → Prop)
    (hstep : ∀ (pr : PullRequest) (t : σ) (old : String)
      (oldReviewer candidate : User) (rest : List User), P t →
      svc.userRepo.GetUser t old = .ok oldReviewer →
      svc.userRepo.GetActiveUsersByTeam t oldReviewer.TeamName
        (userIDs ++ pr.AssignedReviewers) = .ok (candidate :: rest) →
      P (svc.prRepo.ReassignReviewer t pr.PullRequestID old candidate.UserID).2) :
    ∀ (prs : List PullRequest) (t : σ), P t → P (svc.reassignPRs userIDs prs t)
  | [], t, ht => by simpa [BulkDeactivateService.reassignPRs] using ht
  | pr :: rest, t, ht => by
    unfold BulkDeactivateService.reassignPRs
    exact reassignPRs_invariant svc userIDs P hstep rest _
      (reassignSlots_invariant svc userIDs pr P (hstep pr) _ t ht)

/-- The deactivation survives the reassignment loop whatever its steps do: for any
repositories over the database whose `BulkSetIsActive` is the PostgreSQL one and whose
`ReassignReviewer`, failing or not, leaves table `users` alone, a call that passes
validation and reads its snapshot returns nil with table `users` as the batch write left
it. -/
theorem bulkDeactivate_users_after (svc : BulkDeactivateService DB) (s : DB)
    (teamName : String) (userIDs : List String) (openPRs : List PullRequest)
    (hne : userIDs ≠ [])
    (hteam : ∃ team, svc.teamRepo.GetTeam s teamName = .ok team)
    (husers : ∀ id ∈ userIDs, ∃ u,
      svc.userRepo.GetUser s id = .ok u ∧ u.TeamName = teamName)
    (hsnap : svc.prRepo.GetOpenPRsByReviewers s userIDs = .ok openPRs)
    (hset : svc.userRepo.BulkSetIsActive = userRepository.BulkSetIsActive)
    (hre : ∀ t prID old new, (svc.prRepo.ReassignReviewer t prID old new).2.users = t.users) :
    (svc.BulkDeactivate s teamName userIDs).1 = none ∧
    (svc.BulkDeactivate s teamName userIDs).2.users
      = (userRepository.BulkSetIsActive s userIDs false).2.users := by
  obtain ⟨team, hteam⟩ := hteam
  have h0 : ¬ userIDs.length = 0 := fun h => hne (List.length_eq_zero.mp h)
  have hval := validateUsers_none svc s teamName userIDs husers
  have h5 : userRepository.BulkSetIsActive s userIDs false
      = (none, (userRepository.BulkSetIsActive s userIDs false).2) := by
    unfold userRepository.BulkSetIsActive
    split <;> rfl
  have hrun : svc.BulkDeactivate s teamName userIDs
      = (none, svc.reassignPRs userIDs openPRs
          (userRepository.BulkSetIsActive s userIDs false).2) := by
    unfold BulkDeactivateService.BulkDeactivate
    rw [if_neg h0, hteam]
    simp only [hval, hsnap, hset]
    rw [h5]
  rw [hrun]
  exact ⟨rfl, reassignPRs_invariant svc userIDs
    (fun t => t.users = (userRepository.BulkSetIsActive s userIDs false).2.users)
    (fun pr t old _ candidate _ ht _ _ =>
      (hre t pr.PullRequestID old candidate.UserID).trans ht) openPRs _ rfl⟩

/-! ## Lemmas: recording does not change what a service does -/

theorem recorded_GetUser {σ : Type} (svc : BulkDeactivateService σ) (t : Recorder σ)
    (userID : String) :
    svc.recorded.userRepo.GetUser t userID = svc.userRepo.GetUser t.state userID := rfl

theorem recorded_GetActiveUsersByTeam {σ : Type} (svc : BulkDeactivateService σ)
    (t : Recorder σ) (teamName : String) (excl : List String) :
    svc.recorded.userRepo.GetActiveUsersByTeam t teamName excl
      = svc.userRepo.GetActiveUsersByTeam t.state teamName excl := rfl

theorem recorded_ReassignReviewer {σ : Type} (svc : BulkDeactivateService σ)
    (t : Recorder σ) (prID old new : String) :
    svc.recorded.prRepo.ReassignReviewer t prID old new
      = ((svc.prRepo.ReassignReviewer t.state prID old new).1,
          t.log (RepoCall.ReassignReviewer prID old new)
            (svc.prRepo.ReassignReviewer t.state prID old new).2) := rfl

theorem recorded_validateUsers {σ : Type} (svc : BulkDeactivateService σ) (t : Recorder σ)
    (teamName : String) : ∀ (userIDs : List String),
      svc.recorded.validateUsers t teamName userIDs = svc.validateUsers t.state teamName userIDs
  | [] => rfl
  | userID :: rest => by
    have ih := recorded_validateUsers svc t teamName rest
    unfold BulkDeactivateService.validateUsers
    rw [recorded_GetUser, ih]

theorem recorded_reassignSlots {σ : Type} (svc : BulkDeactivateService σ)
    (userIDs : List String) (pr : PullRequest) : ∀ (slots : List String) (t : Recorder σ),
      (svc.recorded.reassignSlots userIDs pr slots t).state
        = svc.reassignSlots userIDs pr slots t.state
  | [], _ => rfl
  | old :: rest, t => by
    have ih := recorded_reassignSlots svc userIDs pr rest
    unfold BulkDeactivateService.reassignSlots
    rw [recorded_GetUser]
    cases svc.userRepo.GetUser t.state old with
    | error e => exact ih t
    | ok oldReviewer =>
      simp only
      rw [recorded_GetActiveUsersByTeam]
      cases svc.userRepo.GetActiveUsersByTeam t.state oldReviewer.TeamName
          (userIDs ++ pr.AssignedReviewers) with
      | error e => exact ih t
      | ok candidates =>
        cases candidates with
        | nil => exact ih t
        | cons candidate others =>
          simp only
          rw [recorded_ReassignReviewer]
          rcases svc.prRepo.ReassignReviewer t.state pr.PullRequestID old candidate.UserID
            with ⟨_ | e, s1⟩
          · simp only
            rw [ih]
            rfl
          · simp only
            rw [ih]
            rfl

theorem recorded_reassignPRs {σ : Type} (svc : BulkDeactivateService σ)
    (userIDs : List String) : ∀ (prs : List PullRequest) (t : Recorder σ),
      (svc.recorded.reassignPRs userIDs prs t).state = svc.reassignPRs userIDs prs t.state
  | [], _ => rfl
  | pr :: rest, t => by
    unfold BulkDeactivateService.reassignPRs
    rw [recorded_reassignPRs svc userIDs rest, recorded_reassignSlots]

/-- The recording service returns what the plain service returns and ends in the state the
plain service ends in. -/
theorem recorded_BulkDeactivate {σ : Type} (svc : BulkDeactivateService σ) (s : σ)
    (teamName : String) (userIDs : List String) :
    (svc.recorded.BulkDeactivate (Recorder.start s) teamName userIDs).1
        = (svc.BulkDeactivate s teamName userIDs).1 ∧
    (svc.recorded.BulkDeactivate (Recorder.start s) teamName userIDs).2.state
        = (svc.BulkDeactivate s teamName userIDs).2 := by
  unfold BulkDeactivateService.BulkDeactivate
  by_cases h0 : userIDs.length = 0
  · simp only [if_pos h0]
    exact ⟨trivial, rfl⟩
  · simp only [if_neg h0]
    have hteam : svc.recorded.teamRepo.GetTeam (Recorder.start s) teamName
        = svc.teamRepo.GetTeam s teamName := rfl
    rw [hteam]
    cases svc.teamRepo.GetTeam s teamName with
    | error e => exact ⟨rfl, rfl⟩
    | ok team =>
      simp only
      rw [recorded_validateUsers]
      have hst : (Recorder.start s).state = s := rfl
      rw [hst]
      cases svc.validateUsers s teamName userIDs with
      | some e => exact ⟨rfl, rfl⟩
      | none =>
        simp only
        have hopen : svc.recorded.prRepo.GetOpenPRsByReviewers (Recorder.start s) userIDs
            = svc.prRepo.GetOpenPRsByReviewers s userIDs := rfl
        rw [hopen]
        cases svc.prRepo.GetOpenPRsByReviewers s userIDs with
        | error e => exact ⟨rfl, rfl⟩
        | ok openPRs =>
          simp only
          have hset : svc.recorded.userRepo.BulkSetIsActive (Recorder.start s) userIDs false
              = ((svc.userRepo.BulkSetIsActive s userIDs false).1,
                  (Recorder.start s).log (RepoCall.BulkSetIsActive userIDs false)
                    (svc.userRepo.BulkSetIsActive s userIDs false).2) := rfl
          rw [hset]
          rcases svc.userRepo.BulkSetIsActive s userIDs false with ⟨_ | e, s1⟩
          · simp only
            rw [recorded_reassignPRs]
            exact ⟨trivial, rfl⟩
          · exact ⟨rfl, rfl⟩

/-- The recording pull request service creates what the plain service creates. -/
theorem recorded_CreatePR {σ : Type} (svc : PullRequestService σ) (rnd : Nat → Nat) (s : σ)
    (pr : PullRequest) :
    (svc.recorded.CreatePR rnd (Recorder.start s) pr).1 = (svc.CreatePR rnd s pr).1 ∧
    (svc.recorded.CreatePR rnd (Recorder.start s) pr).2.1 = (svc.CreatePR rnd s pr).2.1 ∧
    (svc.recorded.CreatePR rnd (Recorder.start s) pr).2.2.state
      = (svc.CreatePR rnd s pr).2.2 := by
  unfold PullRequestService.CreatePR
  have h1 : svc.recorded.prRepo.PRExists (Recorder.start s) pr.PullRequestID
      = svc.prRepo.PRExists s pr.PullRequestID := rfl
  have h2 : svc.recorded.userRepo.GetUser (Recorder.start s) pr.AuthorID
      = svc.userRepo.GetUser s pr.AuthorID := rfl
  rw [h1, h2]
  cases svc.prRepo.PRExists s pr.PullRequestID with
  | error e => exact ⟨rfl, rfl, rfl⟩
  | ok b =>
    cases b with
    | true => exact ⟨rfl, rfl, rfl⟩
    | false =>
      simp only
      cases svc.userRepo.GetUser s pr.AuthorID with
      | error e =>
        simp only
        split <;> exact ⟨rfl, rfl, rfl⟩
      | ok author =>
        simp only
        have h3 : svc.recorded.userRepo.GetActiveUsersByTeam (Recorder.start s)
            author.TeamName [pr.AuthorID]
            = svc.userRepo.GetActiveUsersByTeam s author.TeamName [pr.AuthorID] := rfl
        rw [h3]
        cases svc.userRepo.GetActiveUsersByTeam s author.TeamName [pr.AuthorID] with
        | error e => exact ⟨rfl, rfl, rfl⟩
        | ok candidates =>
          simp only
          have h4 : ∀ p, svc.recorded.prRepo.CreatePR (Recorder.start s) p
              = ((svc.prRepo.CreatePR s p).1, (svc.prRepo.CreatePR s p).2.1,
                  (Recorder.start s).log (RepoCall.CreatePR p) (svc.prRepo.CreatePR s p).2.2) :=
            fun _ => rfl
          rw [h4]
          rcases svc.prRepo.CreatePR s
            { pr with AssignedReviewers := selectReviewers rnd candidates 2,
                      Status := PRStatusOpen } with ⟨_ | e, p3, s1⟩
          · exact ⟨rfl, rfl, rfl⟩
          · exact ⟨rfl, rfl, rfl⟩

/-! ## C1: reviewers chosen by `CreatePR` -/

/-- C1: whenever `CreatePR` returns nil, the pull request it handed to `prRepo.CreatePR`
(the one persisted) has reviewers that do not include its author, are at most two and are
pairwise distinct, provided `GetActiveUsersByTeam` returns every user once and none of the
excluded ids. -/
theorem createPR_reviewers_valid {σ : Type} (svc : PullRequestService σ) (rnd : Nat → Nat)
    (s : σ) (pr res : PullRequest) (t : Recorder σ)
    (hrepo : ∀ (teamName : String) (excl : List String) (cands : List User),
      svc.userRepo.GetActiveUsersByTeam s teamName excl = .ok cands →
        (cands.map User.UserID).Nodup ∧ ∀ u ∈ cands, u.UserID ∉ excl)
    (h : svc.recorded.CreatePR rnd (Recorder.start s) pr = (none, res, t)) :
    ∃ persisted : PullRequest,
      t.calls = [(s, RepoCall.CreatePR persisted)] ∧
      persisted.PullRequestID = pr.PullRequestID ∧
      persisted.AuthorID = pr.AuthorID ∧
      persisted.AuthorID ∉ persisted.AssignedReviewers ∧
      persisted.AssignedReviewers.length ≤ 2 ∧
      persisted.AssignedReviewers.Nodup := by
  unfold PullRequestService.CreatePR at h
  simp only [PullRequestService.recorded, PullRequestRepository.recorded,
    UserRepository.recorded, Recorder.start, Recorder.log] at h
  split at h
  · simp at h
  · simp at h
  · split at h
    · split at h <;> simp at h
    · next author hauthor =>
      split at h
      · simp at h
      · next candidates hc =>
        obtain ⟨hnd, hex⟩ := hrepo _ _ _ hc
        split at h
        · simp at h
        · next pr3 s1 hcreate =>
          simp only [Prod.mk.injEq] at h hcreate
          obtain ⟨-, -, ht⟩ := h
          obtain ⟨-, -, hs1⟩ := hcreate
          refine ⟨{ pr with AssignedReviewers := selectReviewers rnd candidates 2,
                            Status := PRStatusOpen }, ?_, rfl, rfl, ?_,
            selectReviewers_length_le rnd candidates 2,
            selectReviewers_nodup rnd candidates 2 hnd⟩
          · rw [← ht, ← hs1]
            simp
          · intro hmem
            obtain ⟨u, hu, hid⟩ := selectReviewers_mem rnd candidates 2 _ hmem
            exact hex u hu (by simp [hid])

/-- Witness for C1: creating p1 for author u1 in a team of three active users. -/
theorem createPR_reviewers_valid_witness :
    ((pgPullRequestService (envOf true)).recorded.CreatePR (fun _ => 0)
        (Recorder.start exTeamDB) exNewPR).1 = none ∧
    ∃ persisted : PullRequest,
      ((pgPullRequestService (envOf true)).recorded.CreatePR (fun _ => 0)
        (Recorder.start exTeamDB) exNewPR).2.2.calls
          = [(exTeamDB, RepoCall.CreatePR persisted)] ∧
      persisted.PullRequestID = exNewPR.PullRequestID ∧
      persisted.AuthorID = exNewPR.AuthorID ∧
      persisted.AuthorID ∉ persisted.AssignedReviewers ∧
      persisted.AssignedReviewers.length ≤ 2 ∧
      persisted.AssignedReviewers.Nodup :=
  ⟨by decide,
    createPR_reviewers_valid (pgPullRequestService (envOf true)) (fun _ => 0) exTeamDB exNewPR
      _ _
      (fun teamName excl cands hc =>
        ⟨userRepository.GetActiveUsersByTeam_nodup exTeamDB teamName excl cands hc (by decide),
          fun u hu =>
            ((userRepository.GetActiveUsersByTeam_mem exTeamDB teamName excl cands hc u).mp
              hu).2.2.2⟩)
      (Prod.ext (by decide) rfl)⟩

/-! ## C2: a successful `ReassignReviewer` -/

/-- C2: over PostgreSQL, a successful `ReassignReviewer(pr, old)` on an OPEN pull request
with duplicate-free reviewers R, `old` in R, returns a pull request without `old`, with
`new`, with as many reviewers as R; `new` was not in R and was an active member of the team
of `old` in the store it was selected from; the reviewers are R minus `old` plus `new`, and
when only one user c is eligible then `new` is c. -/
theorem reassign_replaces_reviewer (env : PgEnv) (rnd : Nat → Nat) (s s1 : DB)
    (prID oldUserID newUserID : String) (pr updated : PullRequest)
    (hget : pullRequestRepository.GetPR s prID = .ok pr)
    (hopen : pr.Status = PRStatusOpen)
    (hnodup : pr.AssignedReviewers.Nodup)
    (hold : oldUserID ∈ pr.AssignedReviewers)
    (h : (pgPullRequestService env).ReassignReviewer rnd s prID oldUserID
      = (.ok (updated, newUserID), s1)) :
    oldUserID ∉ updated.AssignedReviewers ∧
    newUserID ∈ updated.AssignedReviewers ∧
    updated.AssignedReviewers.length = pr.AssignedReviewers.length ∧
    newUserID ∉ pr.AssignedReviewers ∧
    (∃ oldReviewer u, userRepository.GetUser s oldUserID = .ok oldReviewer ∧ u ∈ s.users ∧
      u.UserID = newUserID ∧ u.IsActive = true ∧ u.TeamName = oldReviewer.TeamName) ∧
    updated.AssignedReviewers.Perm (newUserID :: pr.AssignedReviewers.erase oldUserID) ∧
    (∀ oldReviewer c, userRepository.GetUser s oldUserID = .ok oldReviewer →
      (∀ u ∈ s.users, u.TeamName = oldReviewer.TeamName → u.IsActive = true →
        u.UserID ∉ pr.AssignedReviewers → u = c) →
      newUserID = c.UserID) := by
  obtain ⟨pr0, oldReviewer, candidates, rest, hget0, -, -, hu, hc, hsel, hre, hget1⟩ :=
    ReassignReviewer_ok_inv _ rnd s s1 prID oldUserID newUserID updated h
  have hpr : pr0 = pr := by
    have : pullRequestRepository.GetPR s prID = .ok pr0 := hget0
    rw [hget] at this
    injection this with this
    exact this.symm
  subst hpr
  -- the selected user
  have hnewmem : newUserID ∈ selectReviewers rnd candidates 1 := by
    rw [hsel]; exact List.mem_cons_self _ _
  obtain ⟨u, hucand, huid⟩ := selectReviewers_mem rnd candidates 1 newUserID hnewmem
  obtain ⟨hus, hteam, hact, hexcl⟩ :=
    (userRepository.GetActiveUsersByTeam_mem s _ _ candidates hc u).mp hucand
  have hnewR : newUserID ∉ pr0.AssignedReviewers := by
    intro hin
    apply hexcl
    rw [huid]
    by_cases hno : newUserID = oldUserID
    · rw [hno]; exact List.mem_cons_self _ _
    · exact List.mem_cons_of_mem _ (by simp [List.mem_filter, hin, hno])
  -- the reviewers read back
  have hrev : pr0.AssignedReviewers = reviewersOf s prID := by
    obtain ⟨row, -, hp⟩ := pullRequestRepository.GetPR_ok s prID pr0 hget
    rw [hp]
  have hs1 := pullRequestRepository.ReassignReviewer_ok env s s1 prID oldUserID newUserID hre
  have hupd : updated.AssignedReviewers = reviewersOf s1 prID := by
    obtain ⟨row, -, hp⟩ := pullRequestRepository.GetPR_ok s1 prID updated hget1
    rw [hp]
  have hperm : updated.AssignedReviewers.Perm
      (newUserID :: pr0.AssignedReviewers.erase oldUserID) := by
    rw [hupd, hs1, hrev]
    exact reviewersOf_reassigned_perm s prID oldUserID newUserID (hrev ▸ hnodup) (hrev ▸ hold)
  have hne : newUserID ≠ oldUserID := fun e => hnewR (e ▸ hold)
  refine ⟨?_, ?_, ?_, hnewR, ⟨oldReviewer, u, hu, hus, huid, hact, hteam⟩, hperm, ?_⟩
  · intro hin
    rcases List.mem_cons.mp (hperm.subset hin) with e | e
    · exact hne e.symm
    · exact (List.Nodup.mem_erase_iff hnodup).mp e |>.1 rfl
  · exact hperm.symm.subset (List.mem_cons_self _ _)
  · rw [hperm.length_eq, List.length_cons, List.length_erase_of_mem hold]
    have : 0 < pr0.AssignedReviewers.length := List.length_pos_of_mem hold
    omega
  · intro oldReviewer2 c hu2 huniq
    have he : oldReviewer2 = oldReviewer := by
      have : userRepository.GetUser s oldUserID = .ok oldReviewer := hu
      rw [hu2] at this
      injection this
    subst he
    rw [← huniq u hus hteam hact (huid ▸ hnewR), huid]

/-- Witness for C2: in `exOpenDB` reviewer u2 of p1 is replaced by u4. -/
theorem reassign_replaces_reviewer_witness :
    ∃ updated s1,
      (pgPullRequestService (envOf true)).ReassignReviewer (fun _ => 0) exOpenDB "p1" "u2"
        = (.ok (updated, "u4"), s1) ∧
      "u2" ∉ updated.AssignedReviewers ∧
      "u4" ∈ updated.AssignedReviewers ∧
      updated.AssignedReviewers.length = 2 ∧
      updated.AssignedReviewers.Perm ["u4", "u3"] := by
  have hrun : (pgPullRequestService (envOf true)).ReassignReviewer (fun _ => 0) exOpenDB
      "p1" "u2" =
      (.ok ({ PullRequestID := "p1", PullRequestName := "x", AuthorID := "u1",
              Status := "OPEN", AssignedReviewers := ["u3", "u4"], CreatedAt := some 7,
              MergedAt := none }, "u4"),
        { exOpenDB with pr_reviewers := [("p1", "u4"), ("p1", "u3")] }) := by rfl
  have h := reassign_replaces_reviewer (envOf true) (fun _ => 0) exOpenDB _ "p1" "u2" "u4"
    { PullRequestID := "p1", PullRequestName := "x", AuthorID := "u1", Status := "OPEN",
      AssignedReviewers := ["u2", "u3"], CreatedAt := some 7, MergedAt := none } _
    (by rfl) (by decide) (by decide) (by decide) hrun
  exact ⟨_, _, hrun, h.1, h.2.1, h.2.2.1, h.2.2.2.2.2.1⟩

/-! ## C3: no reassignment on a MERGED pull request -/

/-- C3: on a MERGED pull request `ReassignReviewer` returns `ErrPRMerged` for every
`oldUserID`, issues no repository command and leaves the state as it was (first part, for
any repositories); and over PostgreSQL, `MergePR` followed by `ReassignReviewer` on the same
pull request fails with `ErrPRMerged`, the reviewers staying those before the merge. -/
theorem reassign_merged_refused :
    (∀ (σ : Type) (svc : PullRequestService σ) (rnd : Nat → Nat) (s : σ)
        (prID oldUserID : String) (pr : PullRequest),
        svc.prRepo.GetPR s prID = .ok pr → pr.Status = PRStatusMerged →
        svc.recorded.ReassignReviewer rnd (Recorder.start s) prID oldUserID
          = (.error .ErrPRMerged, Recorder.start s)) ∧
    (∀ (env : PgEnv) (rnd : Nat → Nat) (s : DB) (prID oldUserID : String) (pr : PullRequest),
        (env.reviewersKey = true → s.pr_reviewers.Nodup) →
        pullRequestRepository.GetPR s prID = .ok pr →
        ∃ merged s1,
          (pgPullRequestService env).MergePR s prID = (.ok merged, s1) ∧
          (pgPullRequestService env).ReassignReviewer rnd s1 prID oldUserID
            = (.error .ErrPRMerged, s1) ∧
          reviewersOf s1 prID = reviewersOf s prID) := by
  have part1 : ∀ (σ : Type) (svc : PullRequestService σ) (rnd : Nat → Nat) (s : σ)
      (prID oldUserID : String) (pr : PullRequest),
      svc.prRepo.GetPR s prID = .ok pr → pr.Status = PRStatusMerged →
      svc.ReassignReviewer rnd s prID oldUserID = (.error .ErrPRMerged, s) := by
    intro σ svc rnd s prID oldUserID pr hget hm
    unfold PullRequestService.ReassignReviewer
    rw [hget]
    simp [hm]
  refine ⟨fun σ svc rnd s prID oldUserID pr hget hm =>
    part1 _ svc.recorded rnd (Recorder.start s) prID oldUserID pr hget hm, ?_⟩
  intro env rnd s prID oldUserID pr hkey hget
  have hrev : pr.AssignedReviewers = reviewersOf s prID := by
    obtain ⟨row, -, hpr⟩ := pullRequestRepository.GetPR_ok s prID pr hget
    rw [hpr]
  by_cases hm : pr.Status = PRStatusMerged
  · exact ⟨pr, s,
      service_MergePR_ok env s s prID pr
        (pullRequestRepository.MergePR_merged env s prID pr hget hm),
      part1 _ _ rnd s prID oldUserID pr hget hm, rfl⟩
  · obtain ⟨s1, h1, h2, -, -⟩ := pullRequestRepository.MergePR_open env s prID pr hkey hget hm
    refine ⟨_, s1, service_MergePR_ok env s s1 prID _ h1,
      part1 _ _ rnd s1 prID oldUserID _ h2 rfl, ?_⟩
    obtain ⟨row, -, hpr⟩ := pullRequestRepository.GetPR_ok s1 prID _ h2
    have := congrArg PullRequest.AssignedReviewers hpr
    simp only at this
    rw [← this, hrev]

/-- Witness for C3: p1 with reviewers u2 and u3 is merged, then `ReassignReviewer(p1, u2)`
is refused; and on the already MERGED p1 nothing is written. -/
theorem reassign_merged_refused_witness :
    ((pgPullRequestService (envOf true)).recorded.ReassignReviewer (fun _ => 0)
        (Recorder.start exMergedDB) "p1" "u2"
      = (.error .ErrPRMerged, Recorder.start exMergedDB)) ∧
    ∃ merged s1,
      (pgPullRequestService (envOf true)).MergePR exOpenDB "p1" = (.ok merged, s1) ∧
      (pgPullRequestService (envOf true)).ReassignReviewer (fun _ => 0) s1 "p1" "u2"
        = (.error .ErrPRMerged, s1) ∧
      reviewersOf s1 "p1" = reviewersOf exOpenDB "p1" :=
  ⟨reassign_merged_refused.1 DB (pgPullRequestService (envOf true)) (fun _ => 0) exMergedDB
      "p1" "u2" _ (by rfl : pullRequestRepository.GetPR exMergedDB "p1" = .ok _) (by decide),
    reassign_merged_refused.2 (envOf true) (fun _ => 0) exOpenDB "p1" "u2" _
      (fun _ => by decide) (by rfl : pullRequestRepository.GetPR exOpenDB "p1" = .ok _)⟩

/-! ## C4: `MergePR` is idempotent -/

/-- C4 (amended): over PostgreSQL, for an existing pull request two consecutive calls of
`MergePR` both succeed, and the second leaves the store as the first left it.  Both return
status MERGED and the reviewers the pull request had, and they agree in every field except
possibly `MergedAt`: the second call returns what the store holds.  When the first call
merges, it returns the instant of `time.Now()` and the second returns what column
`merged_at` keeps of it; the two returned pull requests are the same when the pull request
was MERGED already, and when the column keeps that instant exactly. -/
theorem mergePR_idempotent (env : PgEnv) (s : DB) (prID : String) (pr : PullRequest)
    (hkey : env.reviewersKey = true → s.pr_reviewers.Nodup)
    (hget : pullRequestRepository.GetPR s prID = .ok pr) :
    ∃ first second s1,
      (pgPullRequestService env).MergePR s prID = (.ok first, s1) ∧
      (pgPullRequestService env).MergePR s1 prID = (.ok second, s1) ∧
      pullRequestRepository.GetPR s1 prID = .ok second ∧
      first.Status = PRStatusMerged ∧ second.Status = PRStatusMerged ∧
      first.AssignedReviewers = pr.AssignedReviewers ∧
      second = { first with MergedAt := second.MergedAt } ∧
      (pr.Status = PRStatusMerged → second = first) ∧
      (pr.Status ≠ PRStatusMerged →
        first.MergedAt = some s.clock ∧ second.MergedAt = some (env.column s.clock)) ∧
      (env.column s.clock = s.clock → second = first) := by
  by_cases hm : pr.Status = PRStatusMerged
  · have h := service_MergePR_ok env s s prID pr
      (pullRequestRepository.MergePR_merged env s prID pr hget hm)
    exact ⟨pr, pr, s, h, h, hget, hm, hm, rfl, rfl, fun _ => rfl, fun hn => absurd hm hn,
      fun _ => rfl⟩
  · obtain ⟨s1, h1, h2, -, -⟩ := pullRequestRepository.MergePR_open env s prID pr hkey hget hm
    refine ⟨_, _, s1, service_MergePR_ok env s s1 prID _ h1,
      service_MergePR_ok env s1 s1 prID _
        (pullRequestRepository.MergePR_merged env s1 prID _ h2 rfl),
      h2, rfl, rfl, rfl, rfl, fun h => absurd h hm, fun _ => ⟨rfl, rfl⟩, fun hc => ?_⟩
    rw [hc]

/-- Witness for C4: merging the OPEN pull request p1 of `exNanoDB` twice, the column keeping
microseconds. -/
theorem mergePR_idempotent_witness :
    ∃ first second s1,
      (pgPullRequestService (envMicro true)).MergePR exNanoDB "p1" = (.ok first, s1) ∧
      (pgPullRequestService (envMicro true)).MergePR s1 "p1" = (.ok second, s1) ∧
      pullRequestRepository.GetPR s1 "p1" = .ok second ∧
      first.Status = PRStatusMerged ∧ second.Status = PRStatusMerged ∧
      first.AssignedReviewers = ["u2", "u3"] ∧
      second = { first with MergedAt := second.MergedAt } ∧
      first.MergedAt = some 1234567 ∧ second.MergedAt = some 1235000 := by
  obtain ⟨first, second, s1, h1, h2, h3, h4, h5, h6, h7, -, h9, -⟩ :=
    mergePR_idempotent (envMicro true) exNanoDB "p1"
      { PullRequestID := "p1", PullRequestName := "x", AuthorID := "u1", Status := "OPEN",
        AssignedReviewers := ["u2", "u3"], CreatedAt := some 1000000, MergedAt := none }
      (fun _ => by decide) (by rfl)
  exact ⟨first, second, s1, h1, h2, h3, h4, h5, h6, h7, (h9 (by decide)).1, (h9 (by decide)).2⟩

/-- C4 (the claim as stated fails): in `exNanoDB`, with a column that keeps microseconds, the
first `MergePR("p1")` returns `MergedAt` = 1234567 and the second, on the store the first
left, returns `MergedAt` = 1235000: not the same pull request. -/
theorem mergePR_returns_differ :
    ((pgPullRequestService (envMicro true)).MergePR exNanoDB "p1").1
      = .ok ⟨"p1", "x", "u1", "MERGED", ["u2", "u3"], some 1000000, some 1234567⟩ ∧
    ((pgPullRequestService (envMicro true)).MergePR
        ((pgPullRequestService (envMicro true)).MergePR exNanoDB "p1").2 "p1").1
      = .ok ⟨"p1", "x", "u1", "MERGED", ["u2", "u3"], some 1000000, some 1235000⟩ ∧
    (⟨"p1", "x", "u1", "MERGED", ["u2", "u3"], some 1000000, some 1234567⟩ : PullRequest)
      ≠ ⟨"p1", "x", "u1", "MERGED", ["u2", "u3"], some 1000000, some 1235000⟩ :=
  ⟨by rfl, by rfl, by decide⟩

/-! ## C5: `ReassignReviewer` and the author -/

/-- C5 (the code at the failing input): in `exAuthorDB` the author u1 of p1 is not a
reviewer of p1, `ReassignReviewer(p1, u2)` succeeds whatever the shuffle draws, and the
pull request it returns lists its own author u1 as reviewer. -/
theorem reassign_assigns_author :
    "u1" ∉ reviewersOf exAuthorDB "p1" ∧
    ∀ rnd : Nat → Nat,
      (pgPullRequestService (envOf true)).ReassignReviewer rnd exAuthorDB "p1" "u2"
        = (.ok ({ PullRequestID := "p1", PullRequestName := "x", AuthorID := "u1",
                  Status := "OPEN", AssignedReviewers := ["u1"], CreatedAt := some 7,
                  MergedAt := none }, "u1"),
            { exAuthorDB with pr_reviewers := [("p1", "u1")] }) :=
  ⟨by decide, fun _ => rfl⟩

/-! ## C6: replacements come from outside the batch -/

/-- C6: every `prRepo.ReassignReviewer(pr, old, new)` that `BulkDeactivate(teamName,
userIDs)` issues has `new` outside `userIDs`, provided `GetActiveUsersByTeam` returns none
of the excluded ids. -/
theorem bulkDeactivate_replacement_not_in_batch {σ : Type} (svc : BulkDeactivateService σ)
    (s : σ) (teamName : String) (userIDs : List String)
    (hrepo : ∀ (s0 : σ) (team : String) (excl : List String) (cands : List User),
      svc.userRepo.GetActiveUsersByTeam s0 team excl = .ok cands →
        ∀ u ∈ cands, u.UserID ∉ excl) :
    ∀ c ∈ (svc.recorded.BulkDeactivate (Recorder.start s) teamName userIDs).2.calls,
      ∀ (prID old new : String), c.2 = RepoCall.ReassignReviewer prID old new →
        new ∉ userIDs := by
  let P : Recorder σ → Prop := fun t =>
    ∀ c ∈ t.calls, ∀ (prID old new : String),
      c.2 = RepoCall.ReassignReviewer prID old new → new ∉ userIDs
  have hstart : P (Recorder.start s) := by
    intro c hc
    simp [Recorder.start] at hc
  show P _
  unfold BulkDeactivateService.BulkDeactivate
  split
  · exact hstart
  · split
    · exact hstart
    · split
      · exact hstart
      · split
        · exact hstart
        · next openPRs _ =>
          have hset : P (svc.recorded.userRepo.BulkSetIsActive (Recorder.start s) userIDs
              false).2 := by
            intro c hc prID old new heq
            simp [BulkDeactivateService.recorded, UserRepository.recorded, Recorder.log,
              Recorder.start] at hc
            rw [hc] at heq
            simp at heq
          split
          · next e s1 hb =>
            rw [hb] at hset
            exact hset
          · next s1 hb =>
            rw [hb] at hset
            refine reassignPRs_invariant svc.recorded userIDs P ?_ openPRs s1 hset
            intro pr t old oldReviewer candidate rest ht _ hc c hmem prID o n heq
            simp only [BulkDeactivateService.recorded, PullRequestRepository.recorded,
              Recorder.log, List.mem_append, List.mem_singleton] at hmem
            rcases hmem with hmem | hmem
            · exact ht c hmem prID o n heq
            · rw [hmem] at heq
              simp only [RepoCall.ReassignReviewer.injEq] at heq
              obtain ⟨-, -, hn⟩ := heq
              have := hrepo _ _ _ _ hc candidate (List.mem_cons_self _ _)
              rw [← hn]
              exact fun hin => this (List.mem_append_left _ hin)

/-- Witness for C6: the two replacements issued in `exBatchDB` both assign u4. -/
theorem bulkDeactivate_replacement_not_in_batch_witness :
    ((pgBulkDeactivateService (envOf true)).recorded.BulkDeactivate
        (Recorder.start exBatchDB) "backend" ["u2", "u3"]).2.calls.map Prod.snd
      = [RepoCall.BulkSetIsActive ["u2", "u3"] false,
         RepoCall.ReassignReviewer "p1" "u2" "u4",
         RepoCall.ReassignReviewer "p1" "u3" "u4"] ∧
    ∀ c ∈ ((pgBulkDeactivateService (envOf true)).recorded.BulkDeactivate
        (Recorder.start exBatchDB) "backend" ["u2", "u3"]).2.calls,
      ∀ (prID old new : String), c.2 = RepoCall.ReassignReviewer prID old new →
        new ∉ ["u2", "u3"] :=
  ⟨by decide,
    bulkDeactivate_replacement_not_in_batch (pgBulkDeactivateService (envOf true)) exBatchDB
      "backend" ["u2", "u3"]
      (fun s0 team excl cands hc u hu =>
        ((userRepository.GetActiveUsersByTeam_mem s0 team excl cands hc u).mp hu).2.2.2)⟩

/-! ## C7: every listed user ends inactive -/

/-- C7: over PostgreSQL, when the validation of `BulkDeactivate(teamName, userIDs)` passes
(`userIDs` non-empty, the team exists, every listed user exists and belongs to the team),
the call returns nil and afterwards every listed user is read back with `is_active =
false`, and so is every row of `users` with a listed id, whatever the reassignment loop
did. -/
theorem bulkDeactivate_deactivates_all (env : PgEnv) (s : DB) (teamName : String)
    (userIDs : List String)
    (hne : userIDs ≠ [])
    (hteam : ∃ team, teamRepository.GetTeam s teamName = .ok team)
    (husers : ∀ id ∈ userIDs, ∃ u,
      userRepository.GetUser s id = .ok u ∧ u.TeamName = teamName) :
    ((pgBulkDeactivateService env).BulkDeactivate s teamName userIDs).1 = none ∧
    (∀ id ∈ userIDs, ∃ u,
      userRepository.GetUser ((pgBulkDeactivateService env).BulkDeactivate s teamName userIDs).2 id
          = .ok u ∧
        u.IsActive = false) ∧
    (∀ u ∈ ((pgBulkDeactivateService env).BulkDeactivate s teamName userIDs).2.users,
      u.UserID ∈ userIDs → u.IsActive = false) := by
  have h0 : ¬ userIDs.length = 0 := fun h => hne (List.length_eq_zero.mp h)
  have hsnap : ∃ openPRs,
      pullRequestRepository.GetOpenPRsByReviewers env s userIDs = .ok openPRs := by
    unfold pullRequestRepository.GetOpenPRsByReviewers
    split
    · exact ⟨_, rfl⟩
    · exact ⟨_, rfl⟩
  obtain ⟨openPRs, hsnap⟩ := hsnap
  obtain ⟨hnil, husersEq⟩ := bulkDeactivate_users_after (pgBulkDeactivateService env) s
    teamName userIDs openPRs hne hteam husers hsnap rfl
    (fun t prID old new => pullRequestRepository.ReassignReviewer_users env t prID old new)
  refine ⟨hnil, ?_, ?_⟩
  · intro id hid
    obtain ⟨u, hu, -⟩ := husers id hid
    refine ⟨{ u with IsActive := false }, ?_, rfl⟩
    have := userRepository.GetUser_after_bulkSet s userIDs id u hu hid
    unfold userRepository.GetUser at this ⊢
    rw [husersEq]
    exact this
  · intro u hu hin
    rw [husersEq] at hu
    unfold userRepository.BulkSetIsActive at hu
    simp only [if_neg h0, List.mem_map] at hu
    obtain ⟨v, -, hv⟩ := hu
    by_cases hvin : v.UserID ∈ userIDs
    · rw [if_pos hvin] at hv
      rw [← hv]
    · rw [if_neg hvin] at hv
      rw [← hv] at hin
      exact absurd hin hvin

/-- Witness for C7: u2 and u3 of `exBatchDB` are deactivated although the second
replacement fails on the key of `pr_reviewers`. -/
theorem bulkDeactivate_deactivates_all_witness :
    ((pgBulkDeactivateService (envOf true)).BulkDeactivate exBatchDB "backend"
      ["u2", "u3"]).1 = none ∧
    (∀ id ∈ ["u2", "u3"], ∃ u,
      userRepository.GetUser ((pgBulkDeactivateService (envOf true)).BulkDeactivate exBatchDB
        "backend" ["u2", "u3"]).2 id = .ok u ∧ u.IsActive = false) ∧
    (∀ u ∈ ((pgBulkDeactivateService (envOf true)).BulkDeactivate exBatchDB "backend"
        ["u2", "u3"]).2.users, u.UserID ∈ ["u2", "u3"] → u.IsActive = false) :=
  bulkDeactivate_deactivates_all (envOf true) exBatchDB "backend" ["u2", "u3"] (by decide)
    ⟨_, rfl⟩
    (fun id hid => by
      simp only [List.mem_cons, List.mem_singleton, List.not_mem_nil, or_false] at hid
      rcases hid with h | h
      · subst h
        exact ⟨⟨"u2", "Bob", "backend", true⟩, by rfl, by decide⟩
      · subst h
        exact ⟨⟨"u3", "Carol", "backend", true⟩, by rfl, by decide⟩)

/-! ## C8: validation precedes every write -/

/-- C8: when `userIDs` is empty, or `GetTeam` fails, or some listed id (wherever it stands
in the list) has no user record or a user of another team, `BulkDeactivate` returns an
error, has issued no repository command (neither `BulkSetIsActive` nor `ReassignReviewer`)
and the state is the one it started from. -/
theorem bulkDeactivate_validation_all_or_nothing {σ : Type} (svc : BulkDeactivateService σ)
    (s : σ) (teamName : String) (userIDs : List String)
    (h : userIDs = [] ∨ (∃ e, svc.teamRepo.GetTeam s teamName = .error e) ∨
      ∃ id ∈ userIDs, ∀ u, svc.userRepo.GetUser s id = .ok u → u.TeamName ≠ teamName) :
    ∃ err, svc.recorded.BulkDeactivate (Recorder.start s) teamName userIDs
      = (some err, Recorder.start s) := by
  unfold BulkDeactivateService.BulkDeactivate
  by_cases h0 : userIDs.length = 0
  · rw [if_pos h0]
    exact ⟨_, rfl⟩
  · rw [if_neg h0]
    have hne : userIDs ≠ [] := fun e => h0 (by simp [e])
    have hteam : svc.recorded.teamRepo.GetTeam (Recorder.start s) teamName
        = svc.teamRepo.GetTeam s teamName := rfl
    rw [hteam]
    cases hg : svc.teamRepo.GetTeam s teamName with
    | error e => exact ⟨_, rfl⟩
    | ok team =>
      simp only
      rcases h with h | ⟨e, h⟩ | h
      · exact absurd h hne
      · rw [hg] at h
        cases h
      · obtain ⟨err, herr⟩ := validateUsers_some svc s teamName userIDs h
        rw [recorded_validateUsers]
        have hst : (Recorder.start s).state = s := rfl
        rw [hst, herr]
        exact ⟨_, rfl⟩

/-- Witness for C8: the last id of the batch names u1, a user of team `frontend`. -/
theorem bulkDeactivate_validation_all_or_nothing_witness :
    ∃ err, (pgBulkDeactivateService (envOf true)).recorded.BulkDeactivate
        (Recorder.start exBatchDB) "backend" ["u2", "u3", "u1"]
      = (some err, Recorder.start exBatchDB) :=
  bulkDeactivate_validation_all_or_nothing (pgBulkDeactivateService (envOf true)) exBatchDB
    "backend" ["u2", "u3", "u1"]
    (Or.inr (Or.inr ⟨"u1", by decide, fun u hu => by
      have h1 : userRepository.GetUser exBatchDB "u1"
          = .ok ⟨"u1", "Alice", "frontend", true⟩ := by rfl
      have h2 : userRepository.GetUser exBatchDB "u1" = .ok u := hu
      rw [h1] at h2
      injection h2 with h2
      subst h2
      decide⟩))

/-! ## C9: `BulkDeactivate` and the co-reviewers -/

/-- C9 (the code at the failing input): in `exBatchDB`, `BulkDeactivate("backend",
[u2, u3])` issues `ReassignReviewer(p1, u2, u4)` and then `ReassignReviewer(p1, u3, u4)`;
at the moment of the second command u4 already is a reviewer of p1.  Without a key on
`pr_reviewers` the duplicate-free reviewers [u2, u3] of p1 end as [u4, u4]; with the key the
second command fails and p1 ends with [u3, u4]. -/
theorem bulkDeactivate_repeats_replacement :
    (∀ key : Bool,
      ((pgBulkDeactivateService (envOf key)).recorded.BulkDeactivate
          (Recorder.start exBatchDB) "backend" ["u2", "u3"]).2.calls.map
        (fun c => (reviewersOf c.1 "p1", c.2))
        = [(["u2", "u3"], RepoCall.BulkSetIsActive ["u2", "u3"] false),
           (["u2", "u3"], RepoCall.ReassignReviewer "p1" "u2" "u4"),
           (["u3", "u4"], RepoCall.ReassignReviewer "p1" "u3" "u4")]) ∧
    (reviewersOf exBatchDB "p1").Nodup ∧
    reviewersOf ((pgBulkDeactivateService (envOf false)).BulkDeactivate exBatchDB "backend"
      ["u2", "u3"]).2 "p1" = ["u4", "u4"] ∧
    reviewersOf ((pgBulkDeactivateService (envOf true)).BulkDeactivate exBatchDB "backend"
      ["u2", "u3"]).2 "p1" = ["u3", "u4"] := by
  refine ⟨fun key => ?_, by decide, by decide, by decide⟩
  cases key <;> decide

/-! ## C10: `BulkDeactivate` and the author -/

/-- C10 (the code at the failing input): in `exAuthorDB` no pull request lists its author
as reviewer (p1 of author u1 has the reviewer u2); `BulkDeactivate("backend", [u2])` returns
nil and leaves p1, whose author is the active u1 outside the batch, with u1 as its
reviewer. -/
theorem bulkDeactivate_assigns_author :
    pullRequestRepository.GetPR exAuthorDB "p1"
      = .ok { PullRequestID := "p1", PullRequestName := "x", AuthorID := "u1",
              Status := "OPEN", AssignedReviewers := ["u2"], CreatedAt := some 7,
              MergedAt := none } ∧
    ((pgBulkDeactivateService (envOf true)).BulkDeactivate exAuthorDB "backend" ["u2"]).1
      = none ∧
    pullRequestRepository.GetPR ((pgBulkDeactivateService (envOf true)).BulkDeactivate
        exAuthorDB "backend" ["u2"]).2 "p1"
      = .ok { PullRequestID := "p1", PullRequestName := "x", AuthorID := "u1",
              Status := "OPEN", AssignedReviewers := ["u1"], CreatedAt := some 7,
              MergedAt := none } :=
  ⟨by rfl, by decide, by rfl⟩

/-! ## Lemmas: the size of a selection -/

theorem Shuffle_length {α : Type} (rnd : Nat → Nat) (l : List α) :
    (Shuffle rnd l).length = l.length :=
  (Shuffle_perm rnd l).length_eq

theorem selectReviewers_length (rnd : Nat → Nat) (candidates : List User) (maxCount : Nat) :
    (selectReviewers rnd candidates maxCount).length = min candidates.length maxCount := by
  unfold selectReviewers
  split
  · next h => simp [h]
  · simp only [List.length_map, List.length_take, Shuffle_length]
    split <;> omega

theorem selectReviewers_perm_of_le (rnd : Nat → Nat) (candidates : List User) (maxCount : Nat)
    (h : candidates.length ≤ maxCount) :
    (selectReviewers rnd candidates maxCount).Perm (candidates.map User.UserID) := by
  unfold selectReviewers
  split
  · next h0 =>
    rw [List.length_eq_zero] at h0
    subst h0
    exact List.Perm.refl _
  · have htake : ∀ n, (Shuffle rnd candidates).length ≤ n →
        (Shuffle rnd candidates).take n = Shuffle rnd candidates :=
      fun n hn => List.take_of_length_le hn
    simp only
    rw [htake]
    · exact (Shuffle_perm rnd candidates).map _
    · rw [Shuffle_length] at *
      split <;> omega

/-! ## Lemmas: `CreatePR` -/

/-- What a successful `CreatePR` has done, step by step. -/
theorem CreatePR_ok_inv {σ : Type} (svc : PullRequestService σ) (rnd : Nat → Nat) (s s1 : σ)
    (pr res : PullRequest) (h : svc.CreatePR rnd s pr = (none, res, s1)) :
    ∃ author candidates,
      svc.prRepo.PRExists s pr.PullRequestID = .ok false ∧
      svc.userRepo.GetUser s pr.AuthorID = .ok author ∧
      svc.userRepo.GetActiveUsersByTeam s author.TeamName [pr.AuthorID] = .ok candidates ∧
      svc.prRepo.CreatePR s
        { pr with AssignedReviewers := selectReviewers rnd candidates 2,
                  Status := PRStatusOpen } = (none, res, s1) := by
  unfold PullRequestService.CreatePR at h
  split at h
  · simp at h
  · simp at h
  · next hex =>
    split at h
    · split at h <;> simp at h
    · next author hauthor =>
      split at h
      · simp at h
      · next candidates hc =>
        simp only at h
        split at h
        · simp at h
        · next pr3 s2 hcreate =>
          simp only [Prod.mk.injEq, true_and] at h
          obtain ⟨h1, h2⟩ := h
          subst h1 h2
          exact ⟨author, candidates, hex, hauthor, hc, hcreate⟩

theorem pullRequestRepository.PRExists_of_GetPR_ok (s : DB) (prID : String) (pr : PullRequest)
    (h : pullRequestRepository.GetPR s prID = .ok pr) :
    pullRequestRepository.PRExists s prID = .ok true := by
  obtain ⟨row, hrow, -⟩ := pullRequestRepository.GetPR_ok s prID pr h
  unfold pullRequestRepository.PRExists
  congr 1
  rw [List.any_eq_true]
  have hp := List.find?_some hrow
  exact ⟨row, List.mem_of_find?_eq_some hrow, hp⟩

theorem pullRequestRepository.PRExists_of_GetPR_error (s : DB) (prID : String) (e : Error)
    (h : pullRequestRepository.GetPR s prID = .error e) :
    pullRequestRepository.PRExists s prID = .ok false ∧
      ∀ r ∈ s.pull_requests, r.pull_request_id ≠ prID := by
  unfold pullRequestRepository.GetPR at h
  split at h
  · next hnone =>
    rw [List.find?_eq_none] at hnone
    refine ⟨?_, fun r hr => by simpa using hnone r hr⟩
    unfold pullRequestRepository.PRExists
    congr 1
    rw [List.any_eq_false]
    exact hnone
  · simp at h

/-! ## Lemmas: inserting a pull request -/

theorem userRepository.GetActiveUsersByTeam_single (s : DB) (teamName authorID : String) :
    ∃ candidates, userRepository.GetActiveUsersByTeam s teamName [authorID] = .ok candidates ∧
      candidates.Perm (s.users.filter (fun u =>
        u.TeamName = teamName ∧ u.IsActive = true ∧ u.UserID ≠ authorID)) := by
  refine ⟨_, rfl, ?_⟩
  refine (List.perm_insertionSort _ _).trans ?_
  simp only [List.length_singleton, Nat.lt_one_iff, gt_iff_lt, Nat.zero_lt_one, if_true,
    List.filter_filter, List.mem_singleton]
  apply List.Perm.of_eq
  apply List.filter_congr
  intro u _
  by_cases h1 : u.TeamName = teamName <;> by_cases h2 : u.IsActive = true <;>
    by_cases h3 : u.UserID = authorID <;> simp [h1, h2, h3]

theorem pullRequestRepository.CreatePR_ok (env : PgEnv) (s : DB) (pr : PullRequest)
    (hnew : ∀ r ∈ s.pull_requests, r.pull_request_id ≠ pr.PullRequestID)
    (hins : env.reviewersKey = true →
      pr.AssignedReviewers.Nodup ∧
        ∀ r ∈ pr.AssignedReviewers, (pr.PullRequestID, r) ∉ s.pr_reviewers) :
    pullRequestRepository.CreatePR env s pr
      = (none, { pr with CreatedAt := some s.clock },
          { s with
            clock := s.clock + 1,
            pull_requests := s.pull_requests ++
              [{ pull_request_id := pr.PullRequestID, pull_request_name := pr.PullRequestName,
                 author_id := pr.AuthorID, status := pr.Status,
                 created_at := some (env.column s.clock), merged_at := none }],
            pr_reviewers := s.pr_reviewers ++
              pr.AssignedReviewers.map (fun r => (pr.PullRequestID, r)) }) := by
  unfold pullRequestRepository.CreatePR
  have hany : (s.pull_requests.any (fun r => r.pull_request_id = pr.PullRequestID)) = false := by
    rw [List.any_eq_false]
    intro r hr
    simpa using hnew r hr
  simp only [timeNow, hany, Bool.false_eq_true, if_false]
  rw [insertReviewers_ok env pr.PullRequestID pr.AssignedReviewers s.pr_reviewers hins]

theorem reviewersOf_appended (s s1 : DB) (prID : String) (ids : List String)
    (hnone : ∀ rv ∈ s.pr_reviewers, rv.1 ≠ prID)
    (h : s1.pr_reviewers = s.pr_reviewers ++ ids.map (fun r => (prID, r))) :
    reviewersOf s1 prID = orderByID ids := by
  unfold reviewersOf
  rw [h, List.filter_append]
  have h1 : s.pr_reviewers.filter (fun r => decide (r.1 = prID)) = [] := by
    rw [List.filter_eq_nil_iff]
    intro a ha
    simpa using hnone a ha
  have h2 : (ids.map (fun r => (prID, r))).filter (fun r => decide (r.1 = prID))
      = ids.map (fun r => (prID, r)) := by
    rw [List.filter_eq_self]
    intro a ha
    rw [List.mem_map] at ha
    obtain ⟨x, _, rfl⟩ := ha
    simp
  rw [h1, h2]
  simp only [List.nil_append, List.map_map]
  have h3 : (Prod.snd ∘ fun r : String => (prID, r)) = id := by
    funext x
    rfl
  rw [h3, List.map_id]

/-! ## Lemmas: the outcomes of `ReassignReviewer` -/

theorem pullRequestRepository.GetPR_error (s : DB) (prID : String) (e : Error)
    (h : pullRequestRepository.GetPR s prID = .error e) : e = .ErrNotFound := by
  unfold pullRequestRepository.GetPR at h
  split at h
  · injection h with h
    exact h.symm
  · simp at h

theorem userRepository.GetUser_error (s : DB) (userID : String) (e : Error)
    (h : userRepository.GetUser s userID = .error e) : e = .ErrNotFound := by
  unfold userRepository.GetUser at h
  split at h
  · injection h with h
    exact h.symm
  · simp at h

theorem userRepository.GetActiveUsersByTeam_total (s : DB) (teamName : String)
    (excl : List String) :
    ∃ candidates, userRepository.GetActiveUsersByTeam s teamName excl = .ok candidates :=
  ⟨_, rfl⟩

theorem mem_reviewersOf (s : DB) (prID x : String) :
    x ∈ reviewersOf s prID ↔ (prID, x) ∈ s.pr_reviewers := by
  unfold reviewersOf
  rw [mem_orderByID, List.mem_map]
  constructor
  · rintro ⟨⟨a, b⟩, hab, rfl⟩
    simp only [List.mem_filter, decide_eq_true_eq] at hab
    obtain ⟨hmem, rfl⟩ := hab
    exact hmem
  · intro h
    exact ⟨(prID, x), by simp [List.mem_filter, h], rfl⟩

theorem pullRequestRepository.ReassignReviewer_succeeds (env : PgEnv) (s : DB)
    (prID old new : String) (hold : old ∈ reviewersOf s prID)
    (hnew : new ∉ reviewersOf s prID) :
    pullRequestRepository.ReassignReviewer env s prID old new
      = (none, { s with pr_reviewers := s.pr_reviewers.map (fun r =>
          if r.1 = prID ∧ r.2 = old then (prID, new) else r) }) := by
  unfold pullRequestRepository.ReassignReviewer
  rw [mem_reviewersOf] at hold hnew
  have hcount : ¬ (s.pr_reviewers.filter
      (fun r => decide (r.1 = prID ∧ r.2 = old))).length = 0 := by
    intro h0
    rw [List.length_eq_zero, List.filter_eq_nil_iff] at h0
    have := h0 (prID, old) hold
    simp at this
  simp only [if_neg hcount]
  rw [if_neg]
  rintro ⟨-, -, hmem⟩
  exact hnew hmem

theorem pullRequestRepository.GetPR_same_rows (s s1 : DB) (prID : String)
    (h : s1.pull_requests = s.pull_requests) (pr : PullRequest)
    (hget : pullRequestRepository.GetPR s prID = .ok pr) :
    pullRequestRepository.GetPR s1 prID
      = .ok { pr with AssignedReviewers := reviewersOf s1 prID } := by
  obtain ⟨row, hrow, hpr⟩ := pullRequestRepository.GetPR_ok s prID pr hget
  unfold pullRequestRepository.GetPR
  rw [h, hrow, hpr]

theorem not_mem_exclude (old x : String) (l : List String) :
    x ∉ old :: l.filter (fun r => r ≠ old) ↔ x ≠ old ∧ x ∉ l := by
  simp only [List.mem_cons, List.mem_filter, decide_eq_true_eq, not_or, not_and]
  constructor
  · rintro ⟨h1, h2⟩
    exact ⟨h1, fun hm => h2 hm h1⟩
  · rintro ⟨h1, h2⟩
    exact ⟨h1, fun hm _ => h2 hm⟩

/-- The last two outcomes of `ReassignReviewer` over PostgreSQL, once the pull request is
found, not MERGED, lists `oldUserID`, and the user record of `oldUserID` is found. -/
theorem reassign_candidates_decide (env : PgEnv) (rnd : Nat → Nat) (s : DB)
    (prID oldUserID : String) (pr : PullRequest) (oldReviewer : User)
    (hget : pullRequestRepository.GetPR s prID = .ok pr)
    (hnm : pr.Status ≠ PRStatusMerged)
    (hold : oldUserID ∈ pr.AssignedReviewers)
    (huser : userRepository.GetUser s oldUserID = .ok oldReviewer) :
    ((∀ u ∈ s.users, ¬ (u.TeamName = oldReviewer.TeamName ∧ u.IsActive = true ∧
        u.UserID ≠ oldUserID ∧ u.UserID ∉ pr.AssignedReviewers)) →
      (pgPullRequestService env).ReassignReviewer rnd s prID oldUserID
        = (.error .ErrNoCandidate, s)) ∧
    ((∃ u ∈ s.users, u.TeamName = oldReviewer.TeamName ∧ u.IsActive = true ∧
        u.UserID ≠ oldUserID ∧ u.UserID ∉ pr.AssignedReviewers) →
      ∃ updated newUserID s1,
        (pgPullRequestService env).ReassignReviewer rnd s prID oldUserID
          = (.ok (updated, newUserID), s1)) := by
  obtain ⟨candidates, hc⟩ := userRepository.GetActiveUsersByTeam_total s oldReviewer.TeamName
    (oldUserID :: pr.AssignedReviewers.filter (fun r => r ≠ oldUserID))
  have hmem := userRepository.GetActiveUsersByTeam_mem s _ _ candidates hc
  have h1 : (pgPullRequestService env).prRepo.GetPR s prID = .ok pr := hget
  have h2 : (pgPullRequestService env).userRepo.GetUser s oldUserID = .ok oldReviewer := huser
  have h3 : (pgPullRequestService env).userRepo.GetActiveUsersByTeam s oldReviewer.TeamName
      (oldUserID :: pr.AssignedReviewers.filter (fun r => r ≠ oldUserID)) = .ok candidates := hc
  have hrev : pr.AssignedReviewers = reviewersOf s prID := by
    obtain ⟨row, -, hp⟩ := pullRequestRepository.GetPR_ok s prID pr hget
    rw [hp]
  constructor
  · intro hnone
    have hnil : candidates = [] := by
      rw [List.eq_nil_iff_forall_not_mem]
      intro u hu
      obtain ⟨husers, ht, ha, hex⟩ := (hmem u).mp hu
      rw [not_mem_exclude] at hex
      exact hnone u husers ⟨ht, ha, hex.1, hex.2⟩
    unfold PullRequestService.ReassignReviewer
    rw [h1]
    simp only [if_neg hnm, not_not.mpr hold, if_false, h2, h3, hnil, List.length_nil, if_true]
  · rintro ⟨u, husers, ht, ha, hne, hnr⟩
    have hucand : u ∈ candidates :=
      (hmem u).mpr ⟨husers, ht, ha, (not_mem_exclude _ _ _).mpr ⟨hne, hnr⟩⟩
    have hlen : ¬ candidates.length = 0 := by
      intro h0
      rw [List.length_eq_zero] at h0
      rw [h0] at hucand
      simp at hucand
    have hsel : (selectReviewers rnd candidates 1).length = 1 := by
      rw [selectReviewers_length]
      omega
    unfold PullRequestService.ReassignReviewer
    rw [h1]
    simp only [if_neg hnm, not_not.mpr hold, if_false, h2, h3, if_neg hlen]
    split
    · next hnil =>
      rw [hnil] at hsel
      simp at hsel
    · next newUserID rest hsel1 =>
      obtain ⟨c, hc1, hc2⟩ := selectReviewers_mem rnd candidates 1 newUserID
        (by rw [hsel1]; exact List.mem_cons_self _ _)
      have hcex := ((hmem c).mp hc1).2.2.2
      rw [not_mem_exclude, hc2] at hcex
      have hwrite := pullRequestRepository.ReassignReviewer_succeeds env s prID oldUserID
        newUserID (hrev ▸ hold) (hrev ▸ hcex.2)
      have hwrite' : (pgPullRequestService env).prRepo.ReassignReviewer s prID oldUserID
          newUserID = _ := hwrite
      have hget1 := pullRequestRepository.GetPR_same_rows s
        { s with pr_reviewers := s.pr_reviewers.map (fun r =>
            if r.1 = prID ∧ r.2 = oldUserID then (prID, newUserID) else r) } prID rfl pr hget
      have hget1' : (pgPullRequestService env).prRepo.GetPR
        { s with pr_reviewers := s.pr_reviewers.map (fun r =>
            if r.1 = prID ∧ r.2 = oldUserID then (prID, newUserID) else r) } prID = _ := hget1
      rw [hwrite']
      simp only [hget1']
      exact ⟨_, _, _, rfl⟩

/-- A `ReassignReviewer` that returns `ErrNoCandidate` or `ErrNotAssigned` returns the state
it was given; with `ErrNoCandidate` the pull request was read with `oldUserID` among its
reviewers, with `ErrNotAssigned` without it. -/
theorem ReassignReviewer_refused_inv {σ : Type} (svc : PullRequestService σ)
    (rnd : Nat → Nat) (s s1 : σ) (prID oldUserID : String) (e : Error)
    (he : e = .ErrNoCandidate ∨ e = .ErrNotAssigned)
    (h : svc.ReassignReviewer rnd s prID oldUserID = (.error e, s1)) :
    s1 = s ∧ ∃ pr, svc.prRepo.GetPR s prID = .ok pr ∧
      (e = .ErrNoCandidate → oldUserID ∈ pr.AssignedReviewers) ∧
      (e = .ErrNotAssigned → oldUserID ∉ pr.AssignedReviewers) := by
  unfold PullRequestService.ReassignReviewer at h
  split at h
  · split at h <;>
      · simp only [Prod.mk.injEq, Except.error.injEq] at h
        rcases he with he | he <;> rw [he] at h <;> simp at h
  · next pr hget =>
    split at h
    · simp only [Prod.mk.injEq, Except.error.injEq] at h
      rcases he with he | he <;> rw [he] at h <;> simp at h
    · split at h
      · next hnot =>
        simp only [Prod.mk.injEq, Except.error.injEq] at h
        refine ⟨h.2.symm, pr, hget, fun hc => ?_, fun _ => hnot⟩
        rw [hc] at h
        simp at h
      · next hin =>
        have hin := not_not.mp hin
        split at h
        · split at h <;>
            · simp only [Prod.mk.injEq, Except.error.injEq] at h
              rcases he with he | he <;> rw [he] at h <;> simp at h
        · simp only at h
          split at h
          · simp only [Prod.mk.injEq, Except.error.injEq] at h
            rcases he with he | he <;> rw [he] at h <;> simp at h
          · split at h
            · simp only [Prod.mk.injEq, Except.error.injEq] at h
              refine ⟨h.2.symm, pr, hget, fun _ => hin, fun hc => ?_⟩
              rw [hc] at h
              simp at h
            · split at h
              · simp only [Prod.mk.injEq, Except.error.injEq] at h
                refine ⟨h.2.symm, pr, hget, fun _ => hin, fun hc => ?_⟩
                rw [hc] at h
                simp at h
              · split at h
                · simp only [Prod.mk.injEq, Except.error.injEq] at h
                  rcases he with he | he <;> rw [he] at h <;> simp at h
                · split at h
                  · simp only [Prod.mk.injEq, Except.error.injEq] at h
                    rcases he with he | he <;> rw [he] at h <;> simp at h
                  · simp at h

/-- The recording pull request service reassigns as the plain service does. -/
theorem recorded_service_ReassignReviewer {σ : Type} (svc : PullRequestService σ)
    (rnd : Nat → Nat) (s : σ) (prID oldUserID : String) :
    (svc.recorded.ReassignReviewer rnd (Recorder.start s) prID oldUserID).1
      = (svc.ReassignReviewer rnd s prID oldUserID).1 ∧
    (svc.recorded.ReassignReviewer rnd (Recorder.start s) prID oldUserID).2.state
      = (svc.ReassignReviewer rnd s prID oldUserID).2 := by
  unfold PullRequestService.ReassignReviewer
  have h1 : svc.recorded.prRepo.GetPR (Recorder.start s) prID = svc.prRepo.GetPR s prID := rfl
  have h2 : svc.recorded.userRepo.GetUser (Recorder.start s) oldUserID
      = svc.userRepo.GetUser s oldUserID := rfl
  rw [h1, h2]
  cases svc.prRepo.GetPR s prID with
  | error e =>
    simp only
    split <;> exact ⟨rfl, rfl⟩
  | ok pr =>
    simp only
    split
    · exact ⟨rfl, rfl⟩
    · split
      · exact ⟨rfl, rfl⟩
      · cases svc.userRepo.GetUser s oldUserID with
        | error e =>
          simp only
          split <;> exact ⟨rfl, rfl⟩
        | ok oldReviewer =>
          simp only
          have h3 : ∀ excl, svc.recorded.userRepo.GetActiveUsersByTeam (Recorder.start s)
              oldReviewer.TeamName excl
              = svc.userRepo.GetActiveUsersByTeam s oldReviewer.TeamName excl := fun _ => rfl
          rw [h3]
          cases svc.userRepo.GetActiveUsersByTeam s oldReviewer.TeamName
              (oldUserID :: pr.AssignedReviewers.filter (fun r => r ≠ oldUserID)) with
          | error e => exact ⟨rfl, rfl⟩
          | ok candidates =>
            simp only
            split
            · exact ⟨rfl, rfl⟩
            · cases selectReviewers rnd candidates 1 with
              | nil => exact ⟨rfl, rfl⟩
              | cons newUserID rest =>
                simp only
                have h4 : svc.recorded.prRepo.ReassignReviewer (Recorder.start s) prID
                    oldUserID newUserID
                    = ((svc.prRepo.ReassignReviewer s prID oldUserID newUserID).1,
                        (Recorder.start s).log
                          (RepoCall.ReassignReviewer prID oldUserID newUserID)
                          (svc.prRepo.ReassignReviewer s prID oldUserID newUserID).2) := rfl
                rw [h4]
                rcases svc.prRepo.ReassignReviewer s prID oldUserID newUserID
                  with ⟨_ | e, s1⟩
                · simp only
                  have h5 : ∀ c, svc.recorded.prRepo.GetPR
                      ((Recorder.start s).log c s1) prID = svc.prRepo.GetPR s1 prID :=
                    fun _ => rfl
                  rw [h5]
                  cases svc.prRepo.GetPR s1 prID with
                  | error e => exact ⟨rfl, rfl⟩
                  | ok updated => exact ⟨rfl, rfl⟩
                · exact ⟨rfl, rfl⟩

/-! ## Lemmas: what `MergePR` writes -/

/-- The store after merging a pull request that is not yet MERGED. -/
theorem pullRequestRepository.MergePR_open_state (env : PgEnv) (s : DB) (prID : String)
    (pr : PullRequest)
    (hkey : env.reviewersKey = true → s.pr_reviewers.Nodup)
    (hget : pullRequestRepository.GetPR s prID = .ok pr) (hopen : pr.Status ≠ PRStatusMerged) :
    pullRequestRepository.MergePR env s prID
      = (.ok { pr with Status := PRStatusMerged, MergedAt := some s.clock },
          { s with
            clock := s.clock + 1,
            pull_requests := s.pull_requests.map (fun r : PRRow =>
              if r.pull_request_id = prID then
                { r with pull_request_name := pr.PullRequestName, status := PRStatusMerged,
                         merged_at := some (env.column s.clock) }
              else r),
            pr_reviewers := s.pr_reviewers.filter (fun r => r.1 ≠ prID)
              ++ (reviewersOf s prID).map (fun r => (prID, r)) }) := by
  obtain ⟨row, hrow, hpr⟩ := pullRequestRepository.GetPR_ok s prID pr hget
  have hid : row.pull_request_id = prID := by
    have := List.find?_some hrow
    simpa using this
  have hrev : pr.AssignedReviewers = reviewersOf s prID := by rw [hpr]
  have hprid : pr.PullRequestID = prID := by rw [hpr]; exact hid
  have hins : insertReviewers env prID (reviewersOf s prID)
      (s.pr_reviewers.filter (fun r => r.1 ≠ prID))
      = some (s.pr_reviewers.filter (fun r => r.1 ≠ prID)
          ++ (reviewersOf s prID).map (fun r => (prID, r))) := by
    apply insertReviewers_ok
    intro hk
    refine ⟨reviewersOf_nodup s prID (hkey hk), fun r _ hmem => ?_⟩
    simp [List.mem_filter] at hmem
  unfold pullRequestRepository.MergePR
  rw [hget]
  simp only [if_neg hopen, timeNow, pullRequestRepository.UpdatePR, hprid, hrev, hins,
    Option.map_some']

/-- Rows of other pull requests are read back as before when only the rows of `prID`
were rewritten. -/
theorem pullRequestRepository.GetPR_other (s s1 : DB) (prID other : String)
    (f : PRRow → PRRow) (added : List String) (hne : other ≠ prID)
    (hf : ∀ r, (f r).pull_request_id = r.pull_request_id)
    (hf2 : ∀ r, r.pull_request_id ≠ prID → f r = r)
    (hrows : s1.pull_requests = s.pull_requests.map f)
    (hrev : s1.pr_reviewers = s.pr_reviewers.filter (fun r => r.1 ≠ prID)
      ++ added.map (fun r => (prID, r))) :
    pullRequestRepository.GetPR s1 other = pullRequestRepository.GetPR s other := by
  have hro : reviewersOf s1 other = reviewersOf s other := by
    unfold reviewersOf
    rw [hrev, List.filter_append, List.filter_filter]
    have h1 : (added.map (fun r => (prID, r))).filter (fun r => decide (r.1 = other)) = [] := by
      rw [List.filter_eq_nil_iff]
      intro a ha
      rw [List.mem_map] at ha
      obtain ⟨x, _, rfl⟩ := ha
      simpa using fun e : prID = other => hne e.symm
    have h2 : s.pr_reviewers.filter (fun a => decide (a.1 = other) && decide (a.1 ≠ prID))
        = s.pr_reviewers.filter (fun a => decide (a.1 = other)) := by
      apply List.filter_congr
      intro a _
      by_cases ha : a.1 = other
      · simp [ha, hne]
      · simp [ha]
    rw [h1, h2, List.append_nil]
  unfold pullRequestRepository.GetPR
  rw [hrows, List.find?_map]
  have hcomp : ((fun r : PRRow => decide (r.pull_request_id = other)) ∘ f)
      = fun r : PRRow => decide (r.pull_request_id = other) := by
    funext r
    simp [hf r]
  rw [hcomp, hro]
  cases hfind : s.pull_requests.find? (fun r => decide (r.pull_request_id = other)) with
  | none => rfl
  | some row =>
    have hid : row.pull_request_id = other := by
      have := List.find?_some hfind
      simpa using this
    have : f row = row := hf2 row (by rw [hid]; exact hne)
    simp [this]

/-! ## Lemmas: which rows the commands touch -/

theorem insertReviewers_some (env : PgEnv) (prID : String) :
    ∀ (rs : List String) (rows out : List (String × String)),
      insertReviewers env prID rs rows = some out →
      out = rows ++ rs.map (fun r => (prID, r))
  | [], rows, out, h => by
    simp only [insertReviewers, Option.some.injEq] at h
    simp [h]
  | r :: rest, rows, out, h => by
    unfold insertReviewers at h
    split at h
    · simp at h
    · have := insertReviewers_some env prID rest _ out h
      rw [this]
      simp

theorem reviewersOf_of_rows (s s1 : DB) (prID : String)
    (h : s1.pr_reviewers = s.pr_reviewers) : reviewersOf s1 prID = reviewersOf s prID := by
  unfold reviewersOf
  rw [h]

theorem pullRequestRepository.GetPR_frame (s s1 : DB) (prID : String)
    (hrows : s1.pull_requests = s.pull_requests)
    (hrev : reviewersOf s1 prID = reviewersOf s prID) :
    pullRequestRepository.GetPR s1 prID = pullRequestRepository.GetPR s prID := by
  unfold pullRequestRepository.GetPR
  rw [hrows, hrev]

theorem reviewersOf_length (s : DB) (prID : String) :
    (reviewersOf s prID).length
      = (s.pr_reviewers.filter (fun r => decide (r.1 = prID))).length := by
  unfold reviewersOf
  rw [orderByID_length, List.length_map]

/-- The command `ReassignReviewer` of the repository, failing or not, leaves the other
tables alone, leaves the reviewers of every other pull request alone and keeps the number
of reviewer rows of every pull request. -/
theorem pullRequestRepository.ReassignReviewer_frame (env : PgEnv) (s : DB)
    (prID old new : String) :
    (pullRequestRepository.ReassignReviewer env s prID old new).2.pull_requests
      = s.pull_requests ∧
    (pullRequestRepository.ReassignReviewer env s prID old new).2.users = s.users ∧
    (pullRequestRepository.ReassignReviewer env s prID old new).2.teams = s.teams ∧
    (∀ X, X ≠ prID →
      reviewersOf (pullRequestRepository.ReassignReviewer env s prID old new).2 X
        = reviewersOf s X) ∧
    (∀ X, (reviewersOf (pullRequestRepository.ReassignReviewer env s prID old new).2 X).length
        = (reviewersOf s X).length) := by
  unfold pullRequestRepository.ReassignReviewer
  simp only
  split
  · exact ⟨rfl, rfl, rfl, fun _ _ => rfl, fun _ => rfl⟩
  · split
    · exact ⟨rfl, rfl, rfl, fun _ _ => rfl, fun _ => rfl⟩
    · have hcomp : ∀ X, ((fun r : String × String => decide (r.1 = X)) ∘
          fun r : String × String => if r.1 = prID ∧ r.2 = old then (prID, new) else r)
          = fun r : String × String => decide (r.1 = X) := by
        intro X
        funext r
        by_cases h1 : r.1 = prID <;> by_cases h2 : r.2 = old <;> simp [h1, h2]
      refine ⟨rfl, rfl, rfl, fun X hX => ?_, fun X => ?_⟩
      · unfold reviewersOf
        congr 1
        simp only [List.filter_map, List.map_map, hcomp]
        apply List.map_congr_left
        intro r hr
        simp only [List.mem_filter, decide_eq_true_eq] at hr
        have : ¬ (r.1 = prID ∧ r.2 = old) := fun h => hX (hr.2.symm.trans h.1)
        simp [this]
      · rw [reviewersOf_length, reviewersOf_length]
        simp only [List.filter_map, List.length_map, hcomp]

theorem reviewersOf_other (s s1 : DB) (prID other : String) (added : List String)
    (hne : other ≠ prID)
    (hrev : s1.pr_reviewers = s.pr_reviewers.filter (fun r => r.1 ≠ prID)
      ++ added.map (fun r => (prID, r))) :
    reviewersOf s1 other = reviewersOf s other := by
  unfold reviewersOf
  rw [hrev, List.filter_append, List.filter_filter]
  have h1 : (added.map (fun r => (prID, r))).filter (fun r => decide (r.1 = other)) = [] := by
    rw [List.filter_eq_nil_iff]
    intro a ha
    rw [List.mem_map] at ha
    obtain ⟨x, _, rfl⟩ := ha
    simpa using fun e : prID = other => hne e.symm
  have h2 : s.pr_reviewers.filter (fun a => decide (a.1 = other) && decide (a.1 ≠ prID))
      = s.pr_reviewers.filter (fun a => decide (a.1 = other)) := by
    apply List.filter_congr
    intro a _
    by_cases ha : a.1 = other
    · simp [ha, hne]
    · simp [ha]
  rw [h1, h2, List.append_nil]

/-- The state after `ReassignReviewer` of the service is the state before it or the state
left by one `ReassignReviewer` command of the repository. -/
theorem ReassignReviewer_state {σ : Type} (svc : PullRequestService σ) (rnd : Nat → Nat)
    (s : σ) (prID oldUserID : String) :
    (svc.ReassignReviewer rnd s prID oldUserID).2 = s ∨
    ∃ newUserID, (svc.ReassignReviewer rnd s prID oldUserID).2
      = (svc.prRepo.ReassignReviewer s prID oldUserID newUserID).2 := by
  unfold PullRequestService.ReassignReviewer
  cases svc.prRepo.GetPR s prID with
  | error e =>
    simp only
    split <;> exact Or.inl rfl
  | ok pr =>
    simp only
    split
    · exact Or.inl rfl
    · split
      · exact Or.inl rfl
      · cases svc.userRepo.GetUser s oldUserID with
        | error e =>
          simp only
          split <;> exact Or.inl rfl
        | ok oldReviewer =>
          simp only
          cases svc.userRepo.GetActiveUsersByTeam s oldReviewer.TeamName
              (oldUserID :: pr.AssignedReviewers.filter (fun r => r ≠ oldUserID)) with
          | error e => exact Or.inl rfl
          | ok candidates =>
            simp only
            split
            · exact Or.inl rfl
            · cases selectReviewers rnd candidates 1 with
              | nil => exact Or.inl rfl
              | cons newUserID rest =>
                simp only
                refine Or.inr ⟨newUserID, ?_⟩
                rcases svc.prRepo.ReassignReviewer s prID oldUserID newUserID
                  with ⟨_ | e, s1⟩
                · simp only
                  cases svc.prRepo.GetPR s1 prID with
                  | error e => rfl
                  | ok updated => rfl
                · rfl

/-- The state after `CreatePR` of the service is the state before it or the state left by
`CreatePR` of the repository for a new id and a fresh selection of reviewers. -/
theorem CreatePR_state {σ : Type} (svc : PullRequestService σ) (rnd : Nat → Nat) (s : σ)
    (pr : PullRequest) :
    (svc.CreatePR rnd s pr).2.2 = s ∨
    ∃ candidates, svc.prRepo.PRExists s pr.PullRequestID = .ok false ∧
      (svc.CreatePR rnd s pr).2.2
        = (svc.prRepo.CreatePR s
            { pr with AssignedReviewers := selectReviewers rnd candidates 2,
                      Status := PRStatusOpen }).2.2 := by
  unfold PullRequestService.CreatePR
  cases hex : svc.prRepo.PRExists s pr.PullRequestID with
  | error e => exact Or.inl rfl
  | ok b =>
    cases b with
    | true => exact Or.inl rfl
    | false =>
      simp only
      cases svc.userRepo.GetUser s pr.AuthorID with
      | error e =>
        simp only
        split <;> exact Or.inl rfl
      | ok author =>
        simp only
        cases svc.userRepo.GetActiveUsersByTeam s author.TeamName [pr.AuthorID] with
        | error e => exact Or.inl rfl
        | ok candidates =>
          simp only
          refine Or.inr ⟨candidates, trivial, ?_⟩
          rcases svc.prRepo.CreatePR s
            { pr with AssignedReviewers := selectReviewers rnd candidates 2,
                      Status := PRStatusOpen } with ⟨_ | e, p3, s1⟩
          · rfl
          · rfl

/-- The store after `CreatePR` of the repository: tables `users` and `teams` as before, and
either the other two tables as before or one pull request row and its reviewer rows
appended. -/
theorem pullRequestRepository.CreatePR_tables (env : PgEnv) (s : DB) (pr : PullRequest) :
    (pullRequestRepository.CreatePR env s pr).2.2.users = s.users ∧
    (pullRequestRepository.CreatePR env s pr).2.2.teams = s.teams ∧
    (((pullRequestRepository.CreatePR env s pr).2.2.pull_requests = s.pull_requests ∧
      (pullRequestRepository.CreatePR env s pr).2.2.pr_reviewers = s.pr_reviewers) ∨
     ((∀ r ∈ s.pull_requests, r.pull_request_id ≠ pr.PullRequestID) ∧
      (∃ row, (pullRequestRepository.CreatePR env s pr).2.2.pull_requests
        = s.pull_requests ++ [row]) ∧
      (pullRequestRepository.CreatePR env s pr).2.2.pr_reviewers
        = s.pr_reviewers ++ pr.AssignedReviewers.map (fun r => (pr.PullRequestID, r)))) := by
  unfold pullRequestRepository.CreatePR
  simp only [timeNow]
  split
  · exact ⟨rfl, rfl, Or.inl ⟨rfl, rfl⟩⟩
  · next hany =>
    have hnew : ∀ r ∈ s.pull_requests, r.pull_request_id ≠ pr.PullRequestID := by
      intro r hr e
      apply hany
      rw [List.any_eq_true]
      exact ⟨r, hr, by simpa using e⟩
    split
    · exact ⟨rfl, rfl, Or.inl ⟨rfl, rfl⟩⟩
    · next rows hins =>
      have := insertReviewers_some env _ _ _ rows hins
      exact ⟨rfl, rfl, Or.inr ⟨hnew, ⟨_, rfl⟩, this⟩⟩

/-- The store after `MergePR` of the repository, failing or not: tables `users` and `teams`
as before, every other pull request read back as before, and as many reviewer rows for
every pull request as before. -/
theorem pullRequestRepository.MergePR_frame (env : PgEnv) (s : DB) (prID : String) :
    (pullRequestRepository.MergePR env s prID).2.users = s.users ∧
    (pullRequestRepository.MergePR env s prID).2.teams = s.teams ∧
    (∀ X, X ≠ prID →
      pullRequestRepository.GetPR (pullRequestRepository.MergePR env s prID).2 X
        = pullRequestRepository.GetPR s X) ∧
    (∀ X, (reviewersOf (pullRequestRepository.MergePR env s prID).2 X).length
        = (reviewersOf s X).length) := by
  unfold pullRequestRepository.MergePR
  cases hget : pullRequestRepository.GetPR s prID with
  | error e => exact ⟨rfl, rfl, fun _ _ => rfl, fun _ => rfl⟩
  | ok pr =>
    simp only
    split
    · exact ⟨rfl, rfl, fun _ _ => rfl, fun _ => rfl⟩
    · obtain ⟨row, hrow, hpr⟩ := pullRequestRepository.GetPR_ok s prID pr hget
      have hid : row.pull_request_id = prID := by
        have := List.find?_some hrow
        simpa using this
      have hrev : pr.AssignedReviewers = reviewersOf s prID := by rw [hpr]
      have hprid : pr.PullRequestID = prID := by rw [hpr]; exact hid
      simp only [timeNow, pullRequestRepository.UpdatePR, hprid, hrev, Option.map_some']
      split
      · next e s1 hup =>
        split at hup
        · simp only [Prod.mk.injEq] at hup
          rw [← hup.2]
          exact ⟨rfl, rfl, fun _ _ => rfl, fun _ => rfl⟩
        · simp at hup
      · next s1 hup =>
        split at hup
        · simp at hup
        · next rows hins =>
          have hrows := insertReviewers_some env _ _ _ rows hins
          simp only [Prod.mk.injEq, true_and] at hup
          subst hup
          refine ⟨rfl, rfl, fun X hX => ?_, fun X => ?_⟩
          · refine pullRequestRepository.GetPR_other s _ prID X _ (reviewersOf s prID) hX
              ?_ ?_ rfl hrows
            · intro r
              by_cases hr : r.pull_request_id = prID <;> simp [hr]
            · intro r hr
              simp [hr]
          · by_cases hX : X = prID
            · subst hX
              have := reviewersOf_replaced s
                { s with
                  clock := s.clock + 1,
                  pull_requests := s.pull_requests.map (fun r : PRRow =>
                    if r.pull_request_id = X then
                      { r with pull_request_name := pr.PullRequestName,
                               status := PRStatusMerged, merged_at := some (env.column s.clock) }
                    else r),
                  pr_reviewers := rows } X
                ((s.pr_reviewers.filter (fun r : String × String => r.1 = X)).map Prod.snd)
                hrows
              rw [this]
              rfl
            · have hother := reviewersOf_other s
                { s with
                  clock := s.clock + 1,
                  pull_requests := s.pull_requests.map (fun r : PRRow =>
                    if r.pull_request_id = prID then
                      { r with pull_request_name := pr.PullRequestName,
                               status := PRStatusMerged, merged_at := some (env.column s.clock) }
                    else r),
                  pr_reviewers := rows } prID X (reviewersOf s prID) hX hrows
              rw [hother]

/-! ## Lemmas: the snapshot and the states of `BulkDeactivate` -/

/-- The invariant lemma of the loop over the snapshot, with the step required only for the
pull requests of the snapshot. -/
theorem reassignPRs_invariant_mem {σ : Type} (svc : BulkDeactivateService σ)
    (userIDs : List String) (P : σ → Prop) :
    ∀ (prs : List PullRequest),
      (∀ pr ∈ prs, ∀ (t : σ) (old : String) (oldReviewer candidate : User)
        (rest : List User), P t →
        svc.userRepo.GetUser t old = .ok oldReviewer →
        svc.userRepo.GetActiveUsersByTeam t oldReviewer.TeamName
          (userIDs ++ pr.AssignedReviewers) = .ok (candidate :: rest) →
        P (svc.prRepo.ReassignReviewer t pr.PullRequestID old candidate.UserID).2) →
      ∀ (t : σ), P t → P (svc.reassignPRs userIDs prs t)
  | [], _, t, ht => by simpa [BulkDeactivateService.reassignPRs] using ht
  | pr :: rest, hstep, t, ht => by
    unfold BulkDeactivateService.reassignPRs
    exact reassignPRs_invariant_mem svc userIDs P rest
      (fun q hq => hstep q (List.mem_cons_of_mem _ hq)) _
      (reassignSlots_invariant svc userIDs pr P (hstep pr (List.mem_cons_self _ _)) _ t ht)

/-- The state after `BulkDeactivate`: the state before it, or the state left by the
deactivation write, or that state after the loop over the snapshot. -/
theorem BulkDeactivate_state {σ : Type} (svc : BulkDeactivateService σ) (s : σ)
    (teamName : String) (userIDs : List String) :
    (svc.BulkDeactivate s teamName userIDs).2 = s ∨
    ∃ openPRs, svc.prRepo.GetOpenPRsByReviewers s userIDs = .ok openPRs ∧
      ((svc.BulkDeactivate s teamName userIDs).2
          = (svc.userRepo.BulkSetIsActive s userIDs false).2 ∨
       (svc.BulkDeactivate s teamName userIDs).2
          = svc.reassignPRs userIDs openPRs (svc.userRepo.BulkSetIsActive s userIDs false).2) := by
  unfold BulkDeactivateService.BulkDeactivate
  split
  · exact Or.inl rfl
  · cases svc.teamRepo.GetTeam s teamName with
    | error e => exact Or.inl rfl
    | ok team =>
      simp only
      cases svc.validateUsers s teamName userIDs with
      | some e => exact Or.inl rfl
      | none =>
        simp only
        cases hsnap : svc.prRepo.GetOpenPRsByReviewers s userIDs with
        | error e => exact Or.inl rfl
        | ok openPRs =>
          simp only
          refine Or.inr ⟨openPRs, rfl, ?_⟩
          rcases svc.userRepo.BulkSetIsActive s userIDs false with ⟨_ | e, s1⟩
          · exact Or.inr rfl
          · exact Or.inl rfl

theorem firstPerID_subset :
    ∀ (rows : List PRRow) (x : PRRow), x ∈ firstPerID rows → x ∈ rows
  | [], x, h => by simp [firstPerID] at h
  | r :: rest, x, h => by
    unfold firstPerID at h
    rcases List.mem_cons.mp h with e | hmem
    · rw [e]
      exact List.mem_cons_self _ _
    · exact List.mem_cons_of_mem _ (firstPerID_subset rest x (List.mem_filter.mp hmem).1)

/-- Every pull request of the snapshot is an OPEN row of `pull_requests`, when the map
lists only what was put into it. -/
theorem pullRequestRepository.GetOpenPRsByReviewers_mem (env : PgEnv) (s : DB)
    (userIDs : List String) (openPRs : List PullRequest)
    (hmap : ∀ l, ∀ x ∈ env.mapOrder l, x ∈ l)
    (h : pullRequestRepository.GetOpenPRsByReviewers env s userIDs = .ok openPRs)
    (pr : PullRequest) (hpr : pr ∈ openPRs) :
    ∃ row ∈ s.pull_requests,
      row.status = "OPEN" ∧ row.pull_request_id = pr.PullRequestID := by
  unfold pullRequestRepository.GetOpenPRsByReviewers at h
  split at h
  · injection h with h
    subst h
    simp at hpr
  · injection h with h
    subst h
    simp only [List.mem_map] at hpr
    obtain ⟨q, hq, rfl⟩ := hpr
    have hq' := hmap _ q hq
    simp only [List.mem_map] at hq'
    obtain ⟨row, hrow, rfl⟩ := hq'
    have hrow' := firstPerID_subset _ row hrow
    simp only [List.mem_filter, decide_eq_true_eq] at hrow'
    exact ⟨row, hrow'.1, hrow'.2.1, rfl⟩

theorem userRepository.BulkSetIsActive_frame (s : DB) (userIDs : List String)
    (isActive : Bool) :
    (userRepository.BulkSetIsActive s userIDs isActive).2.pull_requests = s.pull_requests ∧
    (userRepository.BulkSetIsActive s userIDs isActive).2.pr_reviewers = s.pr_reviewers ∧
    (userRepository.BulkSetIsActive s userIDs isActive).2.teams = s.teams := by
  unfold userRepository.BulkSetIsActive
  split <;> exact ⟨rfl, rfl, rfl⟩

/-- With `pull_request_id` unique, a pull request read as MERGED is none of the OPEN
rows. -/
theorem merged_not_open_row (s : DB) (X : String) (p : PullRequest)
    (hprkey : (s.pull_requests.map PRRow.pull_request_id).Nodup)
    (hX : pullRequestRepository.GetPR s X = .ok p) (hm : p.Status = PRStatusMerged)
    (row : PRRow) (hrow : row ∈ s.pull_requests) (hopen : row.status = "OPEN") :
    row.pull_request_id ≠ X := by
  intro hid
  obtain ⟨r0, hfind, hp⟩ := pullRequestRepository.GetPR_ok s X p hX
  have hr0 : r0 ∈ s.pull_requests := List.mem_of_find?_eq_some hfind
  have hid0 : r0.pull_request_id = X := by
    have := List.find?_some hfind
    simpa using this
  have heq : row = r0 :=
    List.inj_on_of_nodup_map hprkey hrow hr0 (hid.trans hid0.symm)
  rw [hp] at hm
  simp only at hm
  rw [← heq, hopen] at hm
  exact absurd hm (by decide)

theorem reviewersOf_append_other (s s1 : DB) (prID other : String) (ids : List String)
    (hne : other ≠ prID)
    (h : s1.pr_reviewers = s.pr_reviewers ++ ids.map (fun r => (prID, r))) :
    reviewersOf s1 other = reviewersOf s other := by
  unfold reviewersOf
  rw [h, List.filter_append]
  have h1 : (ids.map (fun r => (prID, r))).filter (fun r => decide (r.1 = other)) = [] := by
    rw [List.filter_eq_nil_iff]
    intro a ha
    rw [List.mem_map] at ha
    obtain ⟨x, _, rfl⟩ := ha
    simpa using fun e : prID = other => hne e.symm
  rw [h1, List.append_nil]

theorem service_MergePR_state (env : PgEnv) (s : DB) (prID : String) :
    ((pgPullRequestService env).MergePR s prID).2
      = (pullRequestRepository.MergePR env s prID).2 := by
  unfold PullRequestService.MergePR
  have h : (pgPullRequestService env).prRepo.MergePR s prID
      = pullRequestRepository.MergePR env s prID := rfl
  rw [h]
  rcases pullRequestRepository.MergePR env s prID with ⟨_ | _, s1⟩
  · simp only
    split <;> rfl
  · rfl

/-- A stored pull request is read back unchanged after `CreatePR`. -/
theorem createPR_keeps_stored (env : PgEnv) (rnd : Nat → Nat) (s : DB) (pr : PullRequest)
    (X : String) (p : PullRequest) (hX : pullRequestRepository.GetPR s X = .ok p) :
    pullRequestRepository.GetPR ((pgPullRequestService env).CreatePR rnd s pr).2.2 X
      = .ok p := by
  rcases CreatePR_state (pgPullRequestService env) rnd s pr with h | ⟨candidates, -, h⟩
  · rw [h, hX]
  · rw [h]
    have hrepo : (pgPullRequestService env).prRepo.CreatePR
        = pullRequestRepository.CreatePR env := rfl
    rw [hrepo]
    obtain ⟨-, -, hcase⟩ := pullRequestRepository.CreatePR_tables env s
      { pr with AssignedReviewers := selectReviewers rnd candidates 2, Status := PRStatusOpen }
    rcases hcase with ⟨h1, h2⟩ | ⟨hnew, ⟨row, h1⟩, h2⟩
    · rw [pullRequestRepository.GetPR_frame s _ X h1 (reviewersOf_of_rows s _ X h2), hX]
    · obtain ⟨r0, hfind, hp⟩ := pullRequestRepository.GetPR_ok s X p hX
      have hne : X ≠ pr.PullRequestID := by
        intro e
        have hid0 : r0.pull_request_id = X := by
          have := List.find?_some hfind
          simpa using this
        exact hnew r0 (List.mem_of_find?_eq_some hfind) (hid0.trans e)
      have hrev := reviewersOf_append_other s _ pr.PullRequestID X _ hne h2
      unfold pullRequestRepository.GetPR
      rw [h1, List.find?_append, hfind, hrev, hp]
      rfl

/-- During `BulkDeactivate` no `ReassignReviewer` command names a pull request that was
read as MERGED, and such a pull request keeps its row and its reviewers.  The store is
assumed to keep `pull_request_id` unique and the map to list only what was put into it. -/
theorem bulkDeactivate_skips_merged (env : PgEnv) (s : DB) (X : String) (p : PullRequest)
    (teamName : String) (userIDs : List String)
    (hX : pullRequestRepository.GetPR s X = .ok p) (hm : p.Status = PRStatusMerged)
    (hprkey : (s.pull_requests.map PRRow.pull_request_id).Nodup)
    (hmap : ∀ l, ∀ x ∈ env.mapOrder l, x ∈ l) :
    (∀ c ∈ ((pgBulkDeactivateService env).recorded.BulkDeactivate (Recorder.start s)
        teamName userIDs).2.calls,
      ∀ old new, c.2 ≠ RepoCall.ReassignReviewer X old new) ∧
    ((pgBulkDeactivateService env).recorded.BulkDeactivate (Recorder.start s)
        teamName userIDs).2.state.pull_requests = s.pull_requests ∧
    reviewersOf ((pgBulkDeactivateService env).recorded.BulkDeactivate (Recorder.start s)
        teamName userIDs).2.state X = reviewersOf s X := by
  let P : Recorder DB → Prop := fun t =>
    (∀ c ∈ t.calls, ∀ old new, c.2 ≠ RepoCall.ReassignReviewer X old new) ∧
    t.state.pull_requests = s.pull_requests ∧ reviewersOf t.state X = reviewersOf s X
  have hstart : P (Recorder.start s) := ⟨fun c hc => by simp [Recorder.start] at hc, rfl, rfl⟩
  show P _
  rcases BulkDeactivate_state (pgBulkDeactivateService env).recorded (Recorder.start s)
    teamName userIDs with h | ⟨openPRs, hsnap, h⟩
  · rw [h]
    exact hstart
  · have hsnap' : pullRequestRepository.GetOpenPRsByReviewers env s userIDs = .ok openPRs :=
      hsnap
    have hset : P ((pgBulkDeactivateService env).recorded.userRepo.BulkSetIsActive
        (Recorder.start s) userIDs false).2 := by
      obtain ⟨f1, f2, -⟩ := userRepository.BulkSetIsActive_frame s userIDs false
      refine ⟨fun c hc old new heq => ?_, f1, reviewersOf_of_rows s _ X f2⟩
      simp only [BulkDeactivateService.recorded, UserRepository.recorded, Recorder.log,
        Recorder.start, List.nil_append, List.mem_singleton] at hc
      rw [hc] at heq
      simp at heq
    rcases h with h | h
    · rw [h]
      exact hset
    · rw [h]
      refine reassignPRs_invariant_mem (pgBulkDeactivateService env).recorded userIDs P
        openPRs ?_ _ hset
      intro pr hpr t old oldReviewer candidate rest ht _ _
      obtain ⟨row, hrow, hopen, hid⟩ := pullRequestRepository.GetOpenPRsByReviewers_mem env s
        userIDs openPRs hmap hsnap' pr hpr
      have hne : X ≠ pr.PullRequestID := fun e =>
        merged_not_open_row s X p hprkey hX hm row hrow hopen (hid.trans e.symm)
      rw [recorded_ReassignReviewer]
      obtain ⟨g1, -, -, g4, -⟩ := pullRequestRepository.ReassignReviewer_frame env t.state
        pr.PullRequestID old candidate.UserID
      refine ⟨fun c hc o n heq => ?_, g1.trans ht.2.1, (g4 X hne).trans ht.2.2⟩
      simp only [Recorder.log, List.mem_append, List.mem_singleton] at hc
      rcases hc with hc | hc
      · exact ht.1 c hc o n heq
      · rw [hc] at heq
        simp only [RepoCall.ReassignReviewer.injEq] at heq
        exact hne heq.1.symm

/-- On a pull request read as MERGED, `ReassignReviewer` returns `ErrPRMerged` and the state
it was given. -/
theorem ReassignReviewer_of_merged {σ : Type} (svc : PullRequestService σ) (rnd : Nat → Nat)
    (s : σ) (prID oldUserID : String) (pr : PullRequest)
    (hget : svc.prRepo.GetPR s prID = .ok pr) (hm : pr.Status = PRStatusMerged) :
    svc.ReassignReviewer rnd s prID oldUserID = (.error .ErrPRMerged, s) := by
  unfold PullRequestService.ReassignReviewer
  rw [hget]
  simp [hm]

/-! ## C11: a duplicate id is refused -/

/-- C11: over PostgreSQL, when a pull request with the id of the input is stored, `CreatePR`
returns `ErrPRExists`, issues no repository command (`prRepo.CreatePR` is not called) and
returns the store as it was, so the stored pull request and everything else are
unchanged; the input is handed back untouched. -/
theorem createPR_duplicate_refused (env : PgEnv) (rnd : Nat → Nat) (s : DB)
    (pr stored : PullRequest)
    (hstored : pullRequestRepository.GetPR s pr.PullRequestID = .ok stored) :
    (pgPullRequestService env).recorded.CreatePR rnd (Recorder.start s) pr
      = (some .ErrPRExists, pr, Recorder.start s) ∧
    (pgPullRequestService env).CreatePR rnd s pr = (some .ErrPRExists, pr, s) := by
  have hex := pullRequestRepository.PRExists_of_GetPR_ok s pr.PullRequestID stored hstored
  have h1 : (pgPullRequestService env).recorded.prRepo.PRExists (Recorder.start s)
      pr.PullRequestID = .ok true := hex
  have h2 : (pgPullRequestService env).prRepo.PRExists s pr.PullRequestID = .ok true := hex
  constructor
  · unfold PullRequestService.CreatePR
    rw [h1]
  · unfold PullRequestService.CreatePR
    rw [h2]

/-- Witness for C11: p1 is stored in `exOpenDB`; creating p1 again is refused. -/
theorem createPR_duplicate_refused_witness :
    (pgPullRequestService (envOf true)).recorded.CreatePR (fun _ => 0)
        (Recorder.start exOpenDB) exNewPR
      = (some .ErrPRExists, exNewPR, Recorder.start exOpenDB) ∧
    (pgPullRequestService (envOf true)).CreatePR (fun _ => 0) exOpenDB exNewPR
      = (some .ErrPRExists, exNewPR, exOpenDB) :=
  createPR_duplicate_refused (envOf true) (fun _ => 0) exOpenDB exNewPR
    { PullRequestID := "p1", PullRequestName := "x", AuthorID := "u1", Status := "OPEN",
      AssignedReviewers := ["u2", "u3"], CreatedAt := some 7, MergedAt := none } (by rfl)

/-! ## C12: an unknown author is refused -/

/-- C12: over PostgreSQL, when the id of the input is not stored and its `AuthorID` names no
user, `CreatePR` returns `ErrAuthorNotFound`, issues no repository command
(`prRepo.CreatePR` is not called) and returns the store as it was. -/
theorem createPR_unknown_author (env : PgEnv) (rnd : Nat → Nat) (s : DB) (pr : PullRequest)
    (hnew : pullRequestRepository.GetPR s pr.PullRequestID = .error .ErrNotFound)
    (hauthor : userRepository.GetUser s pr.AuthorID = .error .ErrNotFound) :
    (pgPullRequestService env).recorded.CreatePR rnd (Recorder.start s) pr
      = (some .ErrAuthorNotFound, pr, Recorder.start s) ∧
    (pgPullRequestService env).CreatePR rnd s pr = (some .ErrAuthorNotFound, pr, s) := by
  have hex := (pullRequestRepository.PRExists_of_GetPR_error s pr.PullRequestID _ hnew).1
  have h1 : (pgPullRequestService env).recorded.prRepo.PRExists (Recorder.start s)
      pr.PullRequestID = .ok false := hex
  have h2 : (pgPullRequestService env).prRepo.PRExists s pr.PullRequestID = .ok false := hex
  have h3 : (pgPullRequestService env).recorded.userRepo.GetUser (Recorder.start s)
      pr.AuthorID = .error .ErrNotFound := hauthor
  have h4 : (pgPullRequestService env).userRepo.GetUser s pr.AuthorID
      = .error .ErrNotFound := hauthor
  have his : errorsIs .ErrNotFound .ErrNotFound = true := by decide
  constructor
  · unfold PullRequestService.CreatePR
    rw [h1]
    simp only [h3, his, if_true]
  · unfold PullRequestService.CreatePR
    rw [h2]
    simp only [h4, his, if_true]

/-- Witness for C12: pull request p2 of the unknown author u9. -/
theorem createPR_unknown_author_witness :
    (pgPullRequestService (envOf true)).recorded.CreatePR (fun _ => 0)
        (Recorder.start exOpenDB) exOrphanPR
      = (some .ErrAuthorNotFound, exOrphanPR, Recorder.start exOpenDB) ∧
    (pgPullRequestService (envOf true)).CreatePR (fun _ => 0) exOpenDB exOrphanPR
      = (some .ErrAuthorNotFound, exOrphanPR, exOpenDB) :=
  createPR_unknown_author (envOf true) (fun _ => 0) exOpenDB exOrphanPR (by rfl) (by rfl)

/-! ## C13: how many reviewers `CreatePR` assigns -/

/-- C13: over PostgreSQL, for an id that is not stored and an existing author whose team
has `n` active members other than the author, `CreatePR` succeeds with status OPEN and
exactly `min(2, n)` reviewers, pairwise distinct, each an active member of the author's
team other than the author; for `n ≤ 2` they are all of these members (none for `n = 0`);
and the pull request is stored with these reviewers, its creation instant as the column
keeps it.  The store is assumed to keep
`user_id` unique and to hold reviewer rows of stored pull requests only. -/
theorem createPR_assigns_min_two (env : PgEnv) (rnd : Nat → Nat) (s : DB)
    (pr : PullRequest) (author : User) (n : Nat)
    (hnew : pullRequestRepository.GetPR s pr.PullRequestID = .error .ErrNotFound)
    (hauthor : userRepository.GetUser s pr.AuthorID = .ok author)
    (hn : (s.users.filter (fun u =>
      u.TeamName = author.TeamName ∧ u.IsActive = true ∧ u.UserID ≠ pr.AuthorID)).length = n)
    (husers : (s.users.map User.UserID).Nodup)
    (hrefs : ∀ rv ∈ s.pr_reviewers, ∃ row ∈ s.pull_requests, row.pull_request_id = rv.1) :
    ∃ created s1,
      (pgPullRequestService env).CreatePR rnd s pr = (none, created, s1) ∧
      created.Status = PRStatusOpen ∧
      created.AssignedReviewers.length = min 2 n ∧
      created.AssignedReviewers.Nodup ∧
      (∀ x ∈ created.AssignedReviewers, ∃ u ∈ s.users, u.UserID = x ∧
        u.TeamName = author.TeamName ∧ u.IsActive = true ∧ u.UserID ≠ pr.AuthorID) ∧
      (n ≤ 2 → created.AssignedReviewers.Perm ((s.users.filter (fun u =>
        u.TeamName = author.TeamName ∧ u.IsActive = true ∧ u.UserID ≠ pr.AuthorID)).map
          User.UserID)) ∧
      (n = 0 → created.AssignedReviewers = []) ∧
      pullRequestRepository.GetPR s1 pr.PullRequestID
        = .ok { created with AssignedReviewers := orderByID created.AssignedReviewers,
                             CreatedAt := created.CreatedAt.map env.column,
                             MergedAt := none } := by
  obtain ⟨hex, hnone⟩ :=
    pullRequestRepository.PRExists_of_GetPR_error s pr.PullRequestID _ hnew
  obtain ⟨candidates, hc, hperm⟩ :=
    userRepository.GetActiveUsersByTeam_single s author.TeamName pr.AuthorID
  have hlen : candidates.length = n := by rw [hperm.length_eq, hn]
  have hcnd : (candidates.map User.UserID).Nodup :=
    userRepository.GetActiveUsersByTeam_nodup s _ _ candidates hc husers
  have hsel_nd := selectReviewers_nodup rnd candidates 2 hcnd
  have hrows : ∀ rv ∈ s.pr_reviewers, rv.1 ≠ pr.PullRequestID := by
    intro rv hrv e
    obtain ⟨row, hrow, hid⟩ := hrefs rv hrv
    exact hnone row hrow (hid.trans e)
  have hcreate := pullRequestRepository.CreatePR_ok env s
    { pr with AssignedReviewers := selectReviewers rnd candidates 2, Status := PRStatusOpen }
    hnone
    (fun _ => ⟨hsel_nd, fun r _ hmem => hrows _ hmem rfl⟩)
  have h1 : (pgPullRequestService env).prRepo.PRExists s pr.PullRequestID = .ok false := hex
  have h2 : (pgPullRequestService env).userRepo.GetUser s pr.AuthorID = .ok author := hauthor
  have h3 : (pgPullRequestService env).userRepo.GetActiveUsersByTeam s author.TeamName
      [pr.AuthorID] = .ok candidates := hc
  have h4 : (pgPullRequestService env).prRepo.CreatePR
      = pullRequestRepository.CreatePR env := rfl
  have hrun : (pgPullRequestService env).CreatePR rnd s pr
      = pullRequestRepository.CreatePR env s
          { pr with AssignedReviewers := selectReviewers rnd candidates 2,
                    Status := PRStatusOpen } := by
    unfold PullRequestService.CreatePR
    rw [h1]
    simp only [h2, h3, h4]
    rw [hcreate]
  rw [hcreate] at hrun
  refine ⟨_, _, hrun, rfl, ?_, hsel_nd, ?_, ?_, ?_, ?_⟩
  · show (selectReviewers rnd candidates 2).length = min 2 n
    rw [selectReviewers_length, hlen, Nat.min_comm]
  · intro x hx
    obtain ⟨u, hu, hid⟩ := selectReviewers_mem rnd candidates 2 x hx
    have hmem := hperm.subset hu
    simp only [List.mem_filter, decide_eq_true_eq] at hmem
    exact ⟨u, hmem.1, hid, hmem.2.1, hmem.2.2.1, hmem.2.2.2⟩
  · intro hle
    exact (selectReviewers_perm_of_le rnd candidates 2 (hlen ▸ hle)).trans (hperm.map _)
  · intro h0
    have : (selectReviewers rnd candidates 2).length = 0 := by
      rw [selectReviewers_length, hlen, h0]
      rfl
    exact List.length_eq_zero.mp this
  · unfold pullRequestRepository.GetPR
    have hfind : s.pull_requests.find? (fun r => decide (r.pull_request_id = pr.PullRequestID))
        = none := by
      rw [List.find?_eq_none]
      intro r hr
      simpa using hnone r hr
    simp only [List.find?_append, hfind, List.find?_cons, decide_True, Option.none_or]
    congr 2
    exact reviewersOf_appended s _ pr.PullRequestID (selectReviewers rnd candidates 2) hrows rfl

/-- Witness for C13: in the team of u1 (author), u2 and u3, all active, p1 is created with
reviewers u2 and u3. -/
theorem createPR_assigns_min_two_witness :
    ∃ created s1,
      (pgPullRequestService (envOf true)).CreatePR (fun _ => 0) exTeamDB exNewPR
        = (none, created, s1) ∧
      created.Status = PRStatusOpen ∧
      created.AssignedReviewers.length = 2 ∧
      created.AssignedReviewers.Perm ["u2", "u3"] ∧
      pullRequestRepository.GetPR s1 "p1"
        = .ok { created with AssignedReviewers := orderByID created.AssignedReviewers,
                             CreatedAt := created.CreatedAt.map (envOf true).column,
                             MergedAt := none } := by
  obtain ⟨created, s1, h1, h2, h3, -, -, h6, -, h8⟩ :=
    createPR_assigns_min_two (envOf true) (fun _ => 0) exTeamDB exNewPR
      ⟨"u1", "Alice", "backend", true⟩ 2 (by rfl) (by rfl) (by decide) (by decide)
      (by decide)
  exact ⟨created, s1, h1, h2, h3, h6 (Nat.le_refl 2), h8⟩

/-! ## C14: what `CreatePR` hands to the repository -/

/-- C14: when `CreatePR` returns nil, the one pull request handed to `prRepo.CreatePR` has
`Status` OPEN and, as `AssignedReviewers`, the selection just made from the candidates of
the author's team; its other fields are those of the input, whose own `Status` and
`AssignedReviewers` play no part. -/
theorem createPR_hands_open_selection {σ : Type} (svc : PullRequestService σ)
    (rnd : Nat → Nat) (s : σ) (pr res : PullRequest) (t : Recorder σ)
    (h : svc.recorded.CreatePR rnd (Recorder.start s) pr = (none, res, t)) :
    ∃ author candidates persisted,
      svc.userRepo.GetUser s pr.AuthorID = .ok author ∧
      svc.userRepo.GetActiveUsersByTeam s author.TeamName [pr.AuthorID] = .ok candidates ∧
      t.calls = [(s, RepoCall.CreatePR persisted)] ∧
      persisted.Status = PRStatusOpen ∧
      persisted.AssignedReviewers = selectReviewers rnd candidates 2 ∧
      persisted.PullRequestID = pr.PullRequestID ∧
      persisted.PullRequestName = pr.PullRequestName ∧
      persisted.AuthorID = pr.AuthorID ∧
      persisted.CreatedAt = pr.CreatedAt ∧
      persisted.MergedAt = pr.MergedAt := by
  obtain ⟨author, candidates, -, hauthor, hc, hcreate⟩ :=
    CreatePR_ok_inv svc.recorded rnd (Recorder.start s) t pr res h
  refine ⟨author, candidates,
    { pr with AssignedReviewers := selectReviewers rnd candidates 2, Status := PRStatusOpen },
    hauthor, hc, ?_, rfl, rfl, rfl, rfl, rfl, rfl, rfl⟩
  have ht := congrArg (fun x => x.2.2.calls) hcreate
  simp only [PullRequestService.recorded, PullRequestRepository.recorded, Recorder.log,
    Recorder.start, List.nil_append] at ht
  exact ht.symm

/-- Witness for C14: the input asks for status MERGED and reviewer u1; what is persisted is
OPEN with two of u2 and u3. -/
theorem createPR_hands_open_selection_witness :
    ∃ author candidates persisted,
      (pgPullRequestService (envOf true)).userRepo.GetUser exTeamDB exLoadedPR.AuthorID
        = .ok author ∧
      (pgPullRequestService (envOf true)).userRepo.GetActiveUsersByTeam exTeamDB
        author.TeamName [exLoadedPR.AuthorID] = .ok candidates ∧
      ((pgPullRequestService (envOf true)).recorded.CreatePR (fun _ => 0)
        (Recorder.start exTeamDB) exLoadedPR).2.2.calls
          = [(exTeamDB, RepoCall.CreatePR persisted)] ∧
      persisted.Status = PRStatusOpen ∧
      persisted.AssignedReviewers = selectReviewers (fun _ => 0) candidates 2 ∧
      persisted.PullRequestID = exLoadedPR.PullRequestID ∧
      persisted.PullRequestName = exLoadedPR.PullRequestName ∧
      persisted.AuthorID = exLoadedPR.AuthorID ∧
      persisted.CreatedAt = exLoadedPR.CreatedAt ∧
      persisted.MergedAt = exLoadedPR.MergedAt :=
  createPR_hands_open_selection (pgPullRequestService (envOf true)) (fun _ => 0) exTeamDB
    exLoadedPR _ _ (Prod.ext (by decide) rfl)

/-! ## C15: the order of the checks of `ReassignReviewer` -/

/-- C15: over PostgreSQL (whose queries do not fail otherwise) `ReassignReviewer` returns
`ErrPRNotFound` when the pull request is not stored; else `ErrPRMerged` when it is
MERGED; else `ErrNotAssigned` when `oldUserID` is not among its reviewers; else
`ErrUserNotFound` when `oldUserID` has no user record; else `ErrNoCandidate` when no active
user of the team of `oldUserID` is outside `oldUserID` and the current reviewers; a failed
check leaves the store as it was; otherwise the call succeeds, and it succeeds in no other
case. -/
theorem reassign_precondition_order (env : PgEnv) (rnd : Nat → Nat) (s : DB)
    (prID oldUserID : String) :
    (∀ e, pullRequestRepository.GetPR s prID = .error e →
      (pgPullRequestService env).ReassignReviewer rnd s prID oldUserID
        = (.error .ErrPRNotFound, s)) ∧
    (∀ pr, pullRequestRepository.GetPR s prID = .ok pr → pr.Status = PRStatusMerged →
      (pgPullRequestService env).ReassignReviewer rnd s prID oldUserID
        = (.error .ErrPRMerged, s)) ∧
    (∀ pr, pullRequestRepository.GetPR s prID = .ok pr → pr.Status ≠ PRStatusMerged →
      oldUserID ∉ pr.AssignedReviewers →
      (pgPullRequestService env).ReassignReviewer rnd s prID oldUserID
        = (.error .ErrNotAssigned, s)) ∧
    (∀ pr e, pullRequestRepository.GetPR s prID = .ok pr → pr.Status ≠ PRStatusMerged →
      oldUserID ∈ pr.AssignedReviewers → userRepository.GetUser s oldUserID = .error e →
      (pgPullRequestService env).ReassignReviewer rnd s prID oldUserID
        = (.error .ErrUserNotFound, s)) ∧
    (∀ pr oldReviewer, pullRequestRepository.GetPR s prID = .ok pr →
      pr.Status ≠ PRStatusMerged → oldUserID ∈ pr.AssignedReviewers →
      userRepository.GetUser s oldUserID = .ok oldReviewer →
      (∀ u ∈ s.users, ¬ (u.TeamName = oldReviewer.TeamName ∧ u.IsActive = true ∧
        u.UserID ≠ oldUserID ∧ u.UserID ∉ pr.AssignedReviewers)) →
      (pgPullRequestService env).ReassignReviewer rnd s prID oldUserID
        = (.error .ErrNoCandidate, s)) ∧
    (∀ pr oldReviewer, pullRequestRepository.GetPR s prID = .ok pr →
      pr.Status ≠ PRStatusMerged → oldUserID ∈ pr.AssignedReviewers →
      userRepository.GetUser s oldUserID = .ok oldReviewer →
      (∃ u ∈ s.users, u.TeamName = oldReviewer.TeamName ∧ u.IsActive = true ∧
        u.UserID ≠ oldUserID ∧ u.UserID ∉ pr.AssignedReviewers) →
      ∃ updated newUserID s1,
        (pgPullRequestService env).ReassignReviewer rnd s prID oldUserID
          = (.ok (updated, newUserID), s1)) ∧
    ((∃ updated newUserID s1,
        (pgPullRequestService env).ReassignReviewer rnd s prID oldUserID
          = (.ok (updated, newUserID), s1)) ↔
      ∃ pr oldReviewer, pullRequestRepository.GetPR s prID = .ok pr ∧
        pr.Status ≠ PRStatusMerged ∧ oldUserID ∈ pr.AssignedReviewers ∧
        userRepository.GetUser s oldUserID = .ok oldReviewer ∧
        ∃ u ∈ s.users, u.TeamName = oldReviewer.TeamName ∧ u.IsActive = true ∧
          u.UserID ≠ oldUserID ∧ u.UserID ∉ pr.AssignedReviewers) := by
  have his : errorsIs .ErrNotFound .ErrNotFound = true := by decide
  refine ⟨?_, ?_, ?_, ?_, ?_, ?_, ?_⟩
  · intro e he
    have := pullRequestRepository.GetPR_error s prID e he
    subst this
    have h1 : (pgPullRequestService env).prRepo.GetPR s prID = .error .ErrNotFound := he
    unfold PullRequestService.ReassignReviewer
    rw [h1]
    simp only [his, if_true]
  · intro pr hget hm
    have h1 : (pgPullRequestService env).prRepo.GetPR s prID = .ok pr := hget
    unfold PullRequestService.ReassignReviewer
    rw [h1]
    simp only [if_pos hm]
  · intro pr hget hnm hnot
    have h1 : (pgPullRequestService env).prRepo.GetPR s prID = .ok pr := hget
    unfold PullRequestService.ReassignReviewer
    rw [h1]
    simp only [if_neg hnm, if_pos hnot]
  · intro pr e hget hnm hold hu
    have := userRepository.GetUser_error s oldUserID e hu
    subst this
    have h1 : (pgPullRequestService env).prRepo.GetPR s prID = .ok pr := hget
    have h2 : (pgPullRequestService env).userRepo.GetUser s oldUserID
        = .error .ErrNotFound := hu
    unfold PullRequestService.ReassignReviewer
    rw [h1]
    simp only [if_neg hnm, not_not.mpr hold, if_false, h2, his, if_true]
  · intro pr oldReviewer hget hnm hold hu hnone
    exact (reassign_candidates_decide env rnd s prID oldUserID pr oldReviewer hget hnm hold
      hu).1 hnone
  · intro pr oldReviewer hget hnm hold hu hsome
    exact (reassign_candidates_decide env rnd s prID oldUserID pr oldReviewer hget hnm hold
      hu).2 hsome
  · constructor
    · rintro ⟨updated, newUserID, s1, h⟩
      obtain ⟨pr, oldReviewer, candidates, rest, hget, hnm, hold, hu, hc, hsel, -, -⟩ :=
        ReassignReviewer_ok_inv _ rnd s s1 prID oldUserID newUserID updated h
      obtain ⟨c, hc1, -⟩ := selectReviewers_mem rnd candidates 1 newUserID
        (by rw [hsel]; exact List.mem_cons_self _ _)
      obtain ⟨husers, ht, ha, hex⟩ :=
        (userRepository.GetActiveUsersByTeam_mem s _ _ candidates hc c).mp hc1
      rw [not_mem_exclude] at hex
      exact ⟨pr, oldReviewer, hget, hnm, hold, hu, c, husers, ht, ha, hex.1, hex.2⟩
    · rintro ⟨pr, oldReviewer, hget, hnm, hold, hu, hsome⟩
      exact (reassign_candidates_decide env rnd s prID oldUserID pr oldReviewer hget hnm hold
        hu).2 hsome

/-- Witness for C15: one store for each of the six outcomes. -/
theorem reassign_precondition_order_witness :
    (pgPullRequestService (envOf true)).ReassignReviewer (fun _ => 0) exOpenDB "p9" "u2"
      = (.error .ErrPRNotFound, exOpenDB) ∧
    (pgPullRequestService (envOf true)).ReassignReviewer (fun _ => 0) exMergedDB "p1" "u2"
      = (.error .ErrPRMerged, exMergedDB) ∧
    (pgPullRequestService (envOf true)).ReassignReviewer (fun _ => 0) exOpenDB "p1" "u4"
      = (.error .ErrNotAssigned, exOpenDB) ∧
    (pgPullRequestService (envOf true)).ReassignReviewer (fun _ => 0) exGhostDB "p1" "u8"
      = (.error .ErrUserNotFound, exGhostDB) ∧
    (pgPullRequestService (envOf true)).ReassignReviewer (fun _ => 0) exFullDB "p1" "u2"
      = (.error .ErrNoCandidate, exFullDB) ∧
    ∃ updated newUserID s1,
      (pgPullRequestService (envOf true)).ReassignReviewer (fun _ => 0) exOpenDB "p1" "u2"
        = (.ok (updated, newUserID), s1) :=
  ⟨(reassign_precondition_order (envOf true) (fun _ => 0) exOpenDB "p9" "u2").1
      .ErrNotFound (by rfl),
    (reassign_precondition_order (envOf true) (fun _ => 0) exMergedDB "p1" "u2").2.1
      { PullRequestID := "p1", PullRequestName := "x", AuthorID := "u1", Status := "MERGED",
        AssignedReviewers := ["u2", "u3"], CreatedAt := some 7, MergedAt := some 50 }
      (by rfl) (by decide),
    (reassign_precondition_order (envOf true) (fun _ => 0) exOpenDB "p1" "u4").2.2.1
      { PullRequestID := "p1", PullRequestName := "x", AuthorID := "u1", Status := "OPEN",
        AssignedReviewers := ["u2", "u3"], CreatedAt := some 7, MergedAt := none }
      (by rfl) (by decide) (by decide),
    (reassign_precondition_order (envOf true) (fun _ => 0) exGhostDB "p1" "u8").2.2.2.1
      { PullRequestID := "p1", PullRequestName := "x", AuthorID := "u1", Status := "OPEN",
        AssignedReviewers := ["u2", "u8"], CreatedAt := some 7, MergedAt := none }
      .ErrNotFound (by rfl) (by decide) (by decide) (by rfl),
    (reassign_precondition_order (envOf true) (fun _ => 0) exFullDB "p1" "u2").2.2.2.2.1
      { PullRequestID := "p1", PullRequestName := "x", AuthorID := "u1", Status := "OPEN",
        AssignedReviewers := ["u2", "u3"], CreatedAt := some 7, MergedAt := none }
      ⟨"u2", "Bob", "backend", true⟩ (by rfl) (by decide) (by decide) (by rfl) (by decide),
    (reassign_precondition_order (envOf true) (fun _ => 0) exOpenDB "p1" "u2").2.2.2.2.2.1
      { PullRequestID := "p1", PullRequestName := "x", AuthorID := "u1", Status := "OPEN",
        AssignedReviewers := ["u2", "u3"], CreatedAt := some 7, MergedAt := none }
      ⟨"u2", "Bob", "backend", true⟩ (by rfl) (by decide) (by decide) (by rfl)
      ⟨⟨"u4", "Dan", "backend", true⟩, by decide, by decide, by decide, by decide,
        by decide⟩⟩

/-! ## C16: a refused reassignment changes nothing -/

/-- C16: for any repositories, when `ReassignReviewer` returns `ErrNoCandidate` or
`ErrNotAssigned` it has issued no repository command and the state is the one it started
from, so every reviewer list and every `is_active` flag is as before; in the
`ErrNoCandidate` case `oldUserID` is among the reviewers of the pull request read from that
state. -/
theorem reassign_refused_unchanged {σ : Type} (svc : PullRequestService σ) (rnd : Nat → Nat)
    (s : σ) (prID oldUserID : String) (e : Error) (t : Recorder σ)
    (he : e = .ErrNoCandidate ∨ e = .ErrNotAssigned)
    (h : svc.recorded.ReassignReviewer rnd (Recorder.start s) prID oldUserID
      = (.error e, t)) :
    t = Recorder.start s ∧
    svc.ReassignReviewer rnd s prID oldUserID = (.error e, s) ∧
    ∃ pr, svc.prRepo.GetPR s prID = .ok pr ∧
      (e = .ErrNoCandidate → oldUserID ∈ pr.AssignedReviewers) := by
  obtain ⟨ht, pr, hget, hnc, -⟩ :=
    ReassignReviewer_refused_inv svc.recorded rnd (Recorder.start s) t prID oldUserID e he h
  refine ⟨ht, ?_, pr, hget, hnc⟩
  obtain ⟨hr1, hr2⟩ := recorded_service_ReassignReviewer svc rnd s prID oldUserID
  rw [h] at hr1 hr2
  rw [ht] at hr2
  exact Prod.ext hr1.symm hr2.symm

/-- Witness for C16: `ErrNoCandidate` in `exFullDB`, where u2 stays reviewer of p1. -/
theorem reassign_refused_unchanged_witness :
    ((pgPullRequestService (envOf true)).recorded.ReassignReviewer (fun _ => 0)
        (Recorder.start exFullDB) "p1" "u2").2 = Recorder.start exFullDB ∧
    (pgPullRequestService (envOf true)).ReassignReviewer (fun _ => 0) exFullDB "p1" "u2"
      = (.error .ErrNoCandidate, exFullDB) ∧
    ∃ pr, (pgPullRequestService (envOf true)).prRepo.GetPR exFullDB "p1" = .ok pr ∧
      (Error.ErrNoCandidate = .ErrNoCandidate → "u2" ∈ pr.AssignedReviewers) :=
  reassign_refused_unchanged (pgPullRequestService (envOf true)) (fun _ => 0) exFullDB "p1"
    "u2" .ErrNoCandidate _ (Or.inl rfl) (Prod.ext (by rfl) rfl)

/-! ## C17: what `MergePR` changes -/

/-- C17 (amended): over PostgreSQL, `MergePR` of a stored OPEN pull request returns it with
status MERGED and the instant of `time.Now()` as merge instant; the store then holds that
pull request with the merge instant as column `merged_at` keeps it (exactly that pull
request when the column keeps the instant exactly); its id, name, author, creation instant
and reviewers are those it had, every other pull request is read back as before and tables
`users` and `teams` are untouched; for an id that is not stored `MergePR` returns
`ErrPRNotFound` and the store as it was. -/
theorem mergePR_frame (env : PgEnv) (s : DB) (prID : String) :
    (∀ pr, (env.reviewersKey = true → s.pr_reviewers.Nodup) →
      pullRequestRepository.GetPR s prID = .ok pr → pr.Status = PRStatusOpen →
      ∃ merged s1,
        (pgPullRequestService env).MergePR s prID = (.ok merged, s1) ∧
        merged.Status = PRStatusMerged ∧
        merged.MergedAt ≠ none ∧
        merged.MergedAt = some s.clock ∧
        pullRequestRepository.GetPR s1 prID
          = .ok { merged with MergedAt := some (env.column s.clock) } ∧
        (env.column s.clock = s.clock → pullRequestRepository.GetPR s1 prID = .ok merged) ∧
        merged.PullRequestID = pr.PullRequestID ∧
        merged.PullRequestName = pr.PullRequestName ∧
        merged.AuthorID = pr.AuthorID ∧
        merged.CreatedAt = pr.CreatedAt ∧
        merged.AssignedReviewers = pr.AssignedReviewers ∧
        (∀ other, other ≠ prID →
          pullRequestRepository.GetPR s1 other = pullRequestRepository.GetPR s other) ∧
        s1.users = s.users ∧ s1.teams = s.teams) ∧
    (pullRequestRepository.GetPR s prID = .error .ErrNotFound →
      (pgPullRequestService env).MergePR s prID = (.error .ErrPRNotFound, s)) := by
  constructor
  · intro pr hkey hget hopen
    have hnm : pr.Status ≠ PRStatusMerged := by
      rw [hopen]
      decide
    have hstate := pullRequestRepository.MergePR_open_state env s prID pr hkey hget hnm
    obtain ⟨s1, h1, h2, h3, h4⟩ :=
      pullRequestRepository.MergePR_open env s prID pr hkey hget hnm
    have hs1 : s1 = _ := (Prod.mk.inj (h1.symm.trans hstate)).2
    refine ⟨_, s1, service_MergePR_ok env s s1 prID _ h1, rfl, by simp, rfl, h2,
      fun hc => by rw [h2, hc], rfl, rfl, rfl, rfl, rfl, ?_, h3, h4⟩
    intro other hne
    refine pullRequestRepository.GetPR_other s s1 prID other _ (reviewersOf s prID) hne
      ?_ ?_ (by rw [hs1]) (by rw [hs1])
    · intro r
      by_cases hr : r.pull_request_id = prID <;> simp [hr]
    · intro r hr
      simp [hr]
  · intro hnone
    have h1 : (pgPullRequestService env).prRepo.MergePR s prID = (.error .ErrNotFound, s) := by
      show pullRequestRepository.MergePR env s prID = _
      unfold pullRequestRepository.MergePR
      rw [hnone]
    have his : errorsIs .ErrNotFound .ErrNotFound = true := by decide
    unfold PullRequestService.MergePR
    rw [h1]
    simp only [his, if_true]

/-- Witness for C17: merging p1 of `exPairDB`, the column keeping the instant, leaves p2 as
it was; p9 is not stored. -/
theorem mergePR_frame_witness :
    (∃ merged s1,
      (pgPullRequestService (envOf true)).MergePR exPairDB "p1" = (.ok merged, s1) ∧
      merged.Status = PRStatusMerged ∧
      merged.MergedAt ≠ none ∧
      pullRequestRepository.GetPR s1 "p1" = .ok merged ∧
      merged.AssignedReviewers = ["u2", "u3"] ∧
      pullRequestRepository.GetPR s1 "p2" = pullRequestRepository.GetPR exPairDB "p2" ∧
      s1.users = exPairDB.users) ∧
    (pgPullRequestService (envOf true)).MergePR exPairDB "p9"
      = (.error .ErrPRNotFound, exPairDB) := by
  obtain ⟨merged, s1, h1, h2, h3, -, -, h4, -, -, -, -, h9, h10, h11, -⟩ :=
    (mergePR_frame (envOf true) exPairDB "p1").1
      { PullRequestID := "p1", PullRequestName := "x", AuthorID := "u1", Status := "OPEN",
        AssignedReviewers := ["u2", "u3"], CreatedAt := some 7, MergedAt := none }
      (fun _ => by decide) (by rfl) (by decide)
  exact ⟨⟨merged, s1, h1, h2, h3, h4 rfl, h9, h10 "p2" (by decide), h11⟩,
    (mergePR_frame (envOf true) exPairDB "p9").2 (by rfl)⟩

/-- C17 (the claim as stated fails): in `exNanoDB`, with a column that keeps microseconds,
`MergePR("p1")` returns `MergedAt` = 1234567 while the pull request the store then holds has
`MergedAt` = 1235000: the state returned is not the state stored. -/
theorem mergePR_stored_differs :
    ((pgPullRequestService (envMicro true)).MergePR exNanoDB "p1").1
      = .ok ⟨"p1", "x", "u1", "MERGED", ["u2", "u3"], some 1000000, some 1234567⟩ ∧
    pullRequestRepository.GetPR
        ((pgPullRequestService (envMicro true)).MergePR exNanoDB "p1").2 "p1"
      = .ok ⟨"p1", "x", "u1", "MERGED", ["u2", "u3"], some 1000000, some 1235000⟩ ∧
    (some 1234567 : Option Nat) ≠ some 1235000 :=
  ⟨by rfl, by rfl, by decide⟩

/-! ## C18: what `selectReviewers` returns -/

/-- C18: for candidates with pairwise distinct ids, every `maxCount` and every outcome of
the shuffle, `selectReviewers` returns exactly `min(len(candidates), maxCount)` ids, each
the id of a candidate, no id twice; when `len(candidates) < maxCount` the ids are those of
all candidates; for no candidates it returns the empty list. -/
theorem selectReviewers_spec (rnd : Nat → Nat) (candidates : List User) (maxCount : Nat)
    (hdistinct : (candidates.map User.UserID).Nodup) :
    (selectReviewers rnd candidates maxCount).length = min candidates.length maxCount ∧
    (∀ x ∈ selectReviewers rnd candidates maxCount, ∃ u ∈ candidates, u.UserID = x) ∧
    (selectReviewers rnd candidates maxCount).Nodup ∧
    (candidates.length < maxCount →
      (selectReviewers rnd candidates maxCount).Perm (candidates.map User.UserID)) ∧
    (candidates = [] → selectReviewers rnd candidates maxCount = []) :=
  ⟨selectReviewers_length rnd candidates maxCount,
    selectReviewers_mem rnd candidates maxCount,
    selectReviewers_nodup rnd candidates maxCount hdistinct,
    fun h => selectReviewers_perm_of_le rnd candidates maxCount (Nat.le_of_lt h),
    fun h => by subst h; rfl⟩

/-- Witness for C18: two of the three candidates u2, u3, u4 are selected. -/
theorem selectReviewers_spec_witness :
    (selectReviewers (fun _ => 0) exCandidates 2).length = min exCandidates.length 2 ∧
    (∀ x ∈ selectReviewers (fun _ => 0) exCandidates 2,
      ∃ u ∈ exCandidates, u.UserID = x) ∧
    (selectReviewers (fun _ => 0) exCandidates 2).Nodup ∧
    (exCandidates.length < 2 →
      (selectReviewers (fun _ => 0) exCandidates 2).Perm (exCandidates.map User.UserID)) ∧
    (exCandidates = [] → selectReviewers (fun _ => 0) exCandidates 2 = []) :=
  selectReviewers_spec (fun _ => 0) exCandidates 2 (by decide)

/-! ## C19: MERGED is terminal -/

/-- C19: over PostgreSQL, a pull request that is MERGED before a call of `CreatePR`,
`MergePR`, `ReassignReviewer` or `BulkDeactivate` is read back after the call exactly as
before, MERGED and with the same reviewers; `BulkDeactivate` issues no `ReassignReviewer`
for it, whoever its reviewers are.  For `BulkDeactivate` the store is assumed to keep
`pull_request_id` unique and the map to list only what was put into it. -/
theorem merged_is_terminal (env : PgEnv) (s : DB) (X : String) (p : PullRequest)
    (hX : pullRequestRepository.GetPR s X = .ok p) (hm : p.Status = PRStatusMerged) :
    (∀ rnd pr,
      pullRequestRepository.GetPR ((pgPullRequestService env).CreatePR rnd s pr).2.2 X
        = .ok p) ∧
    (∀ prID,
      pullRequestRepository.GetPR ((pgPullRequestService env).MergePR s prID).2 X = .ok p) ∧
    (∀ rnd prID oldUserID,
      pullRequestRepository.GetPR
        ((pgPullRequestService env).ReassignReviewer rnd s prID oldUserID).2 X = .ok p) ∧
    ((s.pull_requests.map PRRow.pull_request_id).Nodup →
      (∀ l, ∀ x ∈ env.mapOrder l, x ∈ l) →
      ∀ teamName userIDs,
        pullRequestRepository.GetPR
          ((pgBulkDeactivateService env).BulkDeactivate s teamName userIDs).2 X = .ok p ∧
        ∀ c ∈ ((pgBulkDeactivateService env).recorded.BulkDeactivate (Recorder.start s)
            teamName userIDs).2.calls,
          ∀ old new, c.2 ≠ RepoCall.ReassignReviewer X old new) := by
  refine ⟨fun rnd pr => createPR_keeps_stored env rnd s pr X p hX, fun prID => ?_,
    fun rnd prID oldUserID => ?_, fun hprkey hmap teamName userIDs => ?_⟩
  · rw [service_MergePR_state]
    by_cases hid : prID = X
    · subst hid
      rw [pullRequestRepository.MergePR_merged env s prID p hX hm, hX]
    · rw [(pullRequestRepository.MergePR_frame env s prID).2.2.1 X (fun e => hid e.symm), hX]
  · rcases ReassignReviewer_state (pgPullRequestService env) rnd s prID oldUserID
      with h | ⟨newUserID, h⟩
    · rw [h, hX]
    · by_cases hid : prID = X
      · subst hid
        have := ReassignReviewer_of_merged (pgPullRequestService env) rnd s prID oldUserID p
          hX hm
        rw [this, hX]
      · rw [h]
        have hrepo : (pgPullRequestService env).prRepo.ReassignReviewer
            = pullRequestRepository.ReassignReviewer env := rfl
        rw [hrepo]
        obtain ⟨g1, -, -, g4, -⟩ := pullRequestRepository.ReassignReviewer_frame env s prID
          oldUserID newUserID
        rw [pullRequestRepository.GetPR_frame s _ X g1 (g4 X (fun e => hid e.symm)), hX]
  · obtain ⟨hcalls, hrows, hrev⟩ :=
      bulkDeactivate_skips_merged env s X p teamName userIDs hX hm hprkey hmap
    refine ⟨?_, hcalls⟩
    rw [← (recorded_BulkDeactivate (pgBulkDeactivateService env) s teamName userIDs).2,
      pullRequestRepository.GetPR_frame s _ X hrows hrev, hX]

/-- Witness for C19: the MERGED p2 of `exPairDB`, reviewed by u2 and u4, through the four
operations; `BulkDeactivate` of u2 replaces u2 on the OPEN p1 only. -/
theorem merged_is_terminal_witness :
    pullRequestRepository.GetPR
      ((pgPullRequestService (envOf true)).CreatePR (fun _ => 0) exPairDB exOrphanPR).2.2 "p2"
        = pullRequestRepository.GetPR exPairDB "p2" ∧
    pullRequestRepository.GetPR
      ((pgPullRequestService (envOf true)).MergePR exPairDB "p1").2 "p2"
        = pullRequestRepository.GetPR exPairDB "p2" ∧
    pullRequestRepository.GetPR
      ((pgPullRequestService (envOf true)).ReassignReviewer (fun _ => 0) exPairDB "p2" "u2").2
        "p2" = pullRequestRepository.GetPR exPairDB "p2" ∧
    pullRequestRepository.GetPR
      ((pgBulkDeactivateService (envOf true)).BulkDeactivate exPairDB "backend" ["u2"]).2 "p2"
        = pullRequestRepository.GetPR exPairDB "p2" ∧
    ((pgBulkDeactivateService (envOf true)).recorded.BulkDeactivate (Recorder.start exPairDB)
        "backend" ["u2"]).2.calls.map Prod.snd
      = [RepoCall.BulkSetIsActive ["u2"] false, RepoCall.ReassignReviewer "p1" "u2" "u1"] := by
  have hX : pullRequestRepository.GetPR exPairDB "p2"
      = .ok { PullRequestID := "p2", PullRequestName := "y", AuthorID := "u1",
              Status := "MERGED", AssignedReviewers := ["u2", "u4"], CreatedAt := some 8,
              MergedAt := some 50 } := by rfl
  obtain ⟨h1, h2, h3, h4⟩ := merged_is_terminal (envOf true) exPairDB "p2" _ hX (by decide)
  rw [hX]
  exact ⟨h1 _ _, h2 _, h3 _ _ _,
    (h4 (by decide) (fun _ _ hx => hx) "backend" ["u2"]).1, by decide⟩

/-! ## C20: the number of reviewers -/

/-- C20: over PostgreSQL, in a store where every pull request has at most 2 reviewers,
every pull request has at most 2 reviewers after `CreatePR`, `MergePR`, `ReassignReviewer`
and `BulkDeactivate`; the last three leave the number of reviewer entries of every pull
request as it was.  For `CreatePR` the store is assumed to hold reviewer rows of stored
pull requests only. -/
theorem reviewer_count_bounded (env : PgEnv) (s : DB)
    (hbound : ∀ id, (reviewersOf s id).length ≤ 2) :
    (∀ rnd pr id,
      (∀ rv ∈ s.pr_reviewers, ∃ row ∈ s.pull_requests, row.pull_request_id = rv.1) →
      (reviewersOf ((pgPullRequestService env).CreatePR rnd s pr).2.2 id).length ≤ 2) ∧
    (∀ prID id,
      (reviewersOf ((pgPullRequestService env).MergePR s prID).2 id).length
        = (reviewersOf s id).length ∧
      (reviewersOf ((pgPullRequestService env).MergePR s prID).2 id).length ≤ 2) ∧
    (∀ rnd prID oldUserID id,
      (reviewersOf ((pgPullRequestService env).ReassignReviewer rnd s prID oldUserID).2
        id).length = (reviewersOf s id).length ∧
      (reviewersOf ((pgPullRequestService env).ReassignReviewer rnd s prID oldUserID).2
        id).length ≤ 2) ∧
    (∀ teamName userIDs id,
      (reviewersOf ((pgBulkDeactivateService env).BulkDeactivate s teamName userIDs).2
        id).length = (reviewersOf s id).length ∧
      (reviewersOf ((pgBulkDeactivateService env).BulkDeactivate s teamName userIDs).2
        id).length ≤ 2) := by
  have hmerge : ∀ prID id,
      (reviewersOf ((pgPullRequestService env).MergePR s prID).2 id).length
        = (reviewersOf s id).length := by
    intro prID id
    rw [service_MergePR_state]
    exact (pullRequestRepository.MergePR_frame env s prID).2.2.2 id
  have hre : ∀ rnd prID oldUserID id,
      (reviewersOf ((pgPullRequestService env).ReassignReviewer rnd s prID oldUserID).2
        id).length = (reviewersOf s id).length := by
    intro rnd prID oldUserID id
    rcases ReassignReviewer_state (pgPullRequestService env) rnd s prID oldUserID
      with h | ⟨newUserID, h⟩
    · rw [h]
    · rw [h]
      exact (pullRequestRepository.ReassignReviewer_frame env s prID oldUserID newUserID).2.2.2.2
        id
  have hbulk : ∀ teamName userIDs id,
      (reviewersOf ((pgBulkDeactivateService env).BulkDeactivate s teamName userIDs).2
        id).length = (reviewersOf s id).length := by
    intro teamName userIDs id
    have hset : (reviewersOf ((pgBulkDeactivateService env).userRepo.BulkSetIsActive s
        userIDs false).2 id).length = (reviewersOf s id).length := by
      show (reviewersOf (userRepository.BulkSetIsActive s userIDs false).2 id).length
        = (reviewersOf s id).length
      rw [reviewersOf_of_rows s _ id (userRepository.BulkSetIsActive_frame s userIDs false).2.1]
    rcases BulkDeactivate_state (pgBulkDeactivateService env) s teamName userIDs
      with h | ⟨openPRs, -, h | h⟩
    · rw [h]
    · rw [h]
      exact hset
    · rw [h]
      exact reassignPRs_invariant (pgBulkDeactivateService env) userIDs
        (fun t => (reviewersOf t id).length = (reviewersOf s id).length)
        (fun pr t old _ candidate _ ht _ _ =>
          ((pullRequestRepository.ReassignReviewer_frame env t pr.PullRequestID old
            candidate.UserID).2.2.2.2 id).trans ht)
        openPRs _ hset
  refine ⟨fun rnd pr id hrefs => ?_,
    fun prID id => ⟨hmerge prID id, (hmerge prID id).trans_le (hbound id)⟩,
    fun rnd prID oldUserID id =>
      ⟨hre rnd prID oldUserID id, (hre rnd prID oldUserID id).trans_le (hbound id)⟩,
    fun teamName userIDs id =>
      ⟨hbulk teamName userIDs id, (hbulk teamName userIDs id).trans_le (hbound id)⟩⟩
  rcases CreatePR_state (pgPullRequestService env) rnd s pr with h | ⟨candidates, -, h⟩
  · rw [h]
    exact hbound id
  · rw [h]
    have hrepo : (pgPullRequestService env).prRepo.CreatePR
        = pullRequestRepository.CreatePR env := rfl
    rw [hrepo]
    obtain ⟨-, -, hcase⟩ := pullRequestRepository.CreatePR_tables env s
      { pr with AssignedReviewers := selectReviewers rnd candidates 2, Status := PRStatusOpen }
    rcases hcase with ⟨-, h2⟩ | ⟨hnew, -, h2⟩
    · rw [reviewersOf_of_rows s _ id h2]
      exact hbound id
    · by_cases hid : id = pr.PullRequestID
      · subst hid
        have hnone : ∀ rv ∈ s.pr_reviewers, rv.1 ≠ pr.PullRequestID := by
          intro rv hrv e
          obtain ⟨row, hrow, hrid⟩ := hrefs rv hrv
          exact hnew row hrow (hrid.trans e)
        rw [reviewersOf_appended s _ pr.PullRequestID _ hnone h2, orderByID_length]
        exact selectReviewers_length_le rnd candidates 2
      · rw [reviewersOf_append_other s _ pr.PullRequestID id _ hid h2]
        exact hbound id

/-- Witness for C20: p1 of `exBatchDB` keeps two reviewer entries through the bulk
deactivation of both its reviewers, and a pull request created in `exOpenDB` gets two. -/
theorem reviewer_count_bounded_witness :
    (reviewersOf ((pgBulkDeactivateService (envOf true)).BulkDeactivate exBatchDB "backend"
      ["u2", "u3"]).2 "p1").length = (reviewersOf exBatchDB "p1").length ∧
    (reviewersOf ((pgPullRequestService (envOf true)).CreatePR (fun _ => 0) exOpenDB
      exSecondPR).2.2 "p2").length ≤ 2 :=
  ⟨((reviewer_count_bounded (envOf true) exBatchDB (fun id => by
        rw [reviewersOf_length]
        exact (List.length_filter_le _ _).trans (by decide))).2.2.2
      "backend" ["u2", "u3"] "p1").1,
    (reviewer_count_bounded (envOf true) exOpenDB (fun id => by
        rw [reviewersOf_length]
        exact (List.length_filter_le _ _).trans (by decide))).1
      (fun _ => 0) exSecondPR "p2" (by decide)⟩

/-! ## Lemmas: the team service -/

/-- When the repository reports the name as taken, `TeamService.CreateTeam` answers
`ErrTeamExists` in the state it started from. -/
theorem TeamService.CreateTeam_of_exists {σ : Type} (svc : TeamService σ) (s : σ) (team : Team)
    (h : svc.teamRepo.TeamExists s team.TeamName = .ok true) :
    svc.CreateTeam s team = (some .ErrTeamExists, s) := by
  unfold TeamService.CreateTeam
  rw [h]

/-! ## C23: the response of each error kind -/

/-- C23: `handleServiceError` answers `ErrNoCandidate`, `ErrNotAssigned`, `ErrPRMerged` and
`ErrPRExists` with status 409 and the codes NO_CANDIDATE, NOT_ASSIGNED, PR_MERGED and
PR_EXISTS, which are four different codes, and answers `ErrPRNotFound`, `ErrUserNotFound`,
`ErrTeamNotFound` and `ErrAuthorNotFound` with status 404 and code NOT_FOUND. -/
theorem handleServiceError_categories :
    handleServiceError .ErrNoCandidate
      = ⟨409, "NO_CANDIDATE", "no active replacement candidate in team"⟩ ∧
    handleServiceError .ErrNotAssigned
      = ⟨409, "NOT_ASSIGNED", "reviewer is not assigned to this PR"⟩ ∧
    handleServiceError .ErrPRMerged = ⟨409, "PR_MERGED", "cannot reassign on merged PR"⟩ ∧
    handleServiceError .ErrPRExists = ⟨409, "PR_EXISTS", "PR id already exists"⟩ ∧
    ["NO_CANDIDATE", "NOT_ASSIGNED", "PR_MERGED", "PR_EXISTS"].Nodup ∧
    handleServiceError .ErrPRNotFound = ⟨404, "NOT_FOUND", "PR not found"⟩ ∧
    handleServiceError .ErrUserNotFound = ⟨404, "NOT_FOUND", "user not found"⟩ ∧
    handleServiceError .ErrTeamNotFound = ⟨404, "NOT_FOUND", "team not found"⟩ ∧
    handleServiceError .ErrAuthorNotFound = ⟨404, "NOT_FOUND", "author/team not found"⟩ := by
  refine ⟨rfl, rfl, rfl, rfl, by decide, rfl, rfl, rfl, rfl⟩

/-! ## C30: creating a team whose name is taken -/

/-- C30: when `TeamExists` reports the name of `team` as taken, `TeamService.CreateTeam`
returns `ErrTeamExists`, has issued no repository command (in particular no `CreateTeam`)
and the state is the one it started from; over PostgreSQL this is the case for every name
in table `teams`, and the tables are left as they were.  `handleServiceError` answers
`ErrTeamExists` with status 400 and code TEAM_EXISTS. -/
theorem createTeam_existing_refused :
    (∀ {σ : Type} (svc : TeamService σ) (s : σ) (team : Team),
      svc.teamRepo.TeamExists s team.TeamName = .ok true →
      svc.recorded.CreateTeam (Recorder.start s) team
        = (some .ErrTeamExists, Recorder.start s)) ∧
    (∀ (s : DB) (team : Team), team.TeamName ∈ s.teams →
      pgTeamService.CreateTeam s team = (some .ErrTeamExists, s)) ∧
    handleServiceError .ErrTeamExists = ⟨400, "TEAM_EXISTS", "team_name already exists"⟩ := by
  refine ⟨?_, ?_, rfl⟩
  · intro σ svc s team h
    exact TeamService.CreateTeam_of_exists svc.recorded (Recorder.start s) team h
  · intro s team h
    apply TeamService.CreateTeam_of_exists
    show teamRepository.TeamExists s team.TeamName = .ok true
    unfold teamRepository.TeamExists
    rw [decide_eq_true h]

/-- Witness for C30: team `backend` of `exTeamDB` submitted again, with a new member u9. -/
theorem createTeam_existing_refused_witness :
    pgTeamService.recorded.CreateTeam (Recorder.start exTeamDB)
        ⟨"backend", [⟨"u9", "Zed", true⟩]⟩
      = (some .ErrTeamExists, Recorder.start exTeamDB) ∧
    pgTeamService.CreateTeam exTeamDB ⟨"backend", [⟨"u9", "Zed", true⟩]⟩
      = (some .ErrTeamExists, exTeamDB) :=
  ⟨createTeam_existing_refused.1 pgTeamService exTeamDB ⟨"backend", [⟨"u9", "Zed", true⟩]⟩
      (by rfl),
    createTeam_existing_refused.2.1 exTeamDB ⟨"backend", [⟨"u9", "Zed", true⟩]⟩ (by decide)⟩

/-! ## C22: scenario D -/

/-- C22 (the code at the failing input): in `exOpenDB` (team `backend` = u1 to u4, all
active; OPEN pull request p1 of author u1 with reviewers u2 and u3)
`BulkDeactivate("backend", [u2, u3])` returns nil and leaves u2 and u3 inactive, but the
replacement it writes for both slots is u1, the author, first in `ORDER BY user_id`: p1 ends
with reviewers u1 and u3 when `pr_reviewers` has a key, with u1 twice when it has none, and
in neither case with u4. -/
theorem bulkDeactivate_scenario_D :
    (∀ key : Bool,
      ((pgBulkDeactivateService (envOf key)).BulkDeactivate exOpenDB "backend"
          ["u2", "u3"]).1 = none ∧
      ((pgBulkDeactivateService (envOf key)).BulkDeactivate exOpenDB "backend"
          ["u2", "u3"]).2.users
        = [⟨"u1", "Alice", "backend", true⟩, ⟨"u2", "Bob", "backend", false⟩,
           ⟨"u3", "Carol", "backend", false⟩, ⟨"u4", "Dan", "backend", true⟩] ∧
      ((pgBulkDeactivateService (envOf key)).recorded.BulkDeactivate
          (Recorder.start exOpenDB) "backend" ["u2", "u3"]).2.calls.map (fun c => c.2)
        = [RepoCall.BulkSetIsActive ["u2", "u3"] false,
           RepoCall.ReassignReviewer "p1" "u2" "u1",
           RepoCall.ReassignReviewer "p1" "u3" "u1"]) ∧
    reviewersOf ((pgBulkDeactivateService (envOf true)).BulkDeactivate exOpenDB "backend"
      ["u2", "u3"]).2 "p1" = ["u1", "u3"] ∧
    reviewersOf ((pgBulkDeactivateService (envOf false)).BulkDeactivate exOpenDB "backend"
      ["u2", "u3"]).2 "p1" = ["u1", "u1"] := by
  refine ⟨fun key => ?_, by decide, by decide⟩
  cases key <;> decide

/-! ## Lemmas: the errors of `BulkDeactivate` -/

/-- An error of the validation loop is built by `fmt.Errorf`. -/
theorem validateUsers_error_shape {σ : Type} (svc : BulkDeactivateService σ) (s : σ)
    (teamName : String) : ∀ (userIDs : List String) (err : Error),
      svc.validateUsers s teamName userIDs = some err →
      (∃ id ∈ userIDs, ∃ e, svc.userRepo.GetUser s id = .error e ∧
        err = .Wrap ("user " ++ id ++ " not found") e) ∨
      (∃ id ∈ userIDs,
        err = .New ("user " ++ id ++ " does not belong to team " ++ teamName))
  | [], err, h => by
    simp [BulkDeactivateService.validateUsers] at h
  | userID :: rest, err, h => by
    unfold BulkDeactivateService.validateUsers at h
    cases hu : svc.userRepo.GetUser s userID with
    | error e =>
      rw [hu] at h
      injection h with h
      exact Or.inl ⟨userID, List.mem_cons_self _ _, e, hu, h.symm⟩
    | ok user =>
      rw [hu] at h
      simp only at h
      by_cases ht : user.TeamName ≠ teamName
      · rw [if_pos ht] at h
        injection h with h
        exact Or.inr ⟨userID, List.mem_cons_self _ _, h.symm⟩
      · rw [if_neg ht] at h
        rcases validateUsers_error_shape svc s teamName rest err h with
          ⟨id, hid, e, he, herr⟩ | ⟨id, hid, herr⟩
        · exact Or.inl ⟨id, List.mem_cons_of_mem _ hid, e, he, herr⟩
        · exact Or.inr ⟨id, List.mem_cons_of_mem _ hid, herr⟩

/-- Every error `BulkDeactivate` returns is built by `fmt.Errorf`: a new message, or a
message wrapped around the error of a repository. -/
theorem BulkDeactivate_error_shape {σ : Type} (svc : BulkDeactivateService σ) (s : σ)
    (teamName : String) (userIDs : List String) (err : Error)
    (h : (svc.BulkDeactivate s teamName userIDs).1 = some err) :
    (∃ msg, err = .New msg) ∨ (∃ msg e, err = .Wrap msg e) := by
  unfold BulkDeactivateService.BulkDeactivate at h
  by_cases h0 : userIDs.length = 0
  · rw [if_pos h0] at h
    injection h with h
    exact Or.inl ⟨_, h.symm⟩
  · rw [if_neg h0] at h
    cases hg : svc.teamRepo.GetTeam s teamName with
    | error e =>
      rw [hg] at h
      injection h with h
      exact Or.inr ⟨_, _, h.symm⟩
    | ok team =>
      rw [hg] at h
      simp only at h
      cases hv : svc.validateUsers s teamName userIDs with
      | some verr =>
        rw [hv] at h
        injection h with h
        subst h
        rcases validateUsers_error_shape svc s teamName userIDs verr hv with
          ⟨id, -, e, -, herr⟩ | ⟨id, -, herr⟩
        · exact Or.inr ⟨_, _, herr⟩
        · exact Or.inl ⟨_, herr⟩
      | none =>
        rw [hv] at h
        simp only at h
        cases hs : svc.prRepo.GetOpenPRsByReviewers s userIDs with
        | error e =>
          rw [hs] at h
          injection h with h
          exact Or.inr ⟨_, _, h.symm⟩
        | ok openPRs =>
          rw [hs] at h
          simp only at h
          rcases hb : svc.userRepo.BulkSetIsActive s userIDs false with ⟨_ | e, s1⟩
          · rw [hb] at h
            cases h
          · rw [hb] at h
            injection h with h
            exact Or.inr ⟨_, _, h.symm⟩

/-! ## C24: the validation errors of `BulkDeactivate` -/

/-- C24 (the code): every error `BulkDeactivate` returns is a `fmt.Errorf` value, hence
neither `ErrTeamNotFound` nor `ErrUserNotFound`, and `handleServiceError`, which compares by
identity, answers it from its default branch with status 500.  When `GetTeam` fails with `e`
the error is "team not found" wrapped around `e`. -/
theorem bulkDeactivate_errors_unmapped {σ : Type} (svc : BulkDeactivateService σ) (s : σ)
    (teamName : String) (userIDs : List String) (err : Error)
    (h : (svc.BulkDeactivate s teamName userIDs).1 = some err) :
    err ≠ .ErrTeamNotFound ∧ err ≠ .ErrUserNotFound ∧
    handleServiceError err = ⟨500, "NOT_FOUND", "internal server error"⟩ ∧
    (∀ e, userIDs ≠ [] → svc.teamRepo.GetTeam s teamName = .error e →
      err = .Wrap "team not found" e) := by
  refine ⟨?_, ?_, ?_, ?_⟩
  · rcases BulkDeactivate_error_shape svc s teamName userIDs err h with ⟨m, e⟩ | ⟨m, e', e⟩ <;>
      rw [e] <;> exact fun c => Error.noConfusion c
  · rcases BulkDeactivate_error_shape svc s teamName userIDs err h with ⟨m, e⟩ | ⟨m, e', e⟩ <;>
      rw [e] <;> exact fun c => Error.noConfusion c
  · rcases BulkDeactivate_error_shape svc s teamName userIDs err h with ⟨m, e⟩ | ⟨m, e', e⟩ <;>
      rw [e] <;> rfl
  · intro e hne hg
    unfold BulkDeactivateService.BulkDeactivate at h
    have h0 : ¬ userIDs.length = 0 := fun c => hne (List.length_eq_zero.mp c)
    rw [if_neg h0, hg] at h
    injection h with h
    exact h.symm

/-- Witness for C24, the failing inputs: in `exOpenDB` there is no team `nope` and no user
u9; the errors of `BulkDeactivate("nope", [u2, u3])` and `BulkDeactivate("backend",
[u2, u9])` wrap `repository.ErrNotFound` and are answered with status 500. -/
theorem bulkDeactivate_errors_unmapped_witness :
    ((pgBulkDeactivateService (envOf true)).BulkDeactivate exOpenDB "nope" ["u2", "u3"]).1
      = some (.Wrap "team not found" .ErrNotFound) ∧
    ((pgBulkDeactivateService (envOf true)).BulkDeactivate exOpenDB "backend" ["u2", "u9"]).1
      = some (.Wrap "user u9 not found" .ErrNotFound) ∧
    handleServiceError (.Wrap "team not found" .ErrNotFound)
      = ⟨500, "NOT_FOUND", "internal server error"⟩ ∧
    handleServiceError (.Wrap "user u9 not found" .ErrNotFound)
      = ⟨500, "NOT_FOUND", "internal server error"⟩ :=
  ⟨by rfl, by rfl,
    (bulkDeactivate_errors_unmapped (pgBulkDeactivateService (envOf true)) exOpenDB "nope"
      ["u2", "u3"] _ (by rfl)).2.2.1,
    (bulkDeactivate_errors_unmapped (pgBulkDeactivateService (envOf true)) exOpenDB "backend"
      ["u2", "u9"] _ (by rfl)).2.2.1⟩

/-! ## Lemmas: `BulkDeactivate` past its validation -/

/-- The read of the snapshot fails: the error is returned in the state of the start. -/
theorem BulkDeactivate_snapshot_error {σ : Type} (svc : BulkDeactivateService σ) (s : σ)
    (teamName : String) (userIDs : List String) (e : Error)
    (hne : userIDs ≠ [])
    (hteam : ∃ team, svc.teamRepo.GetTeam s teamName = .ok team)
    (husers : ∀ id ∈ userIDs, ∃ u,
      svc.userRepo.GetUser s id = .ok u ∧ u.TeamName = teamName)
    (hsnap : svc.prRepo.GetOpenPRsByReviewers s userIDs = .error e) :
    svc.BulkDeactivate s teamName userIDs = (some (.Wrap "failed to get open PRs" e), s) := by
  obtain ⟨team, hteam⟩ := hteam
  have h0 : ¬ userIDs.length = 0 := fun h => hne (List.length_eq_zero.mp h)
  have hval := validateUsers_none svc s teamName userIDs husers
  unfold BulkDeactivateService.BulkDeactivate
  rw [if_neg h0, hteam]
  simp only
  rw [hval]
  simp only
  rw [hsnap]

/-- The snapshot is read: the call ends with the outcome of the deactivation write, followed
on success by the loop over the snapshot. -/
theorem BulkDeactivate_after_snapshot {σ : Type} (svc : BulkDeactivateService σ) (s : σ)
    (teamName : String) (userIDs : List String) (openPRs : List PullRequest)
    (hne : userIDs ≠ [])
    (hteam : ∃ team, svc.teamRepo.GetTeam s teamName = .ok team)
    (husers : ∀ id ∈ userIDs, ∃ u,
      svc.userRepo.GetUser s id = .ok u ∧ u.TeamName = teamName)
    (hsnap : svc.prRepo.GetOpenPRsByReviewers s userIDs = .ok openPRs) :
    (∀ e s1, svc.userRepo.BulkSetIsActive s userIDs false = (some e, s1) →
      svc.BulkDeactivate s teamName userIDs
        = (some (.Wrap "failed to deactivate users" e), s1)) ∧
    (∀ s1, svc.userRepo.BulkSetIsActive s userIDs false = (none, s1) →
      svc.BulkDeactivate s teamName userIDs = (none, svc.reassignPRs userIDs openPRs s1)) := by
  obtain ⟨team, hteam⟩ := hteam
  have h0 : ¬ userIDs.length = 0 := fun h => hne (List.length_eq_zero.mp h)
  have hval := validateUsers_none svc s teamName userIDs husers
  constructor
  · intro e s1 hset
    unfold BulkDeactivateService.BulkDeactivate
    rw [if_neg h0, hteam]
    simp only
    rw [hval]
    simp only
    rw [hsnap]
    simp only
    rw [hset]
  · intro s1 hset
    unfold BulkDeactivateService.BulkDeactivate
    rw [if_neg h0, hteam]
    simp only
    rw [hval]
    simp only
    rw [hsnap]
    simp only
    rw [hset]

/-! ## C28: a failing snapshot read, a failing deactivation write -/

/-- C28: let the validation of `BulkDeactivate(teamName, userIDs)` pass.  If the read
`GetOpenPRsByReviewers` fails with `e`, the call returns "failed to get open PRs" wrapped
around `e`, has issued no repository command (no `BulkSetIsActive`, no `ReassignReviewer`)
and the state is the one it started from.  If the read succeeds and the write
`BulkSetIsActive` fails with `e`, the call returns "failed to deactivate users" wrapped
around `e` and `BulkSetIsActive` is the only command it has issued. -/
theorem bulkDeactivate_read_write_failure {σ : Type} (svc : BulkDeactivateService σ) (s : σ)
    (teamName : String) (userIDs : List String)
    (hne : userIDs ≠ [])
    (hteam : ∃ team, svc.teamRepo.GetTeam s teamName = .ok team)
    (husers : ∀ id ∈ userIDs, ∃ u,
      svc.userRepo.GetUser s id = .ok u ∧ u.TeamName = teamName) :
    (∀ e, svc.prRepo.GetOpenPRsByReviewers s userIDs = .error e →
      svc.recorded.BulkDeactivate (Recorder.start s) teamName userIDs
        = (some (.Wrap "failed to get open PRs" e), Recorder.start s)) ∧
    (∀ openPRs e s1, svc.prRepo.GetOpenPRsByReviewers s userIDs = .ok openPRs →
      svc.userRepo.BulkSetIsActive s userIDs false = (some e, s1) →
      svc.recorded.BulkDeactivate (Recorder.start s) teamName userIDs
        = (some (.Wrap "failed to deactivate users" e),
            { state := s1, calls := [(s, RepoCall.BulkSetIsActive userIDs false)] })) := by
  constructor
  · intro e hsnap
    exact BulkDeactivate_snapshot_error svc.recorded (Recorder.start s) teamName userIDs e hne
      hteam husers hsnap
  · intro openPRs e s1 hsnap hset
    refine (BulkDeactivate_after_snapshot svc.recorded (Recorder.start s) teamName userIDs
      openPRs hne hteam husers hsnap).1 e _ ?_
    show ((svc.userRepo.BulkSetIsActive s userIDs false).1,
      (Recorder.start s).log (RepoCall.BulkSetIsActive userIDs false)
        (svc.userRepo.BulkSetIsActive s userIDs false).2) = _
    rw [hset]
    rfl

/-- Witness for C28: in `exBatchDB` the batch u2, u3 passes validation; with a failing
snapshot query nothing is written, with a failing deactivation transaction no
`ReassignReviewer` follows. -/
theorem bulkDeactivate_read_write_failure_witness :
    exSnapshotFails.recorded.BulkDeactivate (Recorder.start exBatchDB) "backend" ["u2", "u3"]
      = (some (.Wrap "failed to get open PRs" (.New "connection refused")),
          Recorder.start exBatchDB) ∧
    exWriteFails.recorded.BulkDeactivate (Recorder.start exBatchDB) "backend" ["u2", "u3"]
      = (some (.Wrap "failed to deactivate users" (.New "connection refused")),
          { state := exBatchDB,
            calls := [(exBatchDB, RepoCall.BulkSetIsActive ["u2", "u3"] false)] }) :=
  ⟨(bulkDeactivate_read_write_failure exSnapshotFails exBatchDB "backend" ["u2", "u3"]
      (by decide) ⟨_, rfl⟩
      (fun id hid => by
        simp only [List.mem_cons, List.mem_singleton, List.not_mem_nil, or_false] at hid
        rcases hid with h | h
        · subst h
          exact ⟨⟨"u2", "Bob", "backend", true⟩, by rfl, by decide⟩
        · subst h
          exact ⟨⟨"u3", "Carol", "backend", true⟩, by rfl, by decide⟩)).1 _ rfl,
    (bulkDeactivate_read_write_failure exWriteFails exBatchDB "backend" ["u2", "u3"]
      (by decide) ⟨_, rfl⟩
      (fun id hid => by
        simp only [List.mem_cons, List.mem_singleton, List.not_mem_nil, or_false] at hid
        rcases hid with h | h
        · subst h
          exact ⟨⟨"u2", "Bob", "backend", true⟩, by rfl, by decide⟩
        · subst h
          exact ⟨⟨"u3", "Carol", "backend", true⟩, by rfl, by decide⟩)).2 _ _ _ (by rfl) rfl⟩

/-! ## Lemmas: the loops of `BulkDeactivate` as folds -/

/-- The loop over the deactivated reviewers runs the loop body for every one of them, in
order, each in the state the previous one left. -/
theorem reassignSlots_eq_foldl {σ : Type} (svc : BulkDeactivateService σ)
    (userIDs : List String) (pr : PullRequest) : ∀ (slots : List String) (t : σ),
      svc.reassignSlots userIDs pr slots t
        = slots.foldl (fun t old => svc.reassignSlot userIDs pr old t) t
  | [], _ => rfl
  | old :: rest, t => by
    have ih := reassignSlots_eq_foldl svc userIDs pr rest
    rw [List.foldl_cons]
    unfold BulkDeactivateService.reassignSlots BulkDeactivateService.reassignSlot
    cases svc.userRepo.GetUser t old with
    | error e => exact ih t
    | ok oldReviewer =>
      simp only
      cases svc.userRepo.GetActiveUsersByTeam t oldReviewer.TeamName
          (userIDs ++ pr.AssignedReviewers) with
      | error e => exact ih t
      | ok candidates =>
        cases candidates with
        | nil => exact ih t
        | cons candidate others =>
          simp only
          rcases svc.prRepo.ReassignReviewer t pr.PullRequestID old candidate.UserID with
            ⟨_ | e, t1⟩
          · exact ih t1
          · exact ih t1

/-- The loop over the snapshot runs the loop over the deactivated reviewers for every pull
request of the snapshot, in order. -/
theorem reassignPRs_eq_foldl {σ : Type} (svc : BulkDeactivateService σ)
    (userIDs : List String) : ∀ (prs : List PullRequest) (t : σ),
      svc.reassignPRs userIDs prs t
        = prs.foldl (fun t pr => (deactivatedReviewers pr userIDs).foldl
            (fun t old => svc.reassignSlot userIDs pr old t) t) t
  | [], _ => rfl
  | pr :: rest, t => by
    unfold BulkDeactivateService.reassignPRs
    rw [List.foldl_cons, reassignPRs_eq_foldl svc userIDs rest, reassignSlots_eq_foldl]

/-- A `ReassignReviewer` command of the repository that fails has written nothing. -/
theorem pullRequestRepository.ReassignReviewer_failed (env : PgEnv) (s : DB)
    (prID old new : String)
    (h : (pullRequestRepository.ReassignReviewer env s prID old new).1 ≠ none) :
    (pullRequestRepository.ReassignReviewer env s prID old new).2 = s := by
  unfold pullRequestRepository.ReassignReviewer at h ⊢
  simp only at h ⊢
  split
  · rfl
  · split
    · rfl
    · rename_i h1 h2
      rw [if_neg h1, if_neg h2] at h
      exact absurd rfl h

/-! ## C21: the reassignment phase is best-effort -/

/-- C21: let the validation of `BulkDeactivate(teamName, userIDs)` pass, the snapshot be
read as `openPRs` and the write `BulkSetIsActive` succeed, leaving `s1`.  Then the call
returns nil, and its state is `s1` after one attempt for every deactivated reviewer of every
pull request of the snapshot, in order, whatever the earlier attempts did.  An attempt that
cannot read the old reviewer, or whose candidate query fails or is empty, leaves the state
as it was; any other attempt leaves what its `ReassignReviewer` command left, failed or not.
Over PostgreSQL an attempt that makes no successful write leaves the store as it was, so the
slot keeps its old reviewer. -/
theorem bulkDeactivate_best_effort {σ : Type} (svc : BulkDeactivateService σ) (s s1 : σ)
    (teamName : String) (userIDs : List String) (openPRs : List PullRequest)
    (hne : userIDs ≠ [])
    (hteam : ∃ team, svc.teamRepo.GetTeam s teamName = .ok team)
    (husers : ∀ id ∈ userIDs, ∃ u,
      svc.userRepo.GetUser s id = .ok u ∧ u.TeamName = teamName)
    (hsnap : svc.prRepo.GetOpenPRsByReviewers s userIDs = .ok openPRs)
    (hset : svc.userRepo.BulkSetIsActive s userIDs false = (none, s1)) :
    svc.BulkDeactivate s teamName userIDs
      = (none, openPRs.foldl (fun t pr => (deactivatedReviewers pr userIDs).foldl
          (fun t old => svc.reassignSlot userIDs pr old t) t) s1) ∧
    (∀ (pr : PullRequest) (old : String) (t : σ),
      ((∃ e, svc.userRepo.GetUser t old = .error e) ∨
        ∃ u, svc.userRepo.GetUser t old = .ok u ∧
          ((∃ e, svc.userRepo.GetActiveUsersByTeam t u.TeamName
              (userIDs ++ pr.AssignedReviewers) = .error e) ∨
            svc.userRepo.GetActiveUsersByTeam t u.TeamName
              (userIDs ++ pr.AssignedReviewers) = .ok [])) →
      svc.reassignSlot userIDs pr old t = t) ∧
    (∀ (pr : PullRequest) (old : String) (t : σ) (u c : User) (rest : List User),
      svc.userRepo.GetUser t old = .ok u →
      svc.userRepo.GetActiveUsersByTeam t u.TeamName (userIDs ++ pr.AssignedReviewers)
        = .ok (c :: rest) →
      svc.reassignSlot userIDs pr old t
        = (svc.prRepo.ReassignReviewer t pr.PullRequestID old c.UserID).2) ∧
    (∀ (env : PgEnv) (pr : PullRequest) (old : String) (t : DB),
      (∀ (u c : User) (rest : List User), userRepository.GetUser t old = .ok u →
        userRepository.GetActiveUsersByTeam t u.TeamName (userIDs ++ pr.AssignedReviewers)
          = .ok (c :: rest) →
        (pullRequestRepository.ReassignReviewer env t pr.PullRequestID old c.UserID).1
          ≠ none) →
      (pgBulkDeactivateService env).reassignSlot userIDs pr old t = t) := by
  refine ⟨?_, ?_, ?_, ?_⟩
  · rw [(BulkDeactivate_after_snapshot svc s teamName userIDs openPRs hne hteam husers
      hsnap).2 s1 hset, reassignPRs_eq_foldl]
  · intro pr old t h
    unfold BulkDeactivateService.reassignSlot
    rcases h with ⟨e, he⟩ | ⟨u, hu, ⟨e, he⟩ | he⟩
    · rw [he]
    · rw [hu]
      simp only
      rw [he]
    · rw [hu]
      simp only
      rw [he]
  · intro pr old t u c rest hu hc
    unfold BulkDeactivateService.reassignSlot
    rw [hu]
    simp only
    rw [hc]
  · intro env pr old t h
    unfold BulkDeactivateService.reassignSlot
    show (match userRepository.GetUser t old with
      | .error _ => t
      | .ok oldReviewer =>
        match userRepository.GetActiveUsersByTeam t oldReviewer.TeamName
            (userIDs ++ pr.AssignedReviewers) with
        | .error _ => t
        | .ok [] => t
        | .ok (candidate :: _) =>
          (pullRequestRepository.ReassignReviewer env t pr.PullRequestID old
            candidate.UserID).2) = t
    cases hu : userRepository.GetUser t old with
    | error e => rfl
    | ok u =>
      simp only
      cases hc : userRepository.GetActiveUsersByTeam t u.TeamName
          (userIDs ++ pr.AssignedReviewers) with
      | error e => rfl
      | ok candidates =>
        cases candidates with
        | nil => rfl
        | cons c rest =>
          simp only
          exact pullRequestRepository.ReassignReviewer_failed env t _ _ _ (h u c rest hu hc)

/-- Witness for C21: in `exTwoDB` the batch u2, u4 leaves no candidate for the slot of u2 on
p1 (u3 already reviews p1); the call returns nil, p1 keeps u2 and the later p2 still has its
u4 replaced by u3. -/
theorem bulkDeactivate_best_effort_witness :
    (pgBulkDeactivateService (envOf true)).BulkDeactivate exTwoDB "backend" ["u2", "u4"]
      = (none,
          { exTwoDB with
            users := [⟨"u1", "Alice", "frontend", true⟩, ⟨"u2", "Bob", "backend", false⟩,
                      ⟨"u3", "Carol", "backend", true⟩, ⟨"u4", "Dan", "backend", false⟩],
            pr_reviewers := [("p1", "u2"), ("p1", "u3"), ("p2", "u3")] }) :=
  (bulkDeactivate_best_effort (pgBulkDeactivateService (envOf true)) exTwoDB _ "backend"
    ["u2", "u4"] _ (by decide) ⟨_, rfl⟩
    (fun id hid => by
      simp only [List.mem_cons, List.mem_singleton, List.not_mem_nil, or_false] at hid
      rcases hid with h | h
      · subst h
        exact ⟨⟨"u2", "Bob", "backend", true⟩, by rfl, by decide⟩
      · subst h
        exact ⟨⟨"u4", "Dan", "backend", true⟩, by rfl, by decide⟩)
    (by rfl) (by rfl)).1.trans (by decide)

/-! ## Lemmas: the draws that bring a candidate to the front -/

theorem swapAt_self {α : Type} (l : List α) (i : Nat) : swapAt l i i = l := by
  unfold swapAt
  cases h : l[i]? with
  | none => rfl
  | some a =>
    simp only
    rw [List.set_set]
    apply List.ext_getElem?
    intro k
    by_cases hk : i = k
    · subst hk
      have hlt : i < l.length := by
        rcases Nat.lt_or_ge i l.length with hlt | hge
        · exact hlt
        · rw [List.getElem?_eq_none hge] at h
          cases h
      rw [List.getElem?_set_self hlt, h]
    · rw [List.getElem?_set_ne hk]

/-- Draws that pick every index itself leave the slice as it is. -/
theorem shuffleFrom_id {α : Type} (rnd : Nat → Nat) :
    ∀ (n : Nat) (l : List α), (∀ i, 1 ≤ i → i ≤ n → rnd i % (i + 1) = i) →
      shuffleFrom rnd n l = l
  | 0, _, _ => rfl
  | n + 1, l, h => by
    unfold shuffleFrom
    rw [h (n + 1) (by omega) (by omega), swapAt_self]
    exact shuffleFrom_id rnd n l (fun i h1 h2 => h i h1 (by omega))

/-- Draws that pick 0 at index `p` and every other index itself swap positions `p` and 0. -/
theorem shuffleFrom_front {α : Type} (p : Nat) (hp : 1 ≤ p) :
    ∀ (n : Nat) (l : List α), p ≤ n →
      shuffleFrom (fun i => if i = p then 0 else i) n l = swapAt l p 0
  | 0, _, h => by omega
  | n + 1, l, h => by
    unfold shuffleFrom
    by_cases hn : n + 1 = p
    · subst hn
      simp only [if_true, Nat.zero_mod]
      apply shuffleFrom_id
      intro i h1 h2
      have : ¬ i = n + 1 := by omega
      simp only [if_neg this]
      exact Nat.mod_eq_of_lt (by omega)
    · simp only [if_neg hn]
      rw [Nat.mod_eq_of_lt (by omega), swapAt_self]
      exact shuffleFrom_front p hp n l (by omega)

theorem swapAt_zero_head {α : Type} (l : List α) (p : Nat) (hp : p < l.length) :
    (swapAt l p 0)[0]? = l[p]? := by
  unfold swapAt
  have h0 : 0 < l.length := by omega
  rw [List.getElem?_eq_getElem hp, List.getElem?_eq_getElem h0]
  simp only
  rw [List.getElem?_set_self (by rw [List.length_set]; exact h0)]

/-- For every position of the slice there are draws after which `Shuffle` has the element of
that position in front. -/
theorem Shuffle_front {α : Type} (l : List α) (p : Nat) (hp : p < l.length) :
    ∃ rnd, (Shuffle rnd l)[0]? = l[p]? := by
  by_cases h1 : 1 ≤ p
  · refine ⟨fun i => if i = p then 0 else i, ?_⟩
    unfold Shuffle
    rw [shuffleFrom_front p h1 _ l (by omega), swapAt_zero_head l p hp]
  · have h0 : p = 0 := by omega
    subst h0
    refine ⟨fun i => i, ?_⟩
    unfold Shuffle
    rw [shuffleFrom_id]
    intro i _ _
    exact Nat.mod_eq_of_lt (by omega)


/-! ## C25: every candidate can be selected -/

/-- C25: for `maxCount ≥ 1` and every position of `candidates` there are draws of
`rand.Shuffle` for which the candidate of that position is the first id `selectReviewers`
returns; hence for every candidate there are draws for which its id is in the result,
wherever it stands in the input. -/
theorem selectReviewers_reaches_every_candidate (candidates : List User) (maxCount : Nat)
    (hmax : 1 ≤ maxCount) :
    (∀ p, p < candidates.length →
      ∃ rnd, (selectReviewers rnd candidates maxCount)[0]?
        = (candidates[p]?).map User.UserID) ∧
    (∀ c ∈ candidates, ∃ rnd, c.UserID ∈ selectReviewers rnd candidates maxCount) := by
  have hfront : ∀ p, p < candidates.length →
      ∃ rnd, (selectReviewers rnd candidates maxCount)[0]?
        = (candidates[p]?).map User.UserID := by
    intro p hp
    obtain ⟨rnd, hrnd⟩ := Shuffle_front candidates p hp
    refine ⟨rnd, ?_⟩
    unfold selectReviewers
    have hlen : ¬ candidates.length = 0 := by omega
    rw [if_neg hlen]
    simp only [List.getElem?_map, Shuffle_length]
    have hcount : 0 < (if candidates.length < maxCount then candidates.length else maxCount) := by
      split <;> omega
    rw [List.getElem?_take_of_lt hcount, hrnd]
  refine ⟨hfront, ?_⟩
  intro c hc
  obtain ⟨p, hp, hget⟩ := List.getElem_of_mem hc
  obtain ⟨rnd, hrnd⟩ := hfront p hp
  refine ⟨rnd, ?_⟩
  rw [List.getElem?_eq_getElem hp, hget] at hrnd
  exact List.getElem?_mem hrnd

/-- Witness for C25: of the candidates u2, u3, u4 the last one, u4, is outside the first two
and is selected with `maxCount = 2` when `rand.Shuffle` draws 0 at index 2 and 1 at
index 1. -/
theorem selectReviewers_reaches_every_candidate_witness :
    (∃ rnd, "u4" ∈ selectReviewers rnd exCandidates 2) ∧
    "u4" ∉ (exCandidates.take 2).map User.UserID ∧
    selectReviewers (fun i => if i = 2 then 0 else i) exCandidates 2 = ["u4", "u3"] :=
  ⟨(selectReviewers_reaches_every_candidate exCandidates 2 (by decide)).2
      ⟨"u4", "Dan", "backend", true⟩ (by decide),
    by decide, by decide⟩

/-! ## Lemmas: the attempts of `BulkDeactivate` -/

/-- One attempt leaves the state as it was or as one `ReassignReviewer` command left it, the
new reviewer being the first candidate of the query. -/
theorem reassignSlot_cases {σ : Type} (svc : BulkDeactivateService σ) (userIDs : List String)
    (pr : PullRequest) (old : String) (t : σ) :
    svc.reassignSlot userIDs pr old t = t ∨
    ∃ u c rest, svc.userRepo.GetUser t old = .ok u ∧
      svc.userRepo.GetActiveUsersByTeam t u.TeamName (userIDs ++ pr.AssignedReviewers)
        = .ok (c :: rest) ∧
      svc.reassignSlot userIDs pr old t
        = (svc.prRepo.ReassignReviewer t pr.PullRequestID old c.UserID).2 := by
  unfold BulkDeactivateService.reassignSlot
  cases hu : svc.userRepo.GetUser t old with
  | error e => exact Or.inl rfl
  | ok u =>
    simp only
    cases hc : svc.userRepo.GetActiveUsersByTeam t u.TeamName
        (userIDs ++ pr.AssignedReviewers) with
    | error e => exact Or.inl rfl
    | ok candidates =>
      cases candidates with
      | nil => exact Or.inl rfl
      | cons c rest => exact Or.inr ⟨u, c, rest, rfl, hc, rfl⟩

theorem foldl_invariant_mem {α β : Type} (f : β → α → β) (P : β → Prop) :
    ∀ (l : List α), (∀ x ∈ l, ∀ b, P b → P (f b x)) → ∀ b, P b → P (l.foldl f b)
  | [], _, _, hb => hb
  | x :: rest, h, b, hb => by
    rw [List.foldl_cons]
    exact foldl_invariant_mem f P rest (fun y hy => h y (List.mem_cons_of_mem _ hy)) _
      (h x (List.mem_cons_self _ _) b hb)

/-- The invariant lemma of the loop over the snapshot, with the step required only for the
deactivated reviewers of the pull requests of the snapshot. -/
theorem reassignPRs_invariant_slot {σ : Type} (svc : BulkDeactivateService σ)
    (userIDs : List String) (P : σ → Prop) (prs : List PullRequest)
    (hstep : ∀ pr ∈ prs, ∀ old ∈ deactivatedReviewers pr userIDs,
      ∀ (t : σ) (u c : User) (rest : List User), P t →
      svc.userRepo.GetUser t old = .ok u →
      svc.userRepo.GetActiveUsersByTeam t u.TeamName (userIDs ++ pr.AssignedReviewers)
        = .ok (c :: rest) →
      P (svc.prRepo.ReassignReviewer t pr.PullRequestID old c.UserID).2)
    (t : σ) (ht : P t) : P (svc.reassignPRs userIDs prs t) := by
  rw [reassignPRs_eq_foldl]
  refine foldl_invariant_mem _ P prs ?_ t ht
  intro pr hpr b hb
  refine foldl_invariant_mem _ P _ ?_ b hb
  intro old hold b1 hb1
  rcases reassignSlot_cases svc userIDs pr old b1 with h | ⟨u, c, rest, hu, hc, h⟩
  · rw [h]
    exact hb1
  · rw [h]
    exact hstep pr hpr old hold b1 u c rest hb1 hu hc

theorem mem_deactivatedReviewers (pr : PullRequest) (userIDs : List String) (old : String) :
    old ∈ deactivatedReviewers pr userIDs ↔ old ∈ pr.AssignedReviewers ∧ old ∈ userIDs := by
  unfold deactivatedReviewers
  simp [List.mem_filter]

/-- Over PostgreSQL: a property of the store that the deactivation write establishes or
keeps, and that every `ReassignReviewer` command replacing a listed user keeps, holds after
`BulkDeactivate` if it held before. -/
theorem pgBulkDeactivate_invariant (env : PgEnv) (s : DB) (teamName : String)
    (userIDs : List String) (P : DB → Prop) (hs : P s)
    (hset : P (userRepository.BulkSetIsActive s userIDs false).2)
    (hstep : ∀ (t : DB) (prID old new : String), old ∈ userIDs → P t →
      P (pullRequestRepository.ReassignReviewer env t prID old new).2) :
    P ((pgBulkDeactivateService env).BulkDeactivate s teamName userIDs).2 := by
  rcases BulkDeactivate_state (pgBulkDeactivateService env) s teamName userIDs with
    h | ⟨openPRs, -, h | h⟩
  · rw [h]
    exact hs
  · rw [h]
    exact hset
  · rw [h]
    apply reassignPRs_invariant_slot
    · intro pr _ old hold t u c rest ht _ _
      exact hstep t _ old _ ((mem_deactivatedReviewers pr userIDs old).mp hold).2 ht
    · exact hset

/-! ## Lemmas: the rows `BulkDeactivate` leaves alone -/

theorem filter_map_of_fixed {α : Type} (f : α → α) (p : α → Bool) :
    ∀ (l : List α), (∀ x ∈ l, p (f x) = p x ∧ (p x = true → f x = x)) →
      (l.map f).filter p = l.filter p
  | [], _ => rfl
  | x :: rest, h => by
    have ih := filter_map_of_fixed f p rest (fun y hy => h y (List.mem_cons_of_mem _ hy))
    obtain ⟨h1, h2⟩ := h x (List.mem_cons_self _ _)
    rw [List.map_cons, List.filter_cons, List.filter_cons, h1, ih]
    cases hp : p x with
    | false => simp
    | true => simp [h2 hp]

theorem find_map_of_fixed {α : Type} (f : α → α) (p : α → Bool) :
    ∀ (l : List α), (∀ x ∈ l, p (f x) = p x ∧ (p x = true → f x = x)) →
      (l.map f).find? p = l.find? p
  | [], _ => rfl
  | x :: rest, h => by
    have ih := find_map_of_fixed f p rest (fun y hy => h y (List.mem_cons_of_mem _ hy))
    obtain ⟨h1, h2⟩ := h x (List.mem_cons_self _ _)
    rw [List.map_cons, List.find?_cons, List.find?_cons, h1, ih]
    cases hp : p x with
    | false => rfl
    | true => simp [h2 hp]

/-- A `ReassignReviewer` command for a listed user keeps every reviewer row of an unlisted
user. -/
theorem pullRequestRepository.ReassignReviewer_keeps_row (env : PgEnv) (t : DB)
    (prID old new X r : String) (hne : r ≠ old) (h : (X, r) ∈ t.pr_reviewers) :
    (X, r) ∈ (pullRequestRepository.ReassignReviewer env t prID old new).2.pr_reviewers := by
  unfold pullRequestRepository.ReassignReviewer
  simp only
  split
  · exact h
  · split
    · exact h
    · simp only [List.mem_map]
      refine ⟨(X, r), h, ?_⟩
      rw [if_neg (fun c => hne c.2)]

/-- A `ReassignReviewer` command keeps the reviewer rows of a pull request none of whose
reviewers is the replaced one. -/
theorem pullRequestRepository.ReassignReviewer_keeps_rows (env : PgEnv) (t : DB)
    (prID old new X : String) (h : (X, old) ∉ t.pr_reviewers) :
    (pullRequestRepository.ReassignReviewer env t prID old new).2.pr_reviewers.filter
        (fun r => decide (r.1 = X))
      = t.pr_reviewers.filter (fun r => decide (r.1 = X)) := by
  unfold pullRequestRepository.ReassignReviewer
  simp only
  split
  · rfl
  · split
    · rfl
    · simp only
      apply filter_map_of_fixed
      intro x hx
      by_cases hc : x.1 = prID ∧ x.2 = old
      · have hxX : ¬ x.1 = X := by
          intro e
          apply h
          have : x = (X, old) := Prod.ext e hc.2
          rw [← this]
          exact hx
        have hpX : ¬ prID = X := fun e => hxX (hc.1.trans e)
        rw [if_pos hc]
        simp [hxX, hpX]
      · rw [if_neg hc]
        simp

/-- Table `users` after `BulkDeactivate` is as before or as the deactivation write left
it. -/
theorem pgBulkDeactivate_users (env : PgEnv) (s : DB) (teamName : String)
    (userIDs : List String) :
    ((pgBulkDeactivateService env).BulkDeactivate s teamName userIDs).2.users = s.users ∨
    ((pgBulkDeactivateService env).BulkDeactivate s teamName userIDs).2.users
      = s.users.map (fun u => if u.UserID ∈ userIDs then { u with IsActive := false } else u) := by
  apply pgBulkDeactivate_invariant env s teamName userIDs
    (fun t => t.users = s.users ∨ t.users
      = s.users.map (fun u => if u.UserID ∈ userIDs then { u with IsActive := false } else u))
  · exact Or.inl rfl
  · unfold userRepository.BulkSetIsActive
    split
    · exact Or.inl rfl
    · exact Or.inr rfl
  · intro t prID old new _ ht
    rw [pullRequestRepository.ReassignReviewer_users]
    exact ht

/-! ## C29: what `BulkDeactivate` leaves alone -/

/-- C29: over PostgreSQL, for every store and every call `BulkDeactivate(teamName, userIDs)`,
failing or not: a reviewer of a pull request who is not in `userIDs` is a reviewer of that
pull request afterwards; a pull request none of whose reviewers is in `userIDs` has the same
reviewer list afterwards; and every user outside `userIDs` is read back unchanged, the rows
of `users` with an id outside `userIDs` being the same before and after. -/
theorem bulkDeactivate_frame (env : PgEnv) (s : DB) (teamName : String)
    (userIDs : List String) :
    (∀ X r, r ∈ reviewersOf s X → r ∉ userIDs →
      r ∈ reviewersOf ((pgBulkDeactivateService env).BulkDeactivate s teamName userIDs).2 X) ∧
    (∀ X, (∀ r ∈ reviewersOf s X, r ∉ userIDs) →
      reviewersOf ((pgBulkDeactivateService env).BulkDeactivate s teamName userIDs).2 X
        = reviewersOf s X) ∧
    (∀ id, id ∉ userIDs →
      userRepository.GetUser ((pgBulkDeactivateService env).BulkDeactivate s teamName
          userIDs).2 id
        = userRepository.GetUser s id) ∧
    ((pgBulkDeactivateService env).BulkDeactivate s teamName userIDs).2.users.filter
        (fun u => decide (u.UserID ∉ userIDs))
      = s.users.filter (fun u => decide (u.UserID ∉ userIDs)) := by
  refine ⟨?_, ?_, ?_, ?_⟩
  · intro X r hr hout
    rw [mem_reviewersOf] at hr ⊢
    apply pgBulkDeactivate_invariant env s teamName userIDs
      (fun t => (X, r) ∈ t.pr_reviewers) hr
    · rw [(userRepository.BulkSetIsActive_frame s userIDs false).2.1]
      exact hr
    · intro t prID old new hold ht
      exact pullRequestRepository.ReassignReviewer_keeps_row env t prID old new X r
        (fun e => hout (e ▸ hold)) ht
  · intro X hX
    have hrows : ((pgBulkDeactivateService env).BulkDeactivate s teamName
        userIDs).2.pr_reviewers.filter (fun r => decide (r.1 = X))
        = s.pr_reviewers.filter (fun r => decide (r.1 = X)) := by
      apply pgBulkDeactivate_invariant env s teamName userIDs
        (fun t => t.pr_reviewers.filter (fun r => decide (r.1 = X))
          = s.pr_reviewers.filter (fun r => decide (r.1 = X))) rfl
      · rw [(userRepository.BulkSetIsActive_frame s userIDs false).2.1]
      · intro t prID old new hold ht
        rw [pullRequestRepository.ReassignReviewer_keeps_rows env t prID old new X ?_]
        · exact ht
        · intro hmem
          have h1 : (X, old) ∈ t.pr_reviewers.filter (fun r => decide (r.1 = X)) := by
            simp [List.mem_filter, hmem]
          rw [ht] at h1
          have h2 : (X, old) ∈ s.pr_reviewers := (List.mem_filter.mp h1).1
          exact hX old ((mem_reviewersOf s X old).mpr h2) hold
    unfold reviewersOf
    rw [hrows]
  · intro id hid
    unfold userRepository.GetUser
    rcases pgBulkDeactivate_users env s teamName userIDs with h | h
    · rw [h]
    · rw [h, find_map_of_fixed]
      intro u _
      by_cases hu : u.UserID ∈ userIDs
      · rw [if_pos hu]
        refine ⟨rfl, fun hp => ?_⟩
        simp only [decide_eq_true_eq] at hp
        exact absurd (hp ▸ hu) hid
      · rw [if_neg hu]
        exact ⟨rfl, fun _ => rfl⟩
  · rcases pgBulkDeactivate_users env s teamName userIDs with h | h
    · rw [h]
    · rw [h, filter_map_of_fixed]
      intro u _
      by_cases hu : u.UserID ∈ userIDs
      · rw [if_pos hu]
        refine ⟨rfl, fun hp => ?_⟩
        simp only [decide_eq_true_eq] at hp
        exact absurd hu hp
      · rw [if_neg hu]
        exact ⟨rfl, fun _ => rfl⟩

/-- Witness for C29: `BulkDeactivate("backend", [u2, u4])` on `exTwoDB` keeps u3, who is not
listed, on p1, and reads u3 back as before; `BulkDeactivate("backend", [u4])` leaves the
reviewers of p1, none of them listed, as they were. -/
theorem bulkDeactivate_frame_witness :
    "u3" ∈ reviewersOf ((pgBulkDeactivateService (envOf true)).BulkDeactivate exTwoDB
      "backend" ["u2", "u4"]).2 "p1" ∧
    userRepository.GetUser ((pgBulkDeactivateService (envOf true)).BulkDeactivate exTwoDB
        "backend" ["u2", "u4"]).2 "u3"
      = userRepository.GetUser exTwoDB "u3" ∧
    reviewersOf ((pgBulkDeactivateService (envOf true)).BulkDeactivate exTwoDB
      "backend" ["u2", "u4"]).2 "p1" = ["u2", "u3"] ∧
    reviewersOf ((pgBulkDeactivateService (envOf true)).BulkDeactivate exTwoDB
      "backend" ["u2", "u4"]).2 "p2" = ["u3"] ∧
    reviewersOf ((pgBulkDeactivateService (envOf true)).BulkDeactivate exTwoDB
      "backend" ["u4"]).2 "p1" = reviewersOf exTwoDB "p1" :=
  ⟨(bulkDeactivate_frame (envOf true) exTwoDB "backend" ["u2", "u4"]).1 "p1" "u3"
      (by decide) (by decide),
    (bulkDeactivate_frame (envOf true) exTwoDB "backend" ["u2", "u4"]).2.2.1 "u3" (by decide),
    by decide, by decide,
    (bulkDeactivate_frame (envOf true) exTwoDB "backend" ["u4"]).2.1 "p1" (by decide)⟩

/-! ## Lemmas: a `BulkDeactivate` that reaches its loop -/

theorem validateUsers_none_inv {σ : Type} (svc : BulkDeactivateService σ) (s : σ)
    (teamName : String) : ∀ (userIDs : List String),
      svc.validateUsers s teamName userIDs = none →
      ∀ id ∈ userIDs, ∃ u, svc.userRepo.GetUser s id = .ok u ∧ u.TeamName = teamName
  | [], _, id, hid => by simp at hid
  | userID :: rest, h, id, hid => by
    unfold BulkDeactivateService.validateUsers at h
    cases hu : svc.userRepo.GetUser s userID with
    | error e =>
      rw [hu] at h
      cases h
    | ok user =>
      rw [hu] at h
      simp only at h
      by_cases ht : user.TeamName ≠ teamName
      · rw [if_pos ht] at h
        cases h
      · rw [if_neg ht] at h
        rcases List.mem_cons.mp hid with e | hin
        · subst e
          exact ⟨user, hu, not_not.mp ht⟩
        · exact validateUsers_none_inv svc s teamName rest h id hin

/-- The state after `BulkDeactivate`, with what the call has checked before it writes. -/
theorem BulkDeactivate_cases {σ : Type} (svc : BulkDeactivateService σ) (s : σ)
    (teamName : String) (userIDs : List String) :
    (svc.BulkDeactivate s teamName userIDs).2 = s ∨
    ∃ openPRs, svc.prRepo.GetOpenPRsByReviewers s userIDs = .ok openPRs ∧
      (∀ id ∈ userIDs, ∃ u, svc.userRepo.GetUser s id = .ok u ∧ u.TeamName = teamName) ∧
      ((svc.BulkDeactivate s teamName userIDs).2
          = (svc.userRepo.BulkSetIsActive s userIDs false).2 ∨
       (svc.BulkDeactivate s teamName userIDs).2
          = svc.reassignPRs userIDs openPRs (svc.userRepo.BulkSetIsActive s userIDs false).2) := by
  unfold BulkDeactivateService.BulkDeactivate
  split
  · exact Or.inl rfl
  · cases svc.teamRepo.GetTeam s teamName with
    | error e => exact Or.inl rfl
    | ok team =>
      simp only
      cases hv : svc.validateUsers s teamName userIDs with
      | some e => exact Or.inl rfl
      | none =>
        simp only
        cases hsnap : svc.prRepo.GetOpenPRsByReviewers s userIDs with
        | error e => exact Or.inl rfl
        | ok openPRs =>
          simp only
          refine Or.inr ⟨openPRs, rfl, validateUsers_none_inv svc s teamName userIDs hv, ?_⟩
          rcases svc.userRepo.BulkSetIsActive s userIDs false with ⟨_ | e, s1⟩
          · exact Or.inr rfl
          · exact Or.inl rfl

theorem userRepository.GetUser_of_users (s t : DB) (id : String) (h : t.users = s.users) :
    userRepository.GetUser t id = userRepository.GetUser s id := by
  unfold userRepository.GetUser
  rw [h]

/-! ## C26: the eligibility of the replacements of `BulkDeactivate` -/

/-- C26: over PostgreSQL, every `ReassignReviewer(prID, old, new)` that
`BulkDeactivate(teamName, userIDs)` issues names as `new` the id of a row of `users` that, in
the store the command is issued in, is active and of team `teamName`; `old` is a listed user,
read in that store as a user of team `teamName`; `new` is not listed; and the snapshot read
before the deactivation holds a pull request `prID` that lists `old` and does not list
`new`. -/
theorem bulkDeactivate_replacement_eligible (env : PgEnv) (s : DB) (teamName : String)
    (userIDs : List String) :
    ∀ c ∈ ((pgBulkDeactivateService env).recorded.BulkDeactivate (Recorder.start s) teamName
        userIDs).2.calls,
      ∀ (prID old new : String), c.2 = RepoCall.ReassignReviewer prID old new →
        (∃ u ∈ c.1.users, u.UserID = new ∧ u.IsActive = true ∧ u.TeamName = teamName) ∧
        (∃ o, userRepository.GetUser c.1 old = .ok o ∧ o.TeamName = teamName) ∧
        old ∈ userIDs ∧ new ∉ userIDs ∧
        ∃ openPRs, pullRequestRepository.GetOpenPRsByReviewers env s userIDs = .ok openPRs ∧
          ∃ pr ∈ openPRs, pr.PullRequestID = prID ∧ old ∈ pr.AssignedReviewers ∧
            new ∉ pr.AssignedReviewers := by
  let Q : DB × RepoCall → Prop := fun c =>
    ∀ (prID old new : String), c.2 = RepoCall.ReassignReviewer prID old new →
      (∃ u ∈ c.1.users, u.UserID = new ∧ u.IsActive = true ∧ u.TeamName = teamName) ∧
      (∃ o, userRepository.GetUser c.1 old = .ok o ∧ o.TeamName = teamName) ∧
      old ∈ userIDs ∧ new ∉ userIDs ∧
      ∃ openPRs, pullRequestRepository.GetOpenPRsByReviewers env s userIDs = .ok openPRs ∧
        ∃ pr ∈ openPRs, pr.PullRequestID = prID ∧ old ∈ pr.AssignedReviewers ∧
          new ∉ pr.AssignedReviewers
  let P : Recorder DB → Prop := fun t =>
    t.state.users = (userRepository.BulkSetIsActive s userIDs false).2.users ∧
      ∀ c ∈ t.calls, Q c
  have hset : (pgBulkDeactivateService env).recorded.userRepo.BulkSetIsActive
      (Recorder.start s) userIDs false
      = ((userRepository.BulkSetIsActive s userIDs false).1,
          { state := (userRepository.BulkSetIsActive s userIDs false).2,
            calls := [(s, RepoCall.BulkSetIsActive userIDs false)] }) := rfl
  have hQset : ∀ c ∈ [(s, RepoCall.BulkSetIsActive userIDs false)], Q c := by
    intro c hc prID old new heq
    rw [List.mem_singleton] at hc
    rw [hc] at heq
    cases heq
  show ∀ c ∈ _, Q c
  rcases BulkDeactivate_cases (pgBulkDeactivateService env).recorded (Recorder.start s)
    teamName userIDs with h | ⟨openPRs, hsnap, hval, h | h⟩
  · rw [h]
    intro c hc
    simp [Recorder.start] at hc
  · rw [h, hset]
    exact hQset
  · rw [h, hset]
    have hsnap1 : pullRequestRepository.GetOpenPRsByReviewers env s userIDs = .ok openPRs :=
      hsnap
    have hval1 : ∀ id ∈ userIDs, ∃ u,
        userRepository.GetUser s id = .ok u ∧ u.TeamName = teamName := hval
    refine (reassignPRs_invariant_slot (pgBulkDeactivateService env).recorded userIDs P
      openPRs ?_ _ ⟨rfl, hQset⟩).2
    intro pr hpr old hold t u cand rest ht hu hc
    obtain ⟨hin, hlisted⟩ := (mem_deactivatedReviewers pr userIDs old).mp hold
    have hu1 : userRepository.GetUser t.state old = .ok u := hu
    have hc1 : userRepository.GetActiveUsersByTeam t.state u.TeamName
        (userIDs ++ pr.AssignedReviewers) = .ok (cand :: rest) := hc
    rw [recorded_ReassignReviewer]
    refine ⟨?_, ?_⟩
    · show (pullRequestRepository.ReassignReviewer env t.state pr.PullRequestID old
        cand.UserID).2.users = _
      rw [pullRequestRepository.ReassignReviewer_users]
      exact ht.1
    · intro c hmem
      simp only [Recorder.log, List.mem_append, List.mem_singleton] at hmem
      rcases hmem with hmem | hmem
      · exact ht.2 c hmem
      · intro prID o n heq
        rw [hmem] at heq ⊢
        simp only [RepoCall.ReassignReviewer.injEq] at heq
        obtain ⟨h1, h2, h3⟩ := heq
        subst h1 h2 h3
        obtain ⟨hcu, hct, hca, hcx⟩ :=
          (userRepository.GetActiveUsersByTeam_mem t.state u.TeamName _ _ hc1 cand).mp
            (List.mem_cons_self _ _)
        obtain ⟨u0, hu0, hteam0⟩ := hval1 old hlisted
        have hafter := userRepository.GetUser_after_bulkSet s userIDs old u0 hu0 hlisted
        rw [← userRepository.GetUser_of_users _ t.state old ht.1, hu1] at hafter
        injection hafter with hafter
        have hut : u.TeamName = teamName := by
          rw [hafter]
          exact hteam0
        refine ⟨⟨cand, hcu, rfl, hca, hct.trans hut⟩, ⟨u, hu1, hut⟩, hlisted,
          fun hx => hcx (List.mem_append_left _ hx), openPRs, hsnap1, pr, hpr, rfl, hin,
          fun hx => hcx (List.mem_append_right _ hx)⟩

/-- Witness for C26: the one replacement issued in `exTwoDB` for the batch u2, u4 puts the
active u3 of team `backend` on p2, whose snapshot lists u4 only. -/
theorem bulkDeactivate_replacement_eligible_witness :
    ((pgBulkDeactivateService (envOf true)).recorded.BulkDeactivate
        (Recorder.start exTwoDB) "backend" ["u2", "u4"]).2.calls.map Prod.snd
      = [RepoCall.BulkSetIsActive ["u2", "u4"] false,
         RepoCall.ReassignReviewer "p2" "u4" "u3"] ∧
    ((∃ u ∈ (userRepository.BulkSetIsActive exTwoDB ["u2", "u4"] false).2.users,
        u.UserID = "u3" ∧ u.IsActive = true ∧ u.TeamName = "backend") ∧
      (∃ o, userRepository.GetUser (userRepository.BulkSetIsActive exTwoDB ["u2", "u4"]
          false).2 "u4" = .ok o ∧ o.TeamName = "backend") ∧
      "u4" ∈ ["u2", "u4"] ∧ "u3" ∉ ["u2", "u4"] ∧
      ∃ openPRs, pullRequestRepository.GetOpenPRsByReviewers (envOf true) exTwoDB
          ["u2", "u4"] = .ok openPRs ∧
        ∃ pr ∈ openPRs, pr.PullRequestID = "p2" ∧ "u4" ∈ pr.AssignedReviewers ∧
          "u3" ∉ pr.AssignedReviewers) :=
  ⟨by decide,
    bulkDeactivate_replacement_eligible (envOf true) exTwoDB "backend" ["u2", "u4"]
      ((userRepository.BulkSetIsActive exTwoDB ["u2", "u4"] false).2,
        RepoCall.ReassignReviewer "p2" "u4" "u3")
      (by decide) "p2" "u4" "u3" rfl⟩

/-! ## Lemmas: `ReassignReviewer` commands on different pull requests commute -/

/-- A `ReassignReviewer` command keeps the reviewer rows of every other pull request. -/
theorem pullRequestRepository.ReassignReviewer_rows_other (env : PgEnv) (t : DB)
    (prID old new X : String) (hne : X ≠ prID) :
    (pullRequestRepository.ReassignReviewer env t prID old new).2.pr_reviewers.filter
        (fun r => decide (r.1 = X))
      = t.pr_reviewers.filter (fun r => decide (r.1 = X)) := by
  unfold pullRequestRepository.ReassignReviewer
  simp only
  split
  · rfl
  · split
    · rfl
    · simp only
      apply filter_map_of_fixed
      intro x _
      by_cases hc : x.1 = prID ∧ x.2 = old
      · have hxX : ¬ x.1 = X := fun e => hne (e.symm.trans hc.1)
        have hpX : ¬ prID = X := fun e => hne e.symm
        rw [if_pos hc]
        simp [hxX, hpX]
      · rw [if_neg hc]
        simp

theorem rows_filter_pair (rows : List (String × String)) (X o : String) :
    rows.filter (fun r => decide (r.1 = X ∧ r.2 = o))
      = (rows.filter (fun r => decide (r.1 = X))).filter (fun r => decide (r.2 = o)) := by
  rw [List.filter_filter]
  congr 1
  funext r
  by_cases h1 : r.1 = X <;> by_cases h2 : r.2 = o <;> simp [h1, h2]

theorem rows_mem_filter (rows : List (String × String)) (X n : String) :
    (X, n) ∈ rows ↔ (X, n) ∈ rows.filter (fun r => decide (r.1 = X)) := by
  simp [List.mem_filter]

/-- Whether a `ReassignReviewer` command writes depends only on the reviewer rows of its
pull request. -/
theorem pullRequestRepository.ReassignReviewer_congr (env : PgEnv) (t1 t : DB)
    (X o n : String)
    (h : t1.pr_reviewers.filter (fun r => decide (r.1 = X))
      = t.pr_reviewers.filter (fun r => decide (r.1 = X))) :
    ((pullRequestRepository.ReassignReviewer env t1 X o n).2 = t1 ∧
      (pullRequestRepository.ReassignReviewer env t X o n).2 = t) ∨
    ((pullRequestRepository.ReassignReviewer env t1 X o n).2
        = { t1 with pr_reviewers := t1.pr_reviewers.map (fun r =>
            if r.1 = X ∧ r.2 = o then (X, n) else r) } ∧
      (pullRequestRepository.ReassignReviewer env t X o n).2
        = { t with pr_reviewers := t.pr_reviewers.map (fun r =>
            if r.1 = X ∧ r.2 = o then (X, n) else r) }) := by
  have hcount : t1.pr_reviewers.filter (fun r => decide (r.1 = X ∧ r.2 = o))
      = t.pr_reviewers.filter (fun r => decide (r.1 = X ∧ r.2 = o)) := by
    rw [rows_filter_pair, rows_filter_pair, h]
  have hmem : (X, n) ∈ t1.pr_reviewers ↔ (X, n) ∈ t.pr_reviewers := by
    rw [rows_mem_filter t1.pr_reviewers, rows_mem_filter t.pr_reviewers, h]
  unfold pullRequestRepository.ReassignReviewer
  simp only
  rw [hcount]
  by_cases h0 : (t.pr_reviewers.filter (fun r => decide (r.1 = X ∧ r.2 = o))).length = 0
  · rw [if_pos h0, if_pos h0]
    exact Or.inl ⟨rfl, rfl⟩
  · rw [if_neg h0, if_neg h0]
    by_cases hk : env.reviewersKey = true ∧ n ≠ o ∧ (X, n) ∈ t.pr_reviewers
    · have hk1 : env.reviewersKey = true ∧ n ≠ o ∧ (X, n) ∈ t1.pr_reviewers :=
        ⟨hk.1, hk.2.1, hmem.mpr hk.2.2⟩
      rw [if_pos hk, if_pos hk1]
      exact Or.inl ⟨rfl, rfl⟩
    · have hk1 : ¬ (env.reviewersKey = true ∧ n ≠ o ∧ (X, n) ∈ t1.pr_reviewers) :=
        fun c => hk ⟨c.1, c.2.1, hmem.mp c.2.2⟩
      rw [if_neg hk, if_neg hk1]
      exact Or.inr ⟨rfl, rfl⟩

theorem replace_rows_comm (rows : List (String × String)) (X oX nX Y oY nY : String)
    (hne : X ≠ Y) :
    (rows.map (fun r => if r.1 = Y ∧ r.2 = oY then (Y, nY) else r)).map
        (fun r => if r.1 = X ∧ r.2 = oX then (X, nX) else r)
      = (rows.map (fun r => if r.1 = X ∧ r.2 = oX then (X, nX) else r)).map
        (fun r => if r.1 = Y ∧ r.2 = oY then (Y, nY) else r) := by
  rw [List.map_map, List.map_map]
  apply List.map_congr_left
  intro r _
  simp only [Function.comp]
  by_cases hY : r.1 = Y ∧ r.2 = oY
  · have hX : ¬ (r.1 = X ∧ r.2 = oX) := fun c => hne (c.1.symm.trans hY.1)
    have hX1 : ¬ (Y = X ∧ nY = oX) := fun c => hne c.1.symm
    rw [if_pos hY, if_neg hX, if_pos hY]
    simp only
    rw [if_neg hX1]
  · rw [if_neg hY]
    by_cases hX : r.1 = X ∧ r.2 = oX
    · have hY1 : ¬ (X = Y ∧ nX = oY) := fun c => hne c.1
      rw [if_pos hX]
      simp only
      rw [if_neg hY1]
    · rw [if_neg hX, if_neg hY]

/-- Two `ReassignReviewer` commands on different pull requests leave the same store in
either order. -/
theorem pullRequestRepository.ReassignReviewer_comm (env : PgEnv) (t : DB)
    (X oX nX Y oY nY : String) (hne : X ≠ Y) :
    (pullRequestRepository.ReassignReviewer env
        (pullRequestRepository.ReassignReviewer env t Y oY nY).2 X oX nX).2
      = (pullRequestRepository.ReassignReviewer env
          (pullRequestRepository.ReassignReviewer env t X oX nX).2 Y oY nY).2 := by
  have hX := pullRequestRepository.ReassignReviewer_rows_other env t Y oY nY X hne
  have hY := pullRequestRepository.ReassignReviewer_rows_other env t X oX nX Y
    (fun e => hne e.symm)
  rcases pullRequestRepository.ReassignReviewer_congr env _ t X oX nX hX with
    ⟨a1, a2⟩ | ⟨a1, a2⟩ <;>
  rcases pullRequestRepository.ReassignReviewer_congr env _ t Y oY nY hY with
    ⟨b1, b2⟩ | ⟨b1, b2⟩
  · rw [a1, b1, a2, b2]
  · rw [a1, b1, a2, b2]
  · rw [a1, b1, a2, b2]
  · rw [a1, b1, a2, b2]
    simp only
    rw [replace_rows_comm _ X oX nX Y oY nY hne]

/-! ## Lemmas: the attempts for different pull requests commute -/

/-- Over PostgreSQL, which replacement an attempt writes, if any, depends only on table
`users`. -/
theorem pgReassignSlot_choice (env : PgEnv) (userIDs : List String) (pr : PullRequest)
    (old : String) (t : DB) :
    (∀ t1 : DB, t1.users = t.users →
      (pgBulkDeactivateService env).reassignSlot userIDs pr old t1 = t1) ∨
    ∃ new, ∀ t1 : DB, t1.users = t.users →
      (pgBulkDeactivateService env).reassignSlot userIDs pr old t1
        = (pullRequestRepository.ReassignReviewer env t1 pr.PullRequestID old new).2 := by
  have hform : ∀ t1 : DB, t1.users = t.users →
      (pgBulkDeactivateService env).reassignSlot userIDs pr old t1
        = (match userRepository.GetUser t old with
          | .error _ => t1
          | .ok oldReviewer =>
            match userRepository.GetActiveUsersByTeam t oldReviewer.TeamName
                (userIDs ++ pr.AssignedReviewers) with
            | .error _ => t1
            | .ok [] => t1
            | .ok (candidate :: _) =>
              (pullRequestRepository.ReassignReviewer env t1 pr.PullRequestID old
                candidate.UserID).2) := by
    intro t1 h1
    have hg : ∀ id, userRepository.GetUser t1 id = userRepository.GetUser t id :=
      fun id => userRepository.GetUser_of_users t t1 id h1
    have ha : ∀ team excl, userRepository.GetActiveUsersByTeam t1 team excl
        = userRepository.GetActiveUsersByTeam t team excl := by
      intro team excl
      unfold userRepository.GetActiveUsersByTeam
      rw [h1]
    unfold BulkDeactivateService.reassignSlot
    show (match userRepository.GetUser t1 old with
      | .error _ => t1
      | .ok oldReviewer =>
        match userRepository.GetActiveUsersByTeam t1 oldReviewer.TeamName
            (userIDs ++ pr.AssignedReviewers) with
        | .error _ => t1
        | .ok [] => t1
        | .ok (candidate :: _) =>
          (pullRequestRepository.ReassignReviewer env t1 pr.PullRequestID old
            candidate.UserID).2) = _
    rw [hg]
    cases userRepository.GetUser t old with
    | error e => rfl
    | ok u =>
      simp only
      rw [ha]
  cases hu : userRepository.GetUser t old with
  | error e =>
    refine Or.inl (fun t1 h1 => ?_)
    rw [hform t1 h1, hu]
  | ok u =>
    cases hc : userRepository.GetActiveUsersByTeam t u.TeamName
        (userIDs ++ pr.AssignedReviewers) with
    | error e =>
      refine Or.inl (fun t1 h1 => ?_)
      rw [hform t1 h1, hu]
      simp only
      rw [hc]
    | ok candidates =>
      cases candidates with
      | nil =>
        refine Or.inl (fun t1 h1 => ?_)
        rw [hform t1 h1, hu]
        simp only
        rw [hc]
      | cons c rest =>
        refine Or.inr ⟨c.UserID, fun t1 h1 => ?_⟩
        rw [hform t1 h1, hu]
        simp only
        rw [hc]

theorem pgReassignSlot_users (env : PgEnv) (userIDs : List String) (pr : PullRequest)
    (old : String) (t : DB) :
    ((pgBulkDeactivateService env).reassignSlot userIDs pr old t).users = t.users := by
  rcases reassignSlot_cases (pgBulkDeactivateService env) userIDs pr old t with
    h | ⟨u, c, rest, -, -, h⟩
  · rw [h]
  · rw [h]
    exact pullRequestRepository.ReassignReviewer_users env t _ _ _

/-- Two attempts for different pull requests leave the same store in either order. -/
theorem pgReassignSlot_comm (env : PgEnv) (userIDs : List String) (prX prY : PullRequest)
    (oX oY : String) (hne : prX.PullRequestID ≠ prY.PullRequestID) (t : DB) :
    (pgBulkDeactivateService env).reassignSlot userIDs prX oX
        ((pgBulkDeactivateService env).reassignSlot userIDs prY oY t)
      = (pgBulkDeactivateService env).reassignSlot userIDs prY oY
        ((pgBulkDeactivateService env).reassignSlot userIDs prX oX t) := by
  have uX := pgReassignSlot_users env userIDs prX oX t
  have uY := pgReassignSlot_users env userIDs prY oY t
  rcases pgReassignSlot_choice env userIDs prX oX t with hX | ⟨nX, hX⟩ <;>
  rcases pgReassignSlot_choice env userIDs prY oY t with hY | ⟨nY, hY⟩
  · rw [hX _ uY, hY _ uX, hX t rfl, hY t rfl]
  · rw [hX _ uY, hY _ uX, hX t rfl, hY t rfl]
  · rw [hX _ uY, hY _ uX, hX t rfl, hY t rfl]
  · rw [hX _ uY, hY _ uX, hX t rfl, hY t rfl]
    exact pullRequestRepository.ReassignReviewer_comm env t _ oX nX _ oY nY hne

theorem foldl_comm_step {α β γ : Type} (f : γ → α → γ) (g : γ → β → γ) (a : α) :
    ∀ (lb : List β), (∀ b ∈ lb, ∀ t, f (g t b) a = g (f t a) b) →
      ∀ t, f (lb.foldl g t) a = lb.foldl g (f t a)
  | [], _, _ => rfl
  | b :: rest, h, t => by
    rw [List.foldl_cons, List.foldl_cons,
      foldl_comm_step f g a rest (fun b1 hb1 => h b1 (List.mem_cons_of_mem _ hb1)),
      h b (List.mem_cons_self _ _)]

theorem foldl_comm_foldl {α β γ : Type} (f : γ → α → γ) (g : γ → β → γ) (lb : List β) :
    ∀ (la : List α), (∀ a ∈ la, ∀ b ∈ lb, ∀ t, f (g t b) a = g (f t a) b) →
      ∀ t, la.foldl f (lb.foldl g t) = lb.foldl g (la.foldl f t)
  | [], _, _ => rfl
  | a :: rest, h, t => by
    rw [List.foldl_cons, List.foldl_cons,
      foldl_comm_step f g a lb (h a (List.mem_cons_self _ _)),
      foldl_comm_foldl f g lb rest (fun a1 ha1 => h a1 (List.mem_cons_of_mem _ ha1))]

/-- The loops over the deactivated reviewers of two different pull requests leave the same
store in either order. -/
theorem pgReassignSlots_comm (env : PgEnv) (userIDs : List String) (prX prY : PullRequest)
    (hne : prX.PullRequestID ≠ prY.PullRequestID) (t : DB) :
    (deactivatedReviewers prX userIDs).foldl
        (fun t old => (pgBulkDeactivateService env).reassignSlot userIDs prX old t)
        ((deactivatedReviewers prY userIDs).foldl
          (fun t old => (pgBulkDeactivateService env).reassignSlot userIDs prY old t) t)
      = (deactivatedReviewers prY userIDs).foldl
        (fun t old => (pgBulkDeactivateService env).reassignSlot userIDs prY old t)
        ((deactivatedReviewers prX userIDs).foldl
          (fun t old => (pgBulkDeactivateService env).reassignSlot userIDs prX old t) t) :=
  foldl_comm_foldl _ _ _ _
    (fun a _ b _ t => pgReassignSlot_comm env userIDs prX prY a b hne t) t

/-! ## Lemmas: the snapshot up to the order of the map -/

theorem firstPerID_nodup :
    ∀ (rows : List PRRow), ((firstPerID rows).map PRRow.pull_request_id).Nodup
  | [] => List.nodup_nil
  | r :: rest => by
    unfold firstPerID
    rw [List.map_cons, List.nodup_cons]
    constructor
    · intro hmem
      rw [List.mem_map] at hmem
      obtain ⟨x, hx, hid⟩ := hmem
      have := (List.mem_filter.mp hx).2
      simp only [decide_eq_true_eq] at this
      exact this hid
    · exact ((List.filter_sublist _).map _).nodup (firstPerID_nodup rest)

/-- The snapshot read by `GetOpenPRsByReviewers` is, for every iteration order of the map, a
permutation of one list of pull requests with pairwise different ids. -/
theorem pullRequestRepository.GetOpenPRsByReviewers_perm (s : DB) (userIDs : List String) :
    ∃ base : List PullRequest, (base.map PullRequest.PullRequestID).Nodup ∧
      ∀ env : PgEnv, (∀ l, (env.mapOrder l).Perm l) →
        ∃ prs, pullRequestRepository.GetOpenPRsByReviewers env s userIDs = .ok prs ∧
          prs.Perm base := by
  by_cases h0 : userIDs.length = 0
  · refine ⟨[], List.nodup_nil, fun env _ => ⟨[], ?_, List.Perm.refl _⟩⟩
    unfold pullRequestRepository.GetOpenPRsByReviewers
    rw [if_pos h0]
  · refine ⟨(((firstPerID (s.pull_requests.filter (fun r =>
        r.status = "OPEN" ∧
          ∃ rv ∈ s.pr_reviewers, rv.1 = r.pull_request_id ∧ rv.2 ∈ userIDs))).map
        (fun row : PRRow =>
          ({ PullRequestID := row.pull_request_id, PullRequestName := row.pull_request_name,
             AuthorID := row.author_id, Status := row.status, AssignedReviewers := [],
             CreatedAt := row.created_at, MergedAt := row.merged_at } : PullRequest))).map
        (fun pr : PullRequest =>
          { pr with AssignedReviewers
              := pr.AssignedReviewers ++ reviewersOf s pr.PullRequestID })), ?_, ?_⟩
    · rw [List.map_map, List.map_map]
      exact firstPerID_nodup _
    · intro env hperm
      refine ⟨_, ?_, (hperm _).map _⟩
      unfold pullRequestRepository.GetOpenPRsByReviewers
      rw [if_neg h0]

theorem validateUsers_congr {σ : Type} (svc1 svc2 : BulkDeactivateService σ) (s : σ)
    (teamName : String) (hu : svc1.userRepo = svc2.userRepo) : ∀ (userIDs : List String),
      svc1.validateUsers s teamName userIDs = svc2.validateUsers s teamName userIDs
  | [] => rfl
  | userID :: rest => by
    unfold BulkDeactivateService.validateUsers
    rw [hu, validateUsers_congr svc1 svc2 s teamName hu rest]

/-- Two services with the same user and team repositories, whose snapshots lead their loops
to the same state, return the same and end in the same state. -/
theorem BulkDeactivate_congr {σ : Type} (svc1 svc2 : BulkDeactivateService σ) (s : σ)
    (teamName : String) (userIDs : List String) (prs1 prs2 : List PullRequest)
    (hu : svc1.userRepo = svc2.userRepo) (ht : svc1.teamRepo = svc2.teamRepo)
    (h1 : svc1.prRepo.GetOpenPRsByReviewers s userIDs = .ok prs1)
    (h2 : svc2.prRepo.GetOpenPRsByReviewers s userIDs = .ok prs2)
    (hloop : ∀ s1, svc1.reassignPRs userIDs prs1 s1 = svc2.reassignPRs userIDs prs2 s1) :
    svc1.BulkDeactivate s teamName userIDs = svc2.BulkDeactivate s teamName userIDs := by
  unfold BulkDeactivateService.BulkDeactivate
  rw [ht, validateUsers_congr svc1 svc2 s teamName hu userIDs, hu, h1, h2]
  simp only [hloop]

/-- Over PostgreSQL the loop over the snapshot ends in the same store for every order of the
snapshot, when its pull requests have pairwise different ids. -/
theorem pgReassignPRs_perm (env : PgEnv) (userIDs : List String) (prs1 prs2 : List PullRequest)
    (hnd : (prs1.map PullRequest.PullRequestID).Nodup) (hperm : prs1.Perm prs2) (t : DB) :
    (pgBulkDeactivateService env).reassignPRs userIDs prs1 t
      = (pgBulkDeactivateService env).reassignPRs userIDs prs2 t := by
  rw [reassignPRs_eq_foldl, reassignPRs_eq_foldl]
  refine List.Perm.foldl_eq' hperm ?_ t
  intro x hx y hy z
  by_cases hxy : x = y
  · rw [hxy]
  · have hid : y.PullRequestID ≠ x.PullRequestID := fun e =>
      hxy (List.inj_on_of_nodup_map hnd hx hy e.symm)
    exact pgReassignSlots_comm env userIDs y x hid z

theorem pgReassignPRs_key (key : Bool) (m1 m2 : List PullRequest → List PullRequest)
    (c1 c2 : Nat → Nat) (userIDs : List String) (prs : List PullRequest) (t : DB) :
    (pgBulkDeactivateService { reviewersKey := key, mapOrder := m1, column := c1 }).reassignPRs
        userIDs prs t
      = (pgBulkDeactivateService { reviewersKey := key, mapOrder := m2, column := c2
          }).reassignPRs userIDs prs t := by
  rw [reassignPRs_eq_foldl, reassignPRs_eq_foldl]
  rfl

/-- Over PostgreSQL `BulkDeactivate` returns the same and ends in the same store whatever
order the map of `GetOpenPRsByReviewers` lists its entries in. -/
theorem pgBulkDeactivate_order (env1 env2 : PgEnv) (s : DB) (teamName : String)
    (userIDs : List String) (hkey : env1.reviewersKey = env2.reviewersKey)
    (h1 : ∀ l, (env1.mapOrder l).Perm l) (h2 : ∀ l, (env2.mapOrder l).Perm l) :
    (pgBulkDeactivateService env1).BulkDeactivate s teamName userIDs
      = (pgBulkDeactivateService env2).BulkDeactivate s teamName userIDs := by
  obtain ⟨base, hnd, hbase⟩ := pullRequestRepository.GetOpenPRsByReviewers_perm s userIDs
  obtain ⟨prs1, hs1, hp1⟩ := hbase env1 h1
  obtain ⟨prs2, hs2, hp2⟩ := hbase env2 h2
  refine BulkDeactivate_congr _ _ s teamName userIDs prs1 prs2 rfl rfl hs1 hs2 ?_
  intro s1
  have hnd1 : (prs1.map PullRequest.PullRequestID).Nodup :=
    ((hp1.map PullRequest.PullRequestID).nodup_iff).mpr hnd
  rw [pgReassignPRs_perm env1 userIDs prs1 prs2 hnd1 (hp1.trans hp2.symm) s1]
  obtain ⟨k1, m1, c1⟩ := env1
  obtain ⟨k2, m2, c2⟩ := env2
  simp only at hkey
  subst hkey
  exact pgReassignPRs_key k1 m1 m2 c1 c2 userIDs prs2 s1

/-! ## C27: `BulkDeactivate` chooses without a shuffle -/

/-- C27: `BulkDeactivate` takes no random draws.  For any repositories, every
`ReassignReviewer(prID, old, new)` it issues belongs to a slot of the loop: a pull request
`pr` of the snapshot read at the start, with id `prID`, and one of its deactivated reviewers
`old`; and `new` is the id of the first user of the list that `GetActiveUsersByTeam` returns,
in the state the command is issued in, for the team of `old` and the exclusion list
`userIDs ++ pr.AssignedReviewers` of that slot.  Over PostgreSQL the pull requests of the
snapshot have pairwise different ids, so the slot is the only one with that id and reviewer;
and the only freedom left is the order in which the map of `GetOpenPRsByReviewers` lists its
entries (each once): two runs from the same store with the same arguments return the same
and end in the same store.  `ReassignReviewer` of the pull request service, for contrast,
picks u4 or u1 in `exOpenDB` depending on the draws. -/
theorem bulkDeactivate_deterministic :
    (∀ {σ : Type} (svc : BulkDeactivateService σ) (s : σ) (teamName : String)
      (userIDs : List String),
      ∀ c ∈ (svc.recorded.BulkDeactivate (Recorder.start s) teamName userIDs).2.calls,
        ∀ (prID old new : String), c.2 = RepoCall.ReassignReviewer prID old new →
          ∃ openPRs, svc.prRepo.GetOpenPRsByReviewers s userIDs = .ok openPRs ∧
            ∃ pr ∈ openPRs, ∃ (u cand : User) (rest : List User),
              pr.PullRequestID = prID ∧ old ∈ deactivatedReviewers pr userIDs ∧
              svc.userRepo.GetUser c.1 old = .ok u ∧
              svc.userRepo.GetActiveUsersByTeam c.1 u.TeamName
                (userIDs ++ pr.AssignedReviewers) = .ok (cand :: rest) ∧
              new = cand.UserID) ∧
    (∀ (env : PgEnv) (s : DB) (userIDs : List String), (∀ l, (env.mapOrder l).Perm l) →
      ∃ openPRs, pullRequestRepository.GetOpenPRsByReviewers env s userIDs = .ok openPRs ∧
        (openPRs.map PullRequest.PullRequestID).Nodup) ∧
    (∀ (env1 env2 : PgEnv) (s : DB) (teamName : String) (userIDs : List String),
      env1.reviewersKey = env2.reviewersKey →
      (∀ l, (env1.mapOrder l).Perm l) → (∀ l, (env2.mapOrder l).Perm l) →
      (pgBulkDeactivateService env1).BulkDeactivate s teamName userIDs
        = (pgBulkDeactivateService env2).BulkDeactivate s teamName userIDs) ∧
    (((pgPullRequestService (envOf true)).ReassignReviewer (fun _ => 0) exOpenDB "p1" "u2").1
        = .ok (⟨"p1", "x", "u1", "OPEN", ["u3", "u4"], some 7, none⟩, "u4") ∧
      ((pgPullRequestService (envOf true)).ReassignReviewer (fun i => i) exOpenDB "p1"
          "u2").1
        = .ok (⟨"p1", "x", "u1", "OPEN", ["u1", "u3"], some 7, none⟩, "u1")) := by
  refine ⟨?_, ?_, pgBulkDeactivate_order, by rfl, by rfl⟩
  · intro σ svc s teamName userIDs
    let Q : σ × RepoCall → Prop := fun c =>
      ∀ (prID old new : String), c.2 = RepoCall.ReassignReviewer prID old new →
        ∃ openPRs, svc.prRepo.GetOpenPRsByReviewers s userIDs = .ok openPRs ∧
          ∃ pr ∈ openPRs, ∃ (u cand : User) (rest : List User),
            pr.PullRequestID = prID ∧ old ∈ deactivatedReviewers pr userIDs ∧
            svc.userRepo.GetUser c.1 old = .ok u ∧
            svc.userRepo.GetActiveUsersByTeam c.1 u.TeamName
              (userIDs ++ pr.AssignedReviewers) = .ok (cand :: rest) ∧
            new = cand.UserID
    have hset : svc.recorded.userRepo.BulkSetIsActive (Recorder.start s) userIDs false
        = ((svc.userRepo.BulkSetIsActive s userIDs false).1,
            { state := (svc.userRepo.BulkSetIsActive s userIDs false).2,
              calls := [(s, RepoCall.BulkSetIsActive userIDs false)] }) := rfl
    have hQset : ∀ c ∈ [(s, RepoCall.BulkSetIsActive userIDs false)], Q c := by
      intro c hc prID old new heq
      rw [List.mem_singleton] at hc
      rw [hc] at heq
      cases heq
    show ∀ c ∈ _, Q c
    rcases BulkDeactivate_cases svc.recorded (Recorder.start s) teamName userIDs with
      h | ⟨openPRs, hsnap, -, h | h⟩
    · rw [h]
      intro c hc
      simp [Recorder.start] at hc
    · rw [h, hset]
      exact hQset
    · rw [h, hset]
      have hsnap1 : svc.prRepo.GetOpenPRsByReviewers s userIDs = .ok openPRs := hsnap
      refine reassignPRs_invariant_slot svc.recorded userIDs
        (fun t : Recorder σ => ∀ c ∈ t.calls, Q c) openPRs ?_ _ hQset
      intro pr hpr old hold t u cand rest ht hu hc
      rw [recorded_ReassignReviewer]
      intro c hmem
      simp only [Recorder.log, List.mem_append, List.mem_singleton] at hmem
      rcases hmem with hmem | hmem
      · exact ht c hmem
      · intro prID o n heq
        rw [hmem] at heq ⊢
        simp only [RepoCall.ReassignReviewer.injEq] at heq
        obtain ⟨h1, h2, h3⟩ := heq
        subst h1 h2 h3
        exact ⟨openPRs, hsnap1, pr, hpr, u, cand, rest, rfl, hold, hu, hc, rfl⟩
  · intro env s userIDs hperm
    obtain ⟨base, hnd, hbase⟩ := pullRequestRepository.GetOpenPRsByReviewers_perm s userIDs
    obtain ⟨prs, hs, hp⟩ := hbase env hperm
    exact ⟨prs, hs, ((hp.map PullRequest.PullRequestID).nodup_iff).mpr hnd⟩

/-- Witness for C27: `BulkDeactivate("backend", [u2, u4])` on `exTwoDB` issues one
replacement, `ReassignReviewer(p2, u4, u3)`: the slot is u4 on p2 of the snapshot, and u3 is
the first (and only) candidate of team `backend` outside `[u2, u4] ++ [u4]` in the store the
deactivation left.  The call ends in the same store whether the map lists the snapshot as
inserted or reversed. -/
theorem bulkDeactivate_deterministic_witness :
    ((pgBulkDeactivateService (envOf true)).recorded.BulkDeactivate
        (Recorder.start exTwoDB) "backend" ["u2", "u4"]).2.calls
      = [(exTwoDB, RepoCall.BulkSetIsActive ["u2", "u4"] false),
         ((userRepository.BulkSetIsActive exTwoDB ["u2", "u4"] false).2,
           RepoCall.ReassignReviewer "p2" "u4" "u3")] ∧
    (∃ openPRs,
      pullRequestRepository.GetOpenPRsByReviewers (envOf true) exTwoDB ["u2", "u4"]
        = .ok openPRs ∧
      ∃ pr ∈ openPRs, ∃ (u cand : User) (rest : List User),
        pr.PullRequestID = "p2" ∧ "u4" ∈ deactivatedReviewers pr ["u2", "u4"] ∧
        userRepository.GetUser (userRepository.BulkSetIsActive exTwoDB ["u2", "u4"] false).2
          "u4" = .ok u ∧
        userRepository.GetActiveUsersByTeam
          (userRepository.BulkSetIsActive exTwoDB ["u2", "u4"] false).2 u.TeamName
          (["u2", "u4"] ++ pr.AssignedReviewers) = .ok (cand :: rest) ∧
        "u3" = cand.UserID) ∧
    userRepository.GetActiveUsersByTeam
        (userRepository.BulkSetIsActive exTwoDB ["u2", "u4"] false).2 "backend"
        (["u2", "u4"] ++ ["u4"])
      = .ok [⟨"u3", "Carol", "backend", true⟩] ∧
    (pgBulkDeactivateService (envOf true)).BulkDeactivate exTwoDB "backend" ["u2", "u4"]
      = (pgBulkDeactivateService (envReversed true)).BulkDeactivate exTwoDB "backend"
          ["u2", "u4"] ∧
    (pullRequestRepository.GetOpenPRsByReviewers (envOf true) exTwoDB
        ["u2", "u4"]).toOption.map (List.map PullRequest.PullRequestID)
      = some ["p1", "p2"] ∧
    (pullRequestRepository.GetOpenPRsByReviewers (envReversed true) exTwoDB
        ["u2", "u4"]).toOption.map (List.map PullRequest.PullRequestID)
      = some ["p2", "p1"] :=
  ⟨by decide,
    bulkDeactivate_deterministic.1 (pgBulkDeactivateService (envOf true)) exTwoDB "backend"
      ["u2", "u4"]
      ((userRepository.BulkSetIsActive exTwoDB ["u2", "u4"] false).2,
        RepoCall.ReassignReviewer "p2" "u4" "u3")
      (by decide) "p2" "u4" "u3" rfl,
    by rfl,
    bulkDeactivate_deterministic.2.2.1 (envOf true) (envReversed true) exTwoDB "backend"
      ["u2", "u4"] rfl (fun l => List.Perm.refl l) (fun l => List.reverse_perm l),
    by decide, by decide⟩

end Avito
